import Mathlib

/-! # MucoProblemRep: reconciliation of a problem description with a model

A shallow embedding of `Muscollo/Muscollo/MucoProblemRep.cpp`, followed by the non-virtual
interface of `MocoGoal` from `Moco/Moco/MocoGoal/MocoGoal.h`, by `filterLowpass`,
`interpolate` and `createStateVariableNamesInSystemOrder` from
`Moco/Moco/MocoUtilities.cpp`, and by `Moco/Moco/MocoCost/MocoJointReactionCost.cpp`.

* Doubles are only stored and copied by `initialize`, never computed with, so the
  scalar type is a parameter `R`.
* `std::string` is `String`; `std::to_string` on a non-negative `int` is the decimal
  rendering `Nat.repr`.
* The name-keyed containers (`m_state_infos`, `m_control_infos`,
  `m_multiplier_infos_map`) are association lists with the three operations the
  source uses: `count`, `operator[]`-assignment and the non-overwriting `insert`.
* `OPENSIM_THROW_IF` is an `Except Exception` result.
* A virtual function of a goal is a field of the goal; what a `const` method mutates is
  returned next to its result.
* The `int` counters Simbody reports (`mp`, `mv`, `ma`, constraint indices) and the total
  of multibody-constraint equations are natural numbers: Simbody reports non-negative
  counts, and it holds their total in an `int` itself.
* The total of path-constraint equations, which `initialize` adds up from the counts the
  declared path constraints report, is an `Int`, and every addition is stored through
  `wrapInt`, the value an `int` keeps of the exact result.
-/

namespace OpenSim

/-! ## Exceptions and name-keyed maps -/

/-- The exception raised by `OPENSIM_THROW` and `OPENSIM_THROW_IF`, with its message. -/
structure Exception where
  msg : String
deriving DecidableEq, Repr

/-- A string-keyed map, kept as the list of its entries in order of first insertion. -/
abbrev StrMap (V : Type) := List (String × V)

namespace StrMap

variable {V : Type}

/-- The keys of the map, in order of first insertion. -/
def keys (m : StrMap V) : List String := m.map Prod.fst

/-- The lookup `m.at(k)`: `none` when the key is absent. -/
def find : StrMap V → String → Option V
  | [], _ => none
  | (k', v) :: t, k => if k' = k then some v else find t k

/-- The member function `m.count(k)`: 1 when the key is present, 0 otherwise. -/
def count (m : StrMap V) (k : String) : Nat :=
  match find m k with
  | some _ => 1
  | none => 0

/-- The assignment `m[k] = v`: overwrites the value of a present key, adds an absent key. -/
def assign : StrMap V → String → V → StrMap V
  | [], k, v => [(k, v)]
  | (k', v') :: t, k, v => if k' = k then (k', v) :: t else (k', v') :: assign t k v

/-- The call `m.insert({k, v})`: adds an absent key, leaves a present key untouched. -/
def insert (m : StrMap V) (k : String) (v : V) : StrMap V :=
  match find m k with
  | some _ => m
  | none => m ++ [(k, v)]

end StrMap

/-! ## Data model -/

/-- Modelled from the spec: MucoBounds, whose header is not among the sources: a lower and
an upper end; `none` is an end left unset, which the accessors report as NaN. -/
structure MucoBounds (R : Type) where
  lower : Option R
  upper : Option R
deriving DecidableEq, Repr

/-- The default-constructed bounds `{}`. -/
def MucoBounds.unset {R : Type} : MucoBounds R := ⟨none, none⟩

/-- The bounds `{lower, upper}` built from two doubles. -/
def MucoBounds.range {R : Type} (lower upper : R) : MucoBounds R := ⟨some lower, some upper⟩

/-- The accessor `getLower()`. -/
def MucoBounds.getLower {R : Type} (b : MucoBounds R) : Option R := b.lower

/-- The accessor `getUpper()`. -/
def MucoBounds.getUpper {R : Type} (b : MucoBounds R) : Option R := b.upper

/-- Modelled from the spec: MucoInitialBounds, the sub-bounds at the initial time, built
from a lower and an upper value. -/
structure MucoInitialBounds (R : Type) where
  lower : Option R
  upper : Option R
deriving DecidableEq, Repr

/-- Modelled from the spec: MucoFinalBounds, the sub-bounds at the final time, built from a
lower and an upper value. -/
structure MucoFinalBounds (R : Type) where
  lower : Option R
  upper : Option R
deriving DecidableEq, Repr

/-- Modelled from the spec: MucoVariableInfo, a name with bounds and initial and final
sub-bounds, as built by `MucoVariableInfo(name, bounds, initial, final)`. -/
structure MucoVariableInfo (R : Type) where
  name : String
  bounds : MucoBounds R
  initialBounds : MucoInitialBounds R
  finalBounds : MucoFinalBounds R
deriving DecidableEq, Repr

/-- Modelled from the spec: MucoConstraintInfo, a name, a number of scalar equations and
one bound per equation. -/
structure MucoConstraintInfo (R : Type) where
  name : String
  numEquations : Nat
  bounds : List (MucoBounds R)
deriving DecidableEq, Repr

/-- The accessor `getNumEquations()` of a constraint info. -/
def MucoConstraintInfo.getNumEquations {R : Type} (info : MucoConstraintInfo R) : Nat :=
  info.numEquations

/-- The call `setBounds(vec)` of a constraint info. -/
def MucoConstraintInfo.setBounds {R : Type} (info : MucoConstraintInfo R)
    (vec : List (MucoBounds R)) : MucoConstraintInfo R :=
  { info with bounds := vec }

/-- Modelled from the spec: MucoMultibodyConstraint, a kinematic constraint identified by
its engine index, with its counts of position-, velocity- and acceleration-level scalar
equations and its constraint info. -/
structure MucoMultibodyConstraint (R : Type) where
  cid : Nat
  mp : Nat
  mv : Nat
  ma : Nat
  constraintInfo : MucoConstraintInfo R
deriving DecidableEq, Repr

/-- Modelled from the spec: the constructor `MucoMultibodyConstraint(cid, mp, mv, ma)`,
which is not among the sources. Its constraint info has one scalar equation per counted
equation; the name it gives the info is not stated anywhere and is the parameter
`infoName`. -/
def MucoMultibodyConstraint.create {R : Type} (infoName : Nat → Nat → Nat → Nat → String)
    (cid mp mv ma : Nat) : MucoMultibodyConstraint R :=
  { cid := cid, mp := mp, mv := mv, ma := ma,
    constraintInfo :=
      { name := infoName cid mp mv ma, numEquations := mp + mv + ma, bounds := [] } }

/-- The accessor `getConstraintInfo()`. -/
def MucoMultibodyConstraint.getConstraintInfo {R : Type} (mc : MucoMultibodyConstraint R) :
    MucoConstraintInfo R :=
  mc.constraintInfo

/-- The call `setConstraintInfo(info)`. -/
def MucoMultibodyConstraint.setConstraintInfo {R : Type} (mc : MucoMultibodyConstraint R)
    (info : MucoConstraintInfo R) : MucoMultibodyConstraint R :=
  { mc with constraintInfo := info }

/-- Modelled from the spec: MucoParameter, a named scalar bound to a model property;
`bound` records that `initialize(model)` has been called on it. -/
structure MucoParameter where
  name : String
  bound : Bool
deriving DecidableEq, Repr

/-- The call `initialize(model)` on a cloned parameter. -/
def MucoParameter.initialize (p : MucoParameter) : MucoParameter :=
  { p with bound := true }

/-- Modelled from the spec: MucoCost, a named cost term; `bound` records that
`initialize(model)` has been called on it. -/
structure MucoCost where
  name : String
  bound : Bool
deriving DecidableEq, Repr

/-- The call `initialize(model)` on a cloned cost. -/
def MucoCost.initialize (c : MucoCost) : MucoCost :=
  { c with bound := true }

/-- Modelled from the spec: MucoPathConstraint, a named path constraint. `implEquations`
is the equation count the constraint determines while it is bound; `numEquations` is the
count its constraint info reports and `startIndex` the first global equation index it was
given, an `int`, both set by `initialize(model, index)`. -/
structure MucoPathConstraint where
  name : String
  implEquations : Nat
  numEquations : Nat
  startIndex : Option Int
deriving DecidableEq, Repr

/-- The call `initialize(model, pathConstraintIndex)` on a cloned path constraint. -/
def MucoPathConstraint.initialize (pc : MucoPathConstraint) (pathConstraintIndex : Int) :
    MucoPathConstraint :=
  { pc with numEquations := pc.implEquations, startIndex := some pathConstraintIndex }

/-- A generalized coordinate of the model: `path` is
`getAbsolutePath().formRelativePath(modelPath).toString()`. -/
structure Coordinate (R : Type) where
  path : String
  rangeMin : R
  rangeMax : R
deriving DecidableEq, Repr

/-- A scalar actuator of the model, `path` being its path relative to the model. -/
structure ScalarActuator (R : Type) where
  path : String
  minControl : R
  maxControl : R
deriving DecidableEq, Repr

/-- A `SimTK::Constraint` seen in the working state: whether it is disabled, and the counts
reported by `getNumConstraintEquationsInUse`. -/
structure Constraint where
  isDisabled : Bool
  mp : Nat
  mv : Nat
  ma : Nat
deriving DecidableEq, Repr

/-- The model after `initSystem()`: what `initialize` reads from it. The constraint at
position `cid` of `constraints` is `matter.getConstraint(cid)`. -/
structure Model (R : Type) where
  stateVariableNames : List String
  coordinates : List (Coordinate R)
  scalarActuators : List (ScalarActuator R)
  constraints : List Constraint
deriving DecidableEq, Repr

/-- The first phase of a problem: the model and the declared properties. -/
structure MucoPhase (R : Type) where
  model : Model R
  state_infos : List (MucoVariableInfo R)
  control_infos : List (MucoVariableInfo R)
  parameters : List MucoParameter
  costs : List MucoCost
  path_constraints : List MucoPathConstraint
  default_speed_bounds : MucoBounds R
  multibody_constraint_bounds : MucoBounds R
  multiplier_bounds : MucoBounds R
deriving DecidableEq, Repr

/-- A problem; `phase0` is `getPhase(0)`. -/
structure MucoProblem (R : Type) where
  name : String
  phase0 : MucoPhase R
deriving DecidableEq, Repr

/-- The members of `MucoProblemRep`. -/
structure MucoProblemRep (R : Type) where
  m_problem : MucoProblem R
  m_model : Model R
  m_state_infos : StrMap (MucoVariableInfo R)
  m_control_infos : StrMap (MucoVariableInfo R)
  m_parameters : List MucoParameter
  m_costs : List MucoCost
  m_multibody_constraints : List (MucoMultibodyConstraint R)
  m_multiplier_infos_map : StrMap (List (MucoVariableInfo R))
  m_path_constraints : List MucoPathConstraint
  m_num_multibody_constraint_eqs : Nat
  m_num_path_constraint_eqs : Int
deriving Repr

/-! ## `MucoProblemRep::initialize` -/

variable {R : Type}

/-- The rendering `std::to_string(n)` of a non-negative `int`: its decimal digits. -/
def to_string (n : Nat) : String := Nat.repr n

/-- The loop of `OpenSim::Array::findIndex`, from position `i` on: the index of the first
element equal to `name`, or -1. -/
def findIndexFrom : List String → String → Nat → Int
  | [], _, _ => -1
  | x :: xs, name, i => if x = name then (i : Int) else findIndexFrom xs name (i + 1)

/-- The call `names.findIndex(name)`. -/
def findIndex (names : List String) (name : String) : Int := findIndexFrom names name 0

/-- Lines 23-27: every declared state info must name a state variable of the model. -/
def checkStateInfos (stateNames : List String) :
    List (MucoVariableInfo R) → Except Exception Unit
  | [] => .ok ()
  | info :: rest =>
    if findIndex stateNames info.name = -1 then
      .error ⟨"State info provided for nonexistent state '" ++ info.name ++ "'."⟩
    else checkStateInfos stateNames rest

/-- Lines 28-33: the model-relative paths of the scalar actuators, in component order. -/
def actuNames (model : Model R) : List String :=
  model.scalarActuators.foldl (fun names actu => names ++ [actu.path]) []

/-- Lines 36-41: every declared control info must name a scalar actuator of the model. -/
def checkControlInfos (actuNames : List String) :
    List (MucoVariableInfo R) → Except Exception Unit
  | [] => .ok ()
  | info :: rest =>
    if findIndex actuNames info.name = -1 then
      .error ⟨"Control info provided for nonexistent actuator '" ++ info.name ++ "'."⟩
    else checkControlInfos actuNames rest

/-- Lines 22-41: the validation step of `initialize`. -/
def validateInfos (ph0 : MucoPhase R) : Except Exception Unit :=
  match checkStateInfos ph0.model.stateVariableNames ph0.state_infos with
  | .error e => .error e
  | .ok _ => checkControlInfos (actuNames ph0.model) ph0.control_infos

/-- Lines 45-48 and 65-68: record each declared info under its name. -/
def recordInfos (m : StrMap (MucoVariableInfo R)) :
    List (MucoVariableInfo R) → StrMap (MucoVariableInfo R)
  | [] => m
  | info :: rest => recordInfos (m.assign info.name info) rest

/-- Lines 50-63, the body of the loop over the coordinates: add a value info and a speed
info for `coord`, each unless its name is already recorded. -/
def addCoordinateInfo (default_speed_bounds : MucoBounds R)
    (m : StrMap (MucoVariableInfo R)) (coord : Coordinate R) : StrMap (MucoVariableInfo R) :=
  let coordPath := coord.path
  let coordValueName := coordPath ++ "/value"
  let m1 :=
    if m.count coordValueName = 0 then
      m.assign coordValueName
        ⟨coordValueName, MucoBounds.range coord.rangeMin coord.rangeMax, ⟨none, none⟩,
          ⟨none, none⟩⟩
    else m
  let coordSpeedName := coordPath ++ "/speed"
  if m1.count coordSpeedName = 0 then
    m1.assign coordSpeedName
      ⟨coordSpeedName, default_speed_bounds, ⟨none, none⟩, ⟨none, none⟩⟩
  else m1

/-- Lines 49-64: the loop over the coordinates of the model. -/
def addCoordinateInfos (default_speed_bounds : MucoBounds R)
    (m : StrMap (MucoVariableInfo R)) :
    List (Coordinate R) → StrMap (MucoVariableInfo R)
  | [] => m
  | coord :: rest =>
    addCoordinateInfos default_speed_bounds (addCoordinateInfo default_speed_bounds m coord)
      rest

/-- Lines 70-76, the body of the loop over the scalar actuators: add a control info for
`actu` unless its name is already recorded. -/
def addActuatorInfo (m : StrMap (MucoVariableInfo R)) (actu : ScalarActuator R) :
    StrMap (MucoVariableInfo R) :=
  let actuName := actu.path
  if m.count actuName = 0 then
    m.assign actuName
      ⟨actuName, MucoBounds.range actu.minControl actu.maxControl, ⟨none, none⟩,
        ⟨none, none⟩⟩
  else m

/-- Lines 69-77: the loop over the scalar actuators of the model. -/
def addActuatorInfos (m : StrMap (MucoVariableInfo R)) :
    List (ScalarActuator R) → StrMap (MucoVariableInfo R)
  | [] => m
  | actu :: rest => addActuatorInfos (addActuatorInfo m actu) rest

/-- Lines 79-83: append a bound clone of each declared parameter. -/
def addParameters (ps : List MucoParameter) : List MucoParameter → List MucoParameter
  | [] => ps
  | p :: rest => addParameters (ps ++ [ MucoParameter.initialize p]) rest

/-- Lines 85-88: append a bound clone of each declared cost. -/
def addCosts (cs : List MucoCost) : List MucoCost → List MucoCost
  | [] => cs
  | c :: rest => addCosts (cs ++ [ MucoCost.initialize c]) rest

/-- One of the three loops of lines 133-147: push `count` multiplier infos named
`lambda_cid<cid><tag><i>`, for `i` from 0. -/
def pushMultipliers (tag : String) (cid : Nat) (multBounds : MucoBounds R)
    (multInitBounds : MucoInitialBounds R) (multFinalBounds : MucoFinalBounds R)
    (count : Nat) (multInfos : List (MucoVariableInfo R)) : List (MucoVariableInfo R) :=
  (List.range count).foldl
    (fun infos i =>
      infos ++ [⟨"lambda_cid" ++ to_string cid ++ tag ++ to_string i, multBounds,
        multInitBounds, multFinalBounds⟩])
    multInfos

/-- Lines 132-147: the multiplier infos of the constraint `cid` with counts
`(mp, mv, ma)`. -/
def makeMultInfos (cid mp mv ma : Nat) (multBounds : MucoBounds R)
    (multInitBounds : MucoInitialBounds R) (multFinalBounds : MucoFinalBounds R) :
    List (MucoVariableInfo R) :=
  let multInfos : List (MucoVariableInfo R) := []
  let multInfos := pushMultipliers "_p" cid multBounds multInitBounds multFinalBounds mp multInfos
  let multInfos := pushMultipliers "_v" cid multBounds multInitBounds multFinalBounds mv multInfos
  let multInfos := pushMultipliers "_a" cid multBounds multInitBounds multFinalBounds ma multInfos
  multInfos

/-- The three members the multibody-constraint loop updates. -/
structure ConstraintState (R : Type) where
  m_num_multibody_constraint_eqs : Nat
  m_multibody_constraints : List (MucoMultibodyConstraint R)
  m_multiplier_infos_map : StrMap (List (MucoVariableInfo R))
deriving Repr

/-- Lines 109-117: the multibody constraint built for the constraint `cid` with counts
`(mp, mv, ma)`, every equation of its constraint info bounded by `mcBounds`. -/
def makeConstraint (infoName : Nat → Nat → Nat → Nat → String) (mcBounds : MucoBounds R)
    (cid mp mv ma : Nat) : MucoMultibodyConstraint R :=
  let mc : MucoMultibodyConstraint R := MucoMultibodyConstraint.create infoName cid mp mv ma
  let mcInfo := mc.getConstraintInfo
  let mcBoundVec := List.replicate mc.getConstraintInfo.getNumEquations mcBounds
  let mcInfo := mcInfo.setBounds mcBoundVec
  mc.setConstraintInfo mcInfo

/-- Lines 105-150: the loop over the constraint indices, from index `cid` on; `cs` holds
the constraints of index `cid` and above. -/
def constraintLoop (infoName : Nat → Nat → Nat → Nat → String) (mcBounds : MucoBounds R)
    (multBounds : MucoBounds R) (multInitBounds : MucoInitialBounds R)
    (multFinalBounds : MucoFinalBounds R) :
    List Constraint → Nat → ConstraintState R → ConstraintState R
  | [], _, st => st
  | constraint :: cs, cid, st =>
    if !constraint.isDisabled then
      let mp := constraint.mp
      let mv := constraint.mv
      let ma := constraint.ma
      let mc : MucoMultibodyConstraint R := makeConstraint infoName mcBounds cid mp mv ma
      let multInfos := makeMultInfos cid mp mv ma multBounds multInitBounds multFinalBounds
      constraintLoop infoName mcBounds multBounds multInitBounds multFinalBounds cs (cid + 1)
        { m_num_multibody_constraint_eqs :=
            st.m_num_multibody_constraint_eqs + mc.getConstraintInfo.getNumEquations,
          m_multibody_constraints := st.m_multibody_constraints ++ [mc],
          m_multiplier_infos_map :=
            st.m_multiplier_infos_map.insert mc.getConstraintInfo.name multInfos }
    else
      constraintLoop infoName mcBounds multBounds multInitBounds multFinalBounds cs (cid + 1) st

/-- The value an `int` holds once the exact result `n` of an addition is stored in it:
`n` itself when it lies in `[-2^31, 2^31)`, and else the number of that range that differs
from `n` by a multiple of `2^32`, as on the two's-complement machines the code runs on. -/
def wrapInt (n : Int) : Int := (n + 2147483648) % 4294967296 - 2147483648

/-- The two members the path-constraint loop updates; the total is an `int`. -/
structure PathState where
  m_num_path_constraint_eqs : Int
  m_path_constraints : List MucoPathConstraint
deriving Repr

/-- Lines 154-160: bind a clone of each declared path constraint at the running total of
equations, then advance the total, an `int`, by its number of equations. -/
def pathConstraintLoop : List MucoPathConstraint → PathState → PathState
  | [], st => st
  | pc :: rest, st =>
    let back := MucoPathConstraint.initialize pc st.m_num_path_constraint_eqs
    pathConstraintLoop rest
      { m_num_path_constraint_eqs :=
          wrapInt (st.m_num_path_constraint_eqs + (back.numEquations : Int)),
        m_path_constraints := st.m_path_constraints ++ [back] }

/-- Lines 43-160: everything `initialize` does once the declared names are validated. -/
def populate (infoName : Nat → Nat → Nat → Nat → String) (self : MucoProblemRep R) :
    MucoProblemRep R :=
  let ph0 := self.m_problem.phase0
  let m_model := ph0.model
  let m_state_infos := recordInfos self.m_state_infos ph0.state_infos
  let m_state_infos :=
    addCoordinateInfos ph0.default_speed_bounds m_state_infos m_model.coordinates
  let m_control_infos := recordInfos self.m_control_infos ph0.control_infos
  let m_control_infos := addActuatorInfos m_control_infos m_model.scalarActuators
  let m_parameters := addParameters self.m_parameters ph0.parameters
  let m_costs := addCosts self.m_costs ph0.costs
  let mcBounds := ph0.multibody_constraint_bounds
  let multBounds := ph0.multiplier_bounds
  let multInitBounds : MucoInitialBounds R := ⟨multBounds.getLower, multBounds.getUpper⟩
  let multFinalBounds : MucoFinalBounds R := ⟨multBounds.getLower, multBounds.getUpper⟩
  let cst := constraintLoop infoName mcBounds multBounds multInitBounds multFinalBounds
    m_model.constraints 0 ⟨0, [], []⟩
  let pst := pathConstraintLoop ph0.path_constraints ⟨0, []⟩
  { m_problem := self.m_problem,
    m_model := m_model,
    m_state_infos := m_state_infos,
    m_control_infos := m_control_infos,
    m_parameters := m_parameters,
    m_costs := m_costs,
    m_multibody_constraints := cst.m_multibody_constraints,
    m_multiplier_infos_map := cst.m_multiplier_infos_map,
    m_path_constraints := pst.m_path_constraints,
    m_num_multibody_constraint_eqs := cst.m_num_multibody_constraint_eqs,
    m_num_path_constraint_eqs := pst.m_num_path_constraint_eqs }

/-- The method `MucoProblemRep::initialize()`: validate the declared names, then populate
the members. The bindings of parameters, costs and path constraints to the model, whose
sources are not among the files, are taken to succeed, so the only exceptions are those
of the validation step. -/
def MucoProblemRep.initialize (infoName : Nat → Nat → Nat → Nat → String)
    (self : MucoProblemRep R) : Except Exception (MucoProblemRep R) :=
  match validateInfos self.m_problem.phase0 with
  | .error e => .error e
  | .ok _ => .ok (populate infoName self)

/-- The members of a `MucoProblemRep` before the constructor body runs. -/
def MucoProblemRep.fresh (problem : MucoProblem R) : MucoProblemRep R :=
  { m_problem := problem,
    m_model := ⟨[], [], [], []⟩,
    m_state_infos := [],
    m_control_infos := [],
    m_parameters := [],
    m_costs := [],
    m_multibody_constraints := [],
    m_multiplier_infos_map := [],
    m_path_constraints := [],
    m_num_multibody_constraint_eqs := 0,
    m_num_path_constraint_eqs := 0 }

/-- The constructor `MucoProblemRep(problem)`: `initialize()` on the fresh members. -/
def MucoProblemRep.create (infoName : Nat → Nat → Nat → Nat → String)
    (problem : MucoProblem R) : Except Exception (MucoProblemRep R) :=
   MucoProblemRep.initialize infoName (MucoProblemRep.fresh problem)

/-- The members of the object when `initialize()` exits, by return or by exception:
lines 19-20 have set `m_model`, and an exception of the validation step (lines 22-41)
leaves every other member as it was. -/
def MucoProblemRep.initializeMembers (infoName : Nat → Nat → Nat → Nat → String)
    (self : MucoProblemRep R) : MucoProblemRep R :=
  let ph0 := self.m_problem.phase0
  let self1 := { self with m_model := ph0.model }
  match validateInfos ph0 with
  | .error _ => self1
  | .ok _ => populate infoName self1

/-! ## The accessors of `MucoProblemRep` -/

/-- The lookup `m.at(k)` of a standard map, which throws `std::out_of_range` for an absent
key. -/
def StrMap.atKey {V : Type} (m : StrMap V) (k : String) : Except Exception V :=
  match StrMap.find m k with
  | some v => .ok v
  | none => .error ⟨"std::out_of_range"⟩

/-- The loop `names[i] = name; ++i` over the names `src`, taken in iteration order, from
position `i` on. -/
def fillNames : List String → List String → Nat → List String
  | names, [], _ => names
  | names, name :: rest, i => fillNames (names.set i name) rest (i + 1)

/-- Lines 172-180, `createStateInfoNames()`. The order in which a range-for visits the
entries of the map is left to the container: `iterate` is that order. -/
def MucoProblemRep.createStateInfoNames
    (iterate : StrMap (MucoVariableInfo R) → List (String × MucoVariableInfo R))
    (self : MucoProblemRep R) : List String :=
  let names := List.replicate self.m_state_infos.length ""
  fillNames names ((iterate self.m_state_infos).map Prod.fst) 0

/-- Lines 181-189, `createControlInfoNames()`, with `iterate` the iteration order of the
map. -/
def MucoProblemRep.createControlInfoNames
    (iterate : StrMap (MucoVariableInfo R) → List (String × MucoVariableInfo R))
    (self : MucoProblemRep R) : List String :=
  let names := List.replicate self.m_control_infos.length ""
  fillNames names ((iterate self.m_control_infos).map Prod.fst) 0

/-- Lines 201-209, `createMultibodyConstraintNames()`. -/
def MucoProblemRep.createMultibodyConstraintNames (self : MucoProblemRep R) : List String :=
  let names := List.replicate self.m_multibody_constraints.length ""
  fillNames names (self.m_multibody_constraints.map (fun mc => mc.getConstraintInfo.name)) 0

/-- Lines 210-218, `createParameterNames()`. -/
def MucoProblemRep.createParameterNames (self : MucoProblemRep R) : List String :=
  let names := List.replicate self.m_parameters.length ""
  fillNames names (self.m_parameters.map MucoParameter.name) 0

/-- Lines 219-227, `createPathConstraintNames()`. -/
def MucoProblemRep.createPathConstraintNames (self : MucoProblemRep R) : List String :=
  let names := List.replicate self.m_path_constraints.length ""
  fillNames names (self.m_path_constraints.map MucoPathConstraint.name) 0

/-- Lines 228-233, `getStateInfo(name)`. -/
def MucoProblemRep.getStateInfo (self : MucoProblemRep R) (name : String) :
    Except Exception (MucoVariableInfo R) :=
  if self.m_state_infos.count name = 0 then
    .error ⟨"No info available for state '" ++ name ++ "'."⟩
  else StrMap.atKey self.m_state_infos name

/-- Lines 234-239, `getControlInfo(name)`. -/
def MucoProblemRep.getControlInfo (self : MucoProblemRep R) (name : String) :
    Except Exception (MucoVariableInfo R) :=
  if self.m_control_infos.count name = 0 then
    .error ⟨"No info available for control '" ++ name ++ "'."⟩
  else StrMap.atKey self.m_control_infos name

/-- The loop `for (x : xs) if (getName(x) == name) return x;`: the first element of that
name, if any. -/
def firstNamed {α : Type} (getName : α → String) : List α → String → Option α
  | [], _ => none
  | x :: xs, name => if getName x = name then some x else firstNamed getName xs name

/-- Lines 240-248, `getParameter(name)`. -/
def MucoProblemRep.getParameter (self : MucoProblemRep R) (name : String) :
    Except Exception MucoParameter :=
  match firstNamed MucoParameter.name self.m_parameters name with
  | some param => .ok param
  | none => .error ⟨"No parameter with name '" ++ name ++ "' found."⟩

/-- Lines 249-257, `getPathConstraint(name)`. -/
def MucoProblemRep.getPathConstraint (self : MucoProblemRep R) (name : String) :
    Except Exception MucoPathConstraint :=
  match firstNamed MucoPathConstraint.name self.m_path_constraints name with
  | some pc => .ok pc
  | none => .error ⟨"No path constraint with name '" ++ name ++ "' found."⟩

/-- Lines 258-267, `getMultibodyConstraint(name)`. -/
def MucoProblemRep.getMultibodyConstraint (self : MucoProblemRep R) (name : String) :
    Except Exception (MucoMultibodyConstraint R) :=
  match firstNamed (fun mc : MucoMultibodyConstraint R => mc.getConstraintInfo.name)
      self.m_multibody_constraints name with
  | some mc => .ok mc
  | none => .error ⟨"No multibody constraint with name '" ++ name ++ "' found."⟩

/-- Lines 268-279, `getMultiplierInfos(multibodyConstraintInfoName)`. -/
def MucoProblemRep.getMultiplierInfos (self : MucoProblemRep R)
    (multibodyConstraintInfoName : String) : Except Exception (List (MucoVariableInfo R)) :=
  match StrMap.find self.m_multiplier_infos_map multibodyConstraintInfoName with
  | some _ => StrMap.atKey self.m_multiplier_infos_map multibodyConstraintInfoName
  | none =>
    .error ⟨"No variable infos for multibody constraint info with name '" ++
      multibodyConstraintInfoName ++ "' found."⟩

/-- Lines 281-291, `applyParametersToModel(parameterValues)`. The effect of
`p->applyParameterToModel(v)` on what it mutates, of type `M`, is the function
`applyParameterToModel p v`, its source not being among the files. The result is the
exception, if one is raised, with the mutated state at the exit. -/
def MucoProblemRep.applyParametersToModel {M : Type}
    (applyParameterToModel : MucoParameter → R → M → M) (self : MucoProblemRep R)
    (parameterValues : List R) (model : M) : Except Exception Unit × M :=
  if parameterValues.length ≠ self.m_parameters.length then
    (.error ⟨"There are " ++ to_string self.m_parameters.length ++
      " parameters in this MucoProblem, but " ++ to_string parameterValues.length ++
      " values were provided."⟩, model)
  else
    (.ok (), (List.range self.m_parameters.length).foldl
      (fun m i =>
        match self.m_parameters[i]?, parameterValues[i]? with
        | some p, some v => applyParameterToModel p v m
        | _, _ => m)
      model)

/-! ## `MocoGoal` -/

/-- The struct `MocoGoal::GoalInput`, over a type `S` of states. -/
structure GoalInput (S R : Type) where
  initial_state : S
  final_state : S
  integral : R

/-- A `MocoGoal`: its properties, the number of equations of its own constraint info
(which `setNumEquations` updates), and the virtual functions a concrete goal provides. -/
structure MocoGoal (S R : Type) where
  name : String
  enabled : Bool
  weight : R
  apply_as_endpoint_constraint : Option Bool
  numEquations : Int
  getNumOutputsImpl : Int
  getDefaultEndpointConstraintImpl : Bool
  getSupportsEndpointConstraintImpl : Bool
  getNumIntegralsImpl : Int
  calcGoalImpl : GoalInput S R → List R → List R

namespace MocoGoal

variable {S : Type}

/-- Lines 68-70. -/
def getSupportsEndpointConstraint (self : MocoGoal S R) : Bool :=
  self.getSupportsEndpointConstraintImpl

/-- Lines 72-74. -/
def getDefaultEndpointConstraint (self : MocoGoal S R) : Bool :=
  self.getDefaultEndpointConstraintImpl

/-- Lines 192-196, `setNumEquations(numEqs)`. -/
def setNumEquations (self : MocoGoal S R) (numEqs : Int) : MocoGoal S R :=
  { self with numEquations := numEqs }

/-- Lines 84-89, `getNumOutputs()`: the number of outputs, and the goal with the number
of equations of its constraint info set to it. -/
def getNumOutputs (self : MocoGoal S R) : Int × MocoGoal S R :=
  let n := self.getNumOutputsImpl
  (n, self.setNumEquations n)

/-- Lines 92-103, `getApplyAsEndpointConstraint()`. -/
def getApplyAsEndpointConstraint (self : MocoGoal S R) : Except Exception Bool :=
  let endpoint_constraint :=
    match self.apply_as_endpoint_constraint with
    | none => self.getDefaultEndpointConstraint
    | some b => b
  if endpoint_constraint && !self.getSupportsEndpointConstraint then
    .error ⟨"Endpoint constraint not supported TODO."⟩
  else .ok endpoint_constraint

/-- Lines 107-112, `getNumIntegrals()`. -/
def getNumIntegrals (self : MocoGoal S R) : Except Exception Int :=
  let num := self.getNumIntegralsImpl
  if num < 0 then .error ⟨"Number of integrals must be non-negative."⟩ else .ok num

/-- Lines 130-139, `calcGoal(input)`: the returned vector or the exception raised, with
the goal as `getNumOutputs()` leaves it. `goal *= w` multiplies every entry by `w`. -/
def calcGoal [Zero R] [Mul R] (self : MocoGoal S R) (input : GoalInput S R) :
    Except Exception (List R) × MocoGoal S R :=
  let (n, self) := self.getNumOutputs
  let goal : List R := List.replicate n.toNat 0
  if !self.enabled then (.ok goal, self)
  else
    let goal := self.calcGoalImpl input goal
    match self.getApplyAsEndpointConstraint with
    | .error e => (.error e, self)
    | .ok endpoint_constraint =>
      if !endpoint_constraint then (.ok (goal.map (fun x => x * self.weight)), self)
      else (.ok goal, self)

end MocoGoal

/-- Lines 208-223, `MocoFinalTimeGoal`, `getTime` reading the time of a state; the
properties `enabled` and `apply_as_endpoint_constraint` are arguments. -/
def MocoFinalTimeGoal {S : Type} (getTime : S → R) (name : String) (weight : R)
    (enabled : Bool) (apply_as_endpoint_constraint : Option Bool) : MocoGoal S R :=
  { name := name,
    enabled := enabled,
    weight := weight,
    apply_as_endpoint_constraint := apply_as_endpoint_constraint,
    numEquations := 0,
    getNumOutputsImpl := 1,
    getDefaultEndpointConstraintImpl := false,
    getSupportsEndpointConstraintImpl := false,
    getNumIntegralsImpl := 0,
    calcGoalImpl := fun input cost => cost.set 0 (getTime input.final_state) }

/-- Lines 190-200, `createMultiplierInfoNames()`, from the constraint `mcs` on, `names`
holding the names pushed so far; `m_multiplier_infos_map.at(..)` throws for an absent
key. -/
def createMultiplierInfoNamesFrom (map : StrMap (List (MucoVariableInfo R))) :
    List (MucoMultibodyConstraint R) → List String → Except Exception (List String)
  | [], names => .ok names
  | mc :: rest, names =>
    match StrMap.atKey map mc.getConstraintInfo.name with
    | .error e => .error e
    | .ok infos =>
      createMultiplierInfoNamesFrom map rest (names ++ infos.map MucoVariableInfo.name)

/-- Lines 190-200, `createMultiplierInfoNames()`. -/
def MucoProblemRep.createMultiplierInfoNames (self : MucoProblemRep R) :
    Except Exception (List String) :=
  createMultiplierInfoNamesFrom self.m_multiplier_infos_map self.m_multibody_constraints []

/-! ## `MocoUtilities.cpp` -/

/-- A `double` whose comparisons matter: an ordinary value of `R`, or NaN (`none`). -/
abbrev Real64 (R : Type) := Option R

namespace Real64

/-- The constant `SimTK::NaN`. -/
def nan : Real64 R := none

/-- The test `SimTK::isNaN(a)`. -/
def isNaN (a : Real64 R) : Bool := a.isNone

/-- The comparison `a <= b` of doubles: false as soon as one side is NaN. -/
def le [LinearOrder R] : Real64 R → Real64 R → Bool
  | some a, some b => decide (a ≤ b)
  | _, _ => false

/-- The comparison `a < b` of doubles: false as soon as one side is NaN. -/
def lt [LinearOrder R] : Real64 R → Real64 R → Bool
  | some a, some b => decide (a < b)
  | _, _ => false

end Real64

/-- Lines 63-73 of `interpolate`: the loop over `i < x.size()` that fills `x_no_nans` and
`y_no_nans`. Reading `y[i]` past the end of `y` is undefined: `none`. -/
def retainSamples : List (Real64 R) → List (Real64 R) → Bool →
    Option (List (Real64 R) × List (Real64 R))
  | [], _, _ => some ([], [])
  | _ :: _, [], _ => none
  | xi :: x, yi :: y, ignoreNaNs =>
    let shouldNotPushBack := (Real64.isNaN xi || Real64.isNaN yi) && ignoreNaNs
    match retainSamples x y ignoreNaNs with
    | none => none
    | some (x_no_nans, y_no_nans) =>
      if !shouldNotPushBack then some (xi :: x_no_nans, yi :: y_no_nans)
      else some (x_no_nans, y_no_nans)

/-- Lines 55-84, `interpolate(x, y, newX, ignoreNaNs)`. The function has no `throw`: it
returns a vector (`some`), or its behaviour is undefined (`none`: `y` shorter than `x`,
or element 0 of an empty `x_no_nans` is read). `calcValue xs ys v` is the value at `v` of
the `PiecewiseLinearFunction` built on the samples `xs`, `ys`, a class of OpenSim. -/
def interpolate [LinearOrder R]
    (calcValue : List (Real64 R) → List (Real64 R) → Real64 R → Real64 R)
    (x y newX : List (Real64 R)) (ignoreNaNs : Bool) : Option (List (Real64 R)) :=
  match retainSamples x y ignoreNaNs with
  | none => none
  | some (x_no_nans, y_no_nans) =>
    match x_no_nans.head?, x_no_nans.getLast? with
    | some first, some last =>
      some (newX.map (fun newXi =>
        if Real64.le first newXi && Real64.le newXi last then
          calcValue x_no_nans y_no_nans newXi
        else Real64.nan))
    | _, _ => none

/-- A call of the `Storage` class made by `filterLowpass`. -/
inductive StorageCall where
  | convertTableToStorage
  | pad
  | lowpassIIR
  | exportToTable
deriving DecidableEq, Repr

/-- What `filterLowpass` uses of the tables and of the class `Storage` of OpenSim:
`convertTableToStorage` (lines 86-109), and the methods `getSize`, `pad`, `lowpassIIR` and
`exportToTable`. -/
structure StorageOps (Table Sto R : Type) where
  convertTableToStorage : Table → Sto
  getSize : Sto → Nat
  pad : Sto → Nat → Sto
  lowpassIIR : Sto → Real64 R → Sto
  exportToTable : Sto → Table

/-- Lines 111-121, `filterLowpass(table, cutoffFreq, padData)`: the table returned or the
exception raised, with the calls made on the way, in order. `formatG` renders a double
as `%g` does. -/
def filterLowpass {Table Sto : Type} [LinearOrder R] [Zero R] (formatG : Real64 R → String)
    (ops : StorageOps Table Sto R) (table : Table) (cutoffFreq : Real64 R) (padData : Bool) :
    Except Exception Table × List StorageCall :=
  if Real64.lt cutoffFreq (some 0) then
    (.error ⟨"Cutoff frequency must be non-negative; got " ++ formatG cutoffFreq ++ "."⟩, [])
  else
    let storage := ops.convertTableToStorage table
    let calls := [StorageCall.convertTableToStorage]
    let padded :=
      if padData then (ops.pad storage (ops.getSize storage / 2), calls ++ [StorageCall.pad])
      else (storage, calls)
    let storage := ops.lowpassIIR padded.1 cutoffFreq
    (.ok (ops.exportToTable storage),
      padded.2 ++ [StorageCall.lowpassIIR, StorageCall.exportToTable])

/-- What `createStateVariableNamesInSystemOrder` reads of a model: the names of its state
variables, the size `getNY()` of the vector Y of its working state, and the values
`getStateVariableValues(s)` of the state variables as a function of Y. -/
structure SystemModel (R : Type) where
  stateVariableNames : List String
  ny : Nat
  getStateVariableValues : List (Real64 R) → List (Real64 R)

/-- The variables the loop of lines 581-596 updates. -/
structure SysOrderState (R : Type) where
  y : List (Real64 R)
  svNamesInSysOrder : List String
  yIndices : List Nat

/-- Lines 582-595, the body of the loop over `iy`: put NaN in slot `iy`, look for the
first state variable whose value is NaN, record its name with `iy`, and put 0 back.
`getStateVariableValues` returns one value per state variable, so the inner loop walks
the names and the values side by side. -/
def sysOrderStep [Zero R] (model : SystemModel R) (st : SysOrderState R) (iy : Nat) :
    SysOrderState R :=
  let y1 := st.y.set iy Real64.nan
  let svValues := model.getStateVariableValues y1
  match (model.stateVariableNames.zip svValues).find? (fun nv => Real64.isNaN nv.2) with
  | some nv =>
    { y := y1.set iy (some 0),
      svNamesInSysOrder := st.svNamesInSysOrder ++ [nv.1],
      yIndices := st.yIndices ++ [iy] }
  | none =>
    { st with
      y := match y1[iy]? with
        | some v => if Real64.isNaN v then y1.set iy (some 0) else y1
        | none => y1 }

/-- The call `yIndexMap.emplace(key, value)` on an `unordered_map<int, int>`, which
leaves a present key untouched. -/
def emplaceIndex (m : List (Nat × Nat)) (key value : Nat) : List (Nat × Nat) :=
  if m.any (fun kv => kv.1 == key) then m else m ++ [(key, value)]

/-- Lines 597-601: the loop `yIndexMap.emplace(count, iy); ++count`. -/
def fillYIndexMap : List Nat → Nat → List (Nat × Nat) → List (Nat × Nat)
  | [], _, m => m
  | iy :: rest, count, m => fillYIndexMap rest (count + 1) (emplaceIndex m count iy)

/-- Lines 573-606, `createStateVariableNamesInSystemOrder(model, yIndexMap)`: the names
returned with the `yIndexMap` filled, or the exception of the assertion of line 602. -/
def createStateVariableNamesInSystemOrder [Zero R] (model : SystemModel R) :
    Except Exception (List String × List (Nat × Nat)) :=
  let svNames := model.stateVariableNames
  let st0 : SysOrderState R := ⟨List.replicate model.ny (some 0), [], []⟩
  let st := (List.range model.ny).foldl (sysOrderStep model) st0
  let yIndexMap := fillYIndexMap st.yIndices 0 []
  if svNames.length = st.svNamesInSysOrder.length then .ok (st.svNamesInSysOrder, yIndexMap)
  else
    .error ⟨"Expected to get " ++ to_string svNames.length ++ " state names but found " ++
      to_string st.svNamesInSysOrder.length ++ "."⟩

/-! ## `MocoJointReactionCost` -/

/-- A `SimTK::Vec3`. -/
structure Vec3 (R : Type) where
  x : R
  y : R
  z : R
deriving DecidableEq, Repr

/-- The element `v[i]` of a `Vec3`, for `i` among 0, 1, 2. -/
def Vec3.get (v : Vec3 R) (i : Nat) : R :=
  match i with
  | 0 => v.x
  | 1 => v.y
  | _ => v.z

/-- A `SimTK::SpatialVec`: element 0 is the moment, element 1 the force. -/
structure SpatialVec (R : Type) where
  moment : Vec3 R
  force : Vec3 R
deriving DecidableEq, Repr

/-- The element `sv[i]` of a `SpatialVec`, for `i` among 0, 1. -/
def SpatialVec.get (sv : SpatialVec R) (i : Nat) : Vec3 R :=
  match i with
  | 0 => sv.moment
  | _ => sv.force

/-- What `MocoJointReactionCost` uses of the model, with joints `J`, frames `F` and states
`St`: the lookups `getComponent<Joint>(path)` and `getComponent<Frame>(path)`, which throw
for a path that names no such component (`none`), the frames of a joint, the ground, the
reaction of a joint on its parent or child expressed in ground, and
`ground.expressVectorInAnotherFrame(state, vec, frame)`. -/
structure JointModel (R J F St : Type) where
  getJoint : String → Option J
  getFrame : String → Option F
  getParentFrame : J → F
  getChildFrame : J → F
  getGround : F
  calcReactionOnParentExpressedInGround : J → St → SpatialVec R
  calcReactionOnChildExpressedInGround : J → St → SpatialVec R
  expressVectorInAnotherFrame : St → Vec3 R → F → Vec3 R

/-- The properties and the cached members of a `MocoJointReactionCost`;
`reaction_weights` is the `MocoWeightSet`, a list of named weights. -/
structure MocoJointReactionCost (R J F : Type) where
  joint_path : String
  loads_frame : String
  expressed_in_frame_path : String
  reaction_components : List String
  reaction_weights : StrMap R
  m_joint : Option J
  m_isParentFrame : Bool
  m_frame : Option F
  m_componentIndices : List (Nat × Nat)
  m_componentWeights : List R
deriving Repr

namespace MocoJointReactionCost

variable {J F St : Type}

/-- Lines 68-69: the accepted reaction components. -/
def allowedComponents : List String :=
  ["moment-x", "moment-y", "moment-z", "force-x", "force-y", "force-z"]

/-- Lines 40-62: cache the joint, the side of the loads and the expressed-in frame. -/
def resolveFrames (model : JointModel R J F St) (self : MocoJointReactionCost R J F) :
    Except Exception (MocoJointReactionCost R J F) :=
  if self.joint_path.isEmpty then
    .error ⟨"Expected a joint path, but property joint_path is empty."⟩
  else
    match model.getJoint self.joint_path with
    | none => .error ⟨"Component not found: " ++ self.joint_path⟩
    | some joint =>
      if !(["parent", "child"].contains self.loads_frame) then
        .error ⟨"Property 'loads_frame' has invalid value " ++ self.loads_frame ++ "."⟩
      else
        let isParentFrame :=
          if self.loads_frame = "parent" then true
          else if self.loads_frame = "child" then false
          else self.m_isParentFrame
        if self.expressed_in_frame_path.isEmpty then
          .ok { self with
            m_joint := some joint, m_isParentFrame := isParentFrame,
            m_frame := some (if isParentFrame then model.getParentFrame joint
              else model.getChildFrame joint) }
        else
          match model.getFrame self.expressed_in_frame_path with
          | none => .error ⟨"Component not found: " ++ self.expressed_in_frame_path⟩
          | some frame =>
            .ok { self with
              m_joint := some joint, m_isParentFrame := isParentFrame, m_frame := some frame }

/-- Lines 73-81: check each user-provided component, pushing it on the list. -/
def checkComponents : List String → List String → Except Exception (List String)
  | [], reactionComponents => .ok reactionComponents
  | component :: rest, reactionComponents =>
    if !(allowedComponents.contains component) then
      .error ⟨"Reaction component '" ++ component ++ "' not recognized."⟩
    else checkComponents rest (reactionComponents ++ [component])

/-- Lines 67-82: the components to minimize. -/
def selectComponents (self : MocoJointReactionCost R J F) : Except Exception (List String) :=
  if self.reaction_components.isEmpty then .ok allowedComponents
  else checkComponents self.reaction_components []

/-- Lines 87-99: the index pairs pushed for one component, none for an unknown one. -/
def componentIndex (component : String) : List (Nat × Nat) :=
  if component = "moment-x" then [(0, 0)]
  else if component = "moment-y" then [(0, 1)]
  else if component = "moment-z" then [(0, 2)]
  else if component = "force-x" then [(1, 0)]
  else if component = "force-y" then [(1, 1)]
  else if component = "force-z" then [(1, 2)]
  else []

/-- Lines 101-104: the weight of one component. -/
def componentWeight [One R] (reaction_weights : StrMap R) (component : String) : R :=
  match StrMap.find reaction_weights component with
  | some weight => weight
  | none => 1

/-- Lines 86-106: push the index pair and the weight of each component. -/
def recordComponents [One R] (self : MocoJointReactionCost R J F) :
    List String → MocoJointReactionCost R J F
  | [] => self
  | component :: rest =>
    recordComponents
      { self with
        m_componentIndices := self.m_componentIndices ++ componentIndex component,
        m_componentWeights :=
          self.m_componentWeights ++ [componentWeight self.reaction_weights component] }
      rest

/-- Lines 37-107, `initializeOnModelImpl(model)`. -/
def initializeOnModelImpl [One R] (model : JointModel R J F St)
    (self : MocoJointReactionCost R J F) : Except Exception (MocoJointReactionCost R J F) :=
  match resolveFrames model self with
  | .error e => .error e
  | .ok self1 =>
    match selectComponents self1 with
    | .error e => .error e
    | .ok reactionComponents => .ok (recordComponents self1 reactionComponents)

/-- Lines 116-138: the reaction on the cached side of the joint as `calcIntegralCostImpl`
packs it before it computes the cost. -/
def reactionForCost [DecidableEq F] (model : JointModel R J F St) (isParentFrame : Bool)
    (joint : J) (frame : F) (state : St) : SpatialVec R :=
  let reactionInGround :=
    if isParentFrame then model.calcReactionOnParentExpressedInGround joint state
    else model.calcReactionOnChildExpressedInGround joint state
  if frame = model.getGround then
    ⟨model.expressVectorInAnotherFrame state (reactionInGround.get 0) frame,
      model.expressVectorInAnotherFrame state (reactionInGround.get 1) frame⟩
  else ⟨reactionInGround.get 0, reactionInGround.get 1⟩

/-- Lines 141-146: the sum, in the order of the lists, of `weight * pow(value, 2)`, the
square written as a product. -/
def sumWeightedSquares [Zero R] [Add R] [Mul R] (reaction : SpatialVec R) :
    List (Nat × Nat) → List R → R → R
  | index :: indices, weight :: weights, integrand =>
    sumWeightedSquares reaction indices weights
      (integrand + weight * (((reaction.get index.1).get index.2) *
        ((reaction.get index.1).get index.2)))
  | _, _, integrand => integrand

/-- Lines 109-147, `calcIntegralCostImpl(state, integrand)`: the integrand, or `none` when
the joint or the frame is not cached. -/
def calcIntegralCostImpl [DecidableEq F] [Zero R] [Add R] [Mul R]
    (model : JointModel R J F St) (self : MocoJointReactionCost R J F) (state : St) :
    Option R :=
  match self.m_joint, self.m_frame with
  | some joint, some frame =>
    let reaction := reactionForCost model self.m_isParentFrame joint frame state
    some (sumWeightedSquares reaction self.m_componentIndices self.m_componentWeights 0)
  | _, _ => none

end MocoJointReactionCost

/-! ## Notions used to state the properties -/

/-- The number a string of decimal digits denotes, read from the most significant digit. -/
def decimalValue (s : String) : Nat :=
  s.data.foldl (fun acc ch => 10 * acc + (ch.toNat - '0'.toNat)) 0

/-- The enabled constraints among `cs` paired with their constraint indices, `cid` being
the index of the first element of `cs`. -/
def enabledFrom : List Constraint → Nat → List (Nat × Constraint)
  | [], _ => []
  | c :: cs, cid =>
    if c.isDisabled then enabledFrom cs (cid + 1) else (cid, c) :: enabledFrom cs (cid + 1)

/-- The multiplier infos `initialize` builds for the constraint of index `cid`, with the
bounds taken from the phase as in lines 92-96. -/
def multInfosOf (ph0 : MucoPhase R) (cid : Nat) (c : Constraint) : List (MucoVariableInfo R) :=
  makeMultInfos cid c.mp c.mv c.ma ph0.multiplier_bounds
    ⟨ph0.multiplier_bounds.getLower, ph0.multiplier_bounds.getUpper⟩
    ⟨ph0.multiplier_bounds.getLower, ph0.multiplier_bounds.getUpper⟩

/-- The multiplier names the naming scheme gives the constraint of index `K` with counts
`(mp, mv, ma)`: `lambda_cid<K>_p0 ..`, then `lambda_cid<K>_v0 ..`, then
`lambda_cid<K>_a0 ..`. -/
def multiplierNames (K mp mv ma : Nat) : List String :=
  (List.range mp).map (fun i => "lambda_cid" ++ to_string K ++ "_p" ++ to_string i) ++
    (List.range mv).map (fun i => "lambda_cid" ++ to_string K ++ "_v" ++ to_string i) ++
    (List.range ma).map (fun i => "lambda_cid" ++ to_string K ++ "_a" ++ to_string i)

/-- The clones of the path constraints `pcs`, bound one after the other, the first at the
equation index `start` and each next one at the `int` that index plus the equation count of
the previous one gives. -/
def bindPathConstraints : List MucoPathConstraint → Int → List MucoPathConstraint
  | [], _ => []
  | pc :: rest, start =>
    MucoPathConstraint.initialize pc start ::
      bindPathConstraints rest (wrapInt (start + (pc.implEquations : Int)))

/-- All multiplier infos of the registry, entry after entry. -/
def allMultiplierInfos (rep : MucoProblemRep R) : List (MucoVariableInfo R) :=
  (rep.m_multiplier_infos_map.map Prod.snd).flatten

/-- The reaction on the cached side of the joint as the specification of
`calcIntegralCostImpl` words it: computed in ground, then re-expressed into the chosen
frame, whichever frame that is. -/
def reactionExpressedInFrame {J F St : Type} (model : JointModel R J F St)
    (isParentFrame : Bool) (joint : J) (frame : F) (state : St) : SpatialVec R :=
  let reactionInGround :=
    if isParentFrame then model.calcReactionOnParentExpressedInGround joint state
    else model.calcReactionOnChildExpressedInGround joint state
  ⟨model.expressVectorInAnotherFrame state reactionInGround.moment frame,
    model.expressVectorInAnotherFrame state reactionInGround.force frame⟩

/-! ## A sample problem -/

/-- A model with two coordinates, two actuators and three constraints, the second one
disabled. -/
def sampleModel : Model Int :=
  { stateVariableNames := ["j0/q0/value", "j0/q0/speed", "j1/q1/value", "j1/q1/speed"],
    coordinates := [⟨"j0/q0", -10, 10⟩, ⟨"j1/q1", -5, 5⟩],
    scalarActuators := [⟨"tau0", -1, 1⟩, ⟨"tau1", -2, 2⟩],
    constraints := [⟨false, 1, 0, 0⟩, ⟨true, 2, 1, 0⟩, ⟨false, 0, 1, 2⟩] }

/-- A phase on `sampleModel` declaring one state info and one control info. -/
def samplePhase : MucoPhase Int :=
  { model := sampleModel,
    state_infos := [⟨"j1/q1/speed", MucoBounds.range 0 3, ⟨some 0, some 0⟩, ⟨none, none⟩⟩],
    control_infos := [⟨"tau1", MucoBounds.range (-7) 7, ⟨none, none⟩, ⟨none, none⟩⟩],
    parameters := [⟨"mass", false⟩],
    costs := [⟨"effort", false⟩],
    path_constraints := [⟨"pc0", 2, 0, none⟩, ⟨"pc1", 3, 0, none⟩],
    default_speed_bounds := MucoBounds.range (-50) 50,
    multibody_constraint_bounds := MucoBounds.range 0 0,
    multiplier_bounds := MucoBounds.range (-1000) 1000 }

/-- The sample problem. -/
def sampleProblem : MucoProblem Int := ⟨"sample", samplePhase⟩

/-- The sample problem with three path constraints of 2^30, 2^30 and 1 equations, whose
total 2^31 + 1 is more than an `int` holds. -/
def overflowProblem : MucoProblem Int :=
  ⟨"overflow", { samplePhase with
    path_constraints := [⟨"pc0", 1073741824, 0, none⟩, ⟨"pc1", 1073741824, 0, none⟩,
      ⟨"pc2", 1, 0, none⟩] }⟩

/-- The sample problem with a state info declared for a state the model does not have. -/
def badStateProblem : MucoProblem Int :=
  ⟨"bad", { samplePhase with
    state_infos := [⟨"nope/value", MucoBounds.unset, ⟨none, none⟩, ⟨none, none⟩⟩] }⟩

/-- The sample problem with three declared parameters. -/
def threeParameterProblem : MucoProblem Int :=
  ⟨"three", { samplePhase with
    parameters := [⟨"mass", false⟩, ⟨"length", false⟩, ⟨"stiffness", false⟩] }⟩

/-- The record of the calls `p->applyParameterToModel(v)`: each call appends `(p, v)`. -/
def recordApplication {R : Type} (p : MucoParameter) (v : R) (log : List (MucoParameter × R)) :
    List (MucoParameter × R) :=
  log ++ [(p, v)]

/-- A final-time goal of weight 2, applied as a cost, over states that are their own
time. -/
def finalTimeGoal : MocoGoal Int Int := MocoFinalTimeGoal (fun t => t) "final_time" 2 true none

/-- An enabled goal of weight 2 that supports the endpoint-constraint mode and is applied
in it; its single output is 3. -/
def endpointConstraintGoal : MocoGoal Unit Int :=
  { name := "endpoint",
    enabled := true,
    weight := 2,
    apply_as_endpoint_constraint := some true,
    numEquations := 0,
    getNumOutputsImpl := 1,
    getDefaultEndpointConstraintImpl := false,
    getSupportsEndpointConstraintImpl := true,
    getNumIntegralsImpl := 0,
    calcGoalImpl := fun _ cost => cost.set 0 3 }

/-- A goal whose `getNumIntegralsImpl()` returns 2. -/
def twoIntegralsGoal : MocoGoal Unit Int :=
  { endpointConstraintGoal with name := "two_integrals", getNumIntegralsImpl := 2 }

/-- A stand-in for the tables and the storage: a table is its list of rows, the storage
operations keep the rows as they are. -/
def sampleStorageOps : StorageOps (List Int) (List Int) Int :=
  { convertTableToStorage := fun table => table,
    getSize := fun sto => sto.length,
    pad := fun sto _ => sto,
    lowpassIIR := fun sto _ => sto,
    exportToTable := fun sto => sto }

/-- A stand-in for the rendering `%g` of a double. -/
def sampleFormatG : Real64 Int → String
  | some (Int.ofNat n) => to_string n
  | some (Int.negSucc n) => "-" ++ to_string (n + 1)
  | none => "nan"

/-- A stand-in for the evaluation of a `PiecewiseLinearFunction`: the line `y = x`. -/
def sampleCalcValue (_xs _ys : List (Real64 Int)) (v : Real64 Int) : Real64 Int := v

/-- A sample model with one joint `knee` between the frames 1 (`femur`, the parent) and 2
(`tibia`, the child), 0 being the ground; a vector expressed in ground is re-expressed in
a frame other than ground by a quarter turn about the z axis. -/
def sampleJointModel : JointModel Int Unit Nat Unit where
  getJoint path := if path = "knee" then some () else none
  getFrame path :=
    if path = "ground" then some 0 else if path = "femur" then some 1
    else if path = "tibia" then some 2 else none
  getParentFrame _ := 1
  getChildFrame _ := 2
  getGround := 0
  calcReactionOnParentExpressedInGround _ _ := ⟨⟨-1, 0, 0⟩, ⟨0, -2, 0⟩⟩
  calcReactionOnChildExpressedInGround _ _ := ⟨⟨1, 0, 0⟩, ⟨0, 2, 0⟩⟩
  expressVectorInAnotherFrame _ v frame := if frame = 0 then v else ⟨v.y, -v.x, v.z⟩

/-- A sample cost on the child side of `knee` with the given components and weights, before
`initializeOnModelImpl`. -/
def sampleJointCost (components : List String) (weights : StrMap Int) :
    MocoJointReactionCost Int Unit Nat where
  joint_path := "knee"
  loads_frame := "child"
  expressed_in_frame_path := ""
  reaction_components := components
  reaction_weights := weights
  m_joint := none
  m_isParentFrame := true
  m_frame := none
  m_componentIndices := []
  m_componentWeights := []

/-- The sample cost on the component `moment-x` with an expressed-in frame path `pelvis`
that names no frame of `sampleJointModel`. -/
def unknownFrameCost : MocoJointReactionCost Int Unit Nat :=
  { sampleJointCost ["moment-x"] [] with expressed_in_frame_path := "pelvis" }

/-- A sample system with three Y slots and two state variables: `b` reads slot 2 and `a`
reads slot 0, slot 1 is read by no state variable. -/
def sampleSystemModel : SystemModel Int where
  stateVariableNames := ["b", "a"]
  ny := 3
  getStateVariableValues y := [y.getD 2 Real64.nan, y.getD 0 Real64.nan]

/-- A sample naming of constraint infos, by constraint index. -/
def sampleInfoName (cid : Nat) (_mp _mv _ma : Nat) : String := "constraint" ++ to_string cid

/-! ## Lemmas on name-keyed maps -/

namespace StrMap

variable {V : Type}

theorem find_eq_none_iff (m : StrMap V) (k : String) : find m k = none ↔ k ∉ keys m := by
  induction m with
  | nil => simp [find, keys]
  | cons e t ih =>
    obtain ⟨k', v'⟩ := e
    by_cases h : k' = k
    · simp [find, keys, h]
    · have h' : ¬ k = k' := fun hk => h hk.symm
      simpa [find, keys, h, h'] using ih

theorem find_isSome_iff (m : StrMap V) (k : String) : (∃ v, find m k = some v) ↔ k ∈ keys m := by
  have h := find_eq_none_iff m k
  cases hf : find m k with
  | none => simpa [hf] using h
  | some v =>
    rw [hf] at h
    constructor
    · intro _
      by_contra hk
      exact absurd (h.2 hk) (by simp)
    · intro _
      exact ⟨v, rfl⟩

theorem count_eq_zero_iff (m : StrMap V) (k : String) : count m k = 0 ↔ k ∉ keys m := by
  rw [← find_eq_none_iff]
  unfold count
  cases find m k <;> simp

theorem find_assign_self (m : StrMap V) (k : String) (v : V) : find (assign m k v) k = some v := by
  induction m with
  | nil => simp [assign, find]
  | cons e t ih =>
    obtain ⟨k', v'⟩ := e
    by_cases h : k' = k
    · simp [assign, find, h]
    · simp [assign, find, h, ih]

theorem find_assign_ne (m : StrMap V) (k k' : String) (v : V) (hne : k' ≠ k) :
    find (assign m k v) k' = find m k' := by
  induction m with
  | nil =>
    have h' : ¬ k = k' := fun hk => hne hk.symm
    simp [assign, find, h']
  | cons e t ih =>
    obtain ⟨k1, v1⟩ := e
    by_cases h : k1 = k
    · subst h
      have h' : ¬ k1 = k' := fun hk => hne hk.symm
      simp [assign, find, h']
    · by_cases h2 : k1 = k'
      · subst h2
        simp [assign, find, h]
      · simp [assign, find, h, h2, ih]

theorem keys_assign_of_mem (m : StrMap V) (k : String) (v : V) (hk : k ∈ keys m) :
    keys (assign m k v) = keys m := by
  induction m with
  | nil => simp [keys] at hk
  | cons e t ih =>
    obtain ⟨k1, v1⟩ := e
    by_cases h : k1 = k
    · simp [assign, keys, h]
    · have hk' : k ∈ keys t := by
        have h' : ¬ k = k1 := fun hk => h hk.symm
        simpa [keys, h'] using hk
      have := ih hk'
      simp only [keys] at this
      simp [assign, keys, h, this]

theorem keys_assign_of_not_mem (m : StrMap V) (k : String) (v : V) (hk : k ∉ keys m) :
    keys (assign m k v) = keys m ++ [k] := by
  induction m with
  | nil => simp [assign, keys]
  | cons e t ih =>
    obtain ⟨k1, v1⟩ := e
    have h : ¬ k1 = k := by
      intro h
      apply hk
      simp [keys, h]
    have hk' : k ∉ keys t := by
      intro hmem
      apply hk
      simp only [keys] at hmem
      simp [keys, hmem]
    have := ih hk'
    simp only [keys] at this
    simp [assign, keys, h, this]

theorem mem_keys_assign (m : StrMap V) (k k' : String) (v : V) :
    k' ∈ keys (assign m k v) ↔ k' = k ∨ k' ∈ keys m := by
  by_cases hk : k ∈ keys m
  · rw [keys_assign_of_mem m k v hk]
    constructor
    · intro h
      exact Or.inr h
    · rintro (h | h)
      · rw [h]
        exact hk
      · exact h
  · rw [keys_assign_of_not_mem m k v hk]
    simp [or_comm]

theorem nodup_keys_assign (m : StrMap V) (k : String) (v : V) (hn : (keys m).Nodup) :
    (keys (assign m k v)).Nodup := by
  by_cases hk : k ∈ keys m
  · rw [keys_assign_of_mem m k v hk]
    exact hn
  · rw [keys_assign_of_not_mem m k v hk]
    apply List.Nodup.append hn (List.nodup_singleton k)
    intro a ha hb
    simp only [List.mem_singleton] at hb
    exact hk (hb ▸ ha)

theorem find_append_of_not_mem (m : StrMap V) (k k' : String) (v : V) (hk : k' ∉ keys m) :
    find (m ++ [(k, v)]) k' = if k = k' then some v else none := by
  induction m with
  | nil => simp [find]
  | cons e t ih =>
    obtain ⟨k1, v1⟩ := e
    have h : ¬ k1 = k' := by
      intro h
      apply hk
      simp [keys, h]
    have hk' : k' ∉ keys t := by
      intro hmem
      apply hk
      simp only [keys] at hmem
      simp [keys, hmem]
    simpa [find, h] using ih hk'

theorem find_append_of_find (m : StrMap V) (k k' : String) (v w : V)
    (hk : find m k' = some w) : find (m ++ [(k, v)]) k' = some w := by
  induction m with
  | nil => simp [find] at hk
  | cons e t ih =>
    obtain ⟨k1, v1⟩ := e
    by_cases h : k1 = k'
    · simpa [find, h] using hk
    · simp only [find, h, if_false] at hk
      simpa [find, h] using ih hk

theorem find_insert_of_find (m : StrMap V) (k k' : String) (v w : V)
    (hk : find m k' = some w) : find (insert m k v) k' = some w := by
  unfold insert
  cases hf : find m k with
  | some _ => simpa using hk
  | none => simpa using find_append_of_find m k k' v w hk

theorem find_insert_self_of_not_mem (m : StrMap V) (k : String) (v : V) (hk : k ∉ keys m) :
    find (insert m k v) k = some v := by
  unfold insert
  rw [(find_eq_none_iff m k).2 hk]
  simpa using find_append_of_not_mem m k k v hk

theorem keys_insert (m : StrMap V) (k : String) (v : V) :
    keys (insert m k v) = if k ∈ keys m then keys m else keys m ++ [k] := by
  unfold insert
  by_cases hk : k ∈ keys m
  · obtain ⟨w, hw⟩ := (find_isSome_iff m k).2 hk
    simp [hw, hk]
  · rw [(find_eq_none_iff m k).2 hk]
    simp only [hk, if_false]
    simp [keys]

theorem mem_keys_insert (m : StrMap V) (k k' : String) (v : V) :
    k' ∈ keys (insert m k v) ↔ k' = k ∨ k' ∈ keys m := by
  rw [keys_insert]
  by_cases hk : k ∈ keys m
  · simp only [hk, if_true]
    constructor
    · intro h
      exact Or.inr h
    · rintro (h | h)
      · rw [h]
        exact hk
      · exact h
  · simp [hk, or_comm]

end StrMap

/-! ## Validation of the declared names -/

variable {R : Type}

theorem findIndexFrom_eq_neg_one_iff (names : List String) (name : String) (i : Nat) :
    findIndexFrom names name i = -1 ↔ name ∉ names := by
  induction names generalizing i with
  | nil => simp [findIndexFrom]
  | cons x xs ih =>
    by_cases h : x = name
    · subst h
      simp only [findIndexFrom, if_true, List.mem_cons, true_or, not_true_eq_false, iff_false]
      omega
    · have h' : ¬ name = x := fun hk => h hk.symm
      simp [findIndexFrom, h, h', ih]

theorem findIndex_eq_neg_one_iff (names : List String) (name : String) :
    findIndex names name = -1 ↔ name ∉ names :=
  findIndexFrom_eq_neg_one_iff names name 0

theorem foldl_push_eq {α β : Type} (f : α → β) (l : List α) (init : List β) :
    l.foldl (fun acc a => acc ++ [f a]) init = init ++ l.map f := by
  induction l generalizing init with
  | nil => simp
  | cons a t ih => simp [ih]

theorem actuNames_eq (model : Model R) :
    actuNames model = model.scalarActuators.map ScalarActuator.path := by
  unfold actuNames
  rw [foldl_push_eq]
  simp

theorem checkStateInfos_error (stateNames : List String) (infos : List (MucoVariableInfo R))
    (e : Exception) (h : checkStateInfos stateNames infos = .error e) :
    ∃ info ∈ infos, info.name ∉ stateNames ∧
      e.msg = "State info provided for nonexistent state '" ++ info.name ++ "'." := by
  induction infos with
  | nil => simp [checkStateInfos] at h
  | cons info rest ih =>
    by_cases hf : findIndex stateNames info.name = -1
    · simp only [checkStateInfos, hf, if_true, Except.error.injEq] at h
      refine ⟨info, List.mem_cons_self _ _, (findIndex_eq_neg_one_iff _ _).1 hf, ?_⟩
      rw [← h]
    · simp only [checkStateInfos, hf, if_false] at h
      obtain ⟨i, hi, hrest⟩ := ih h
      exact ⟨i, List.mem_cons_of_mem _ hi, hrest⟩

theorem checkStateInfos_ok_iff (stateNames : List String) (infos : List (MucoVariableInfo R)) :
    checkStateInfos stateNames infos = .ok () ↔ ∀ info ∈ infos, info.name ∈ stateNames := by
  induction infos with
  | nil => simp [checkStateInfos]
  | cons info rest ih =>
    by_cases hf : findIndex stateNames info.name = -1
    · have hn := (findIndex_eq_neg_one_iff _ _).1 hf
      simp [checkStateInfos, hf, hn]
    · have hn : info.name ∈ stateNames := by
        by_contra hc
        exact hf ((findIndex_eq_neg_one_iff _ _).2 hc)
      simp [checkStateInfos, hf, hn, ih]

theorem checkControlInfos_error (names : List String) (infos : List (MucoVariableInfo R))
    (e : Exception) (h : checkControlInfos names infos = .error e) :
    ∃ info ∈ infos, info.name ∉ names ∧
      e.msg = "Control info provided for nonexistent actuator '" ++ info.name ++ "'." := by
  induction infos with
  | nil => simp [checkControlInfos] at h
  | cons info rest ih =>
    by_cases hf : findIndex names info.name = -1
    · simp only [checkControlInfos, hf, if_true, Except.error.injEq] at h
      refine ⟨info, List.mem_cons_self _ _, (findIndex_eq_neg_one_iff _ _).1 hf, ?_⟩
      rw [← h]
    · simp only [checkControlInfos, hf, if_false] at h
      obtain ⟨i, hi, hrest⟩ := ih h
      exact ⟨i, List.mem_cons_of_mem _ hi, hrest⟩

theorem checkControlInfos_ok_iff (names : List String) (infos : List (MucoVariableInfo R)) :
    checkControlInfos names infos = .ok () ↔ ∀ info ∈ infos, info.name ∈ names := by
  induction infos with
  | nil => simp [checkControlInfos]
  | cons info rest ih =>
    by_cases hf : findIndex names info.name = -1
    · have hn := (findIndex_eq_neg_one_iff _ _).1 hf
      simp [checkControlInfos, hf, hn]
    · have hn : info.name ∈ names := by
        by_contra hc
        exact hf ((findIndex_eq_neg_one_iff _ _).2 hc)
      simp [checkControlInfos, hf, hn, ih]

theorem validateInfos_ok_iff (ph0 : MucoPhase R) :
    validateInfos ph0 = .ok () ↔
      (∀ info ∈ ph0.state_infos, info.name ∈ ph0.model.stateVariableNames) ∧
      (∀ info ∈ ph0.control_infos,
        info.name ∈ ph0.model.scalarActuators.map ScalarActuator.path) := by
  unfold validateInfos
  rw [← checkStateInfos_ok_iff, ← actuNames_eq, ← checkControlInfos_ok_iff]
  cases hs : checkStateInfos ph0.model.stateVariableNames ph0.state_infos with
  | error e => simp
  | ok u => simp

theorem validateInfos_error (ph0 : MucoPhase R) (e : Exception)
    (h : validateInfos ph0 = .error e) :
    (∃ info ∈ ph0.state_infos, info.name ∉ ph0.model.stateVariableNames ∧
      e.msg = "State info provided for nonexistent state '" ++ info.name ++ "'.") ∨
    (∃ info ∈ ph0.control_infos,
      info.name ∉ ph0.model.scalarActuators.map ScalarActuator.path ∧
      e.msg = "Control info provided for nonexistent actuator '" ++ info.name ++ "'.") := by
  unfold validateInfos at h
  cases hs : checkStateInfos ph0.model.stateVariableNames ph0.state_infos with
  | error e' =>
    rw [hs] at h
    simp only [Except.error.injEq] at h
    subst h
    exact Or.inl (checkStateInfos_error _ _ _ hs)
  | ok u =>
    rw [hs] at h
    simp only at h
    rw [actuNames_eq] at h
    exact Or.inr (checkControlInfos_error _ _ _ h)

theorem initialize_eq_ok_iff (infoName : Nat → Nat → Nat → Nat → String)
    (self rep : MucoProblemRep R) :
    MucoProblemRep.initialize infoName self = .ok rep ↔
      validateInfos self.m_problem.phase0 = .ok () ∧ rep = populate infoName self := by
  unfold MucoProblemRep.initialize
  cases hv : validateInfos self.m_problem.phase0 with
  | error e => simp
  | ok u =>
    simp only [Except.ok.injEq, true_and]
    exact eq_comm

/-- C1: `initialize` fails its validation step if and only if some declared state info
names no state variable of the model or some declared control info names no scalar
actuator (by model-relative path); the exception raised is the one of the validation
step, and its message quotes a declared name that failed the check. -/
theorem C1_validation_fails_iff (infoName : Nat → Nat → Nat → Nat → String)
    (self : MucoProblemRep R) :
    ((∃ e, validateInfos self.m_problem.phase0 = .error e) ↔
      ((∃ info ∈ self.m_problem.phase0.state_infos,
          info.name ∉ self.m_problem.phase0.model.stateVariableNames) ∨
       (∃ info ∈ self.m_problem.phase0.control_infos,
          info.name ∉
            self.m_problem.phase0.model.scalarActuators.map ScalarActuator.path))) ∧
    (∀ e, MucoProblemRep.initialize infoName self = .error e ↔
      validateInfos self.m_problem.phase0 = .error e) ∧
    (∀ e, MucoProblemRep.initialize infoName self = .error e →
      ((∃ info ∈ self.m_problem.phase0.state_infos,
          info.name ∉ self.m_problem.phase0.model.stateVariableNames ∧
          e.msg = "State info provided for nonexistent state '" ++ info.name ++ "'.") ∨
       (∃ info ∈ self.m_problem.phase0.control_infos,
          info.name ∉
            self.m_problem.phase0.model.scalarActuators.map ScalarActuator.path ∧
          e.msg =
            "Control info provided for nonexistent actuator '" ++ info.name ++ "'."))) := by
  have hinit : ∀ e, MucoProblemRep.initialize infoName self = .error e ↔
      validateInfos self.m_problem.phase0 = .error e := by
    intro e
    unfold MucoProblemRep.initialize
    cases hv : validateInfos self.m_problem.phase0 with
    | error e' => simp
    | ok u => simp
  refine ⟨?_, hinit, ?_⟩
  · constructor
    · rintro ⟨e, he⟩
      rcases validateInfos_error _ e he with ⟨info, hi, hn, _⟩ | ⟨info, hi, hn, _⟩
      · exact Or.inl ⟨info, hi, hn⟩
      · exact Or.inr ⟨info, hi, hn⟩
    · intro h
      cases hv : validateInfos self.m_problem.phase0 with
      | error e => exact ⟨e, rfl⟩
      | ok u =>
        exfalso
        obtain ⟨hs, hc⟩ := (validateInfos_ok_iff _).1 hv
        rcases h with ⟨info, hi, hn⟩ | ⟨info, hi, hn⟩
        · exact hn (hs info hi)
        · exact hn (hc info hi)
  · intro e he
    exact validateInfos_error _ e ((hinit e).1 he)

/-- C1 at the sample problem with a state info declared for the absent state
`nope/value`: construction fails and the message quotes that name. -/
theorem C1_validation_fails_iff_witness :
    MucoProblemRep.initialize sampleInfoName (MucoProblemRep.fresh badStateProblem) =
        .error ⟨"State info provided for nonexistent state 'nope/value'."⟩ ∧
      ((∃ info ∈ badStateProblem.phase0.state_infos,
          info.name ∉ badStateProblem.phase0.model.stateVariableNames ∧
          (⟨"State info provided for nonexistent state 'nope/value'."⟩ : Exception).msg =
            "State info provided for nonexistent state '" ++ info.name ++ "'.") ∨
       (∃ info ∈ badStateProblem.phase0.control_infos,
          info.name ∉
            badStateProblem.phase0.model.scalarActuators.map ScalarActuator.path ∧
          (⟨"State info provided for nonexistent state 'nope/value'."⟩ : Exception).msg =
            "Control info provided for nonexistent actuator '" ++ info.name ++ "'.")) :=
  ⟨rfl, (C1_validation_fails_iff sampleInfoName (MucoProblemRep.fresh badStateProblem)).2.2
    ⟨"State info provided for nonexistent state 'nope/value'."⟩ rfl⟩

/-! ## The state-info and control-info registries -/

theorem append_suffix_cancel (p q suffix : String) (h : p ++ suffix = q ++ suffix) : p = q := by
  have hd := congrArg String.data h
  simp only [String.data_append] at hd
  exact String.ext (List.append_cancel_right hd)

theorem value_ne_speed (p q : String) : p ++ "/value" ≠ q ++ "/speed" := by
  intro h
  have hd := congrArg String.data h
  simp only [String.data_append] at hd
  have := List.append_inj_right' hd (by decide)
  exact absurd this (by decide)

theorem recordInfos_append (m : StrMap (MucoVariableInfo R)) (l₁ l₂ : List (MucoVariableInfo R)) :
    recordInfos m (l₁ ++ l₂) = recordInfos (recordInfos m l₁) l₂ := by
  induction l₁ generalizing m with
  | nil => rfl
  | cons info rest ih => simp [recordInfos, ih]

theorem mem_keys_recordInfos (m : StrMap (MucoVariableInfo R)) (infos : List (MucoVariableInfo R))
    (k : String) :
    k ∈ StrMap.keys (recordInfos m infos) ↔
      k ∈ StrMap.keys m ∨ ∃ info ∈ infos, info.name = k := by
  induction infos generalizing m with
  | nil => simp [recordInfos]
  | cons info rest ih =>
    simp only [recordInfos, ih, StrMap.mem_keys_assign, List.mem_cons, exists_eq_or_imp]
    constructor
    · rintro ((h | h) | h)
      · exact Or.inr (Or.inl h.symm)
      · exact Or.inl h
      · exact Or.inr (Or.inr h)
    · rintro (h | h | h)
      · exact Or.inl (Or.inr h)
      · exact Or.inl (Or.inl h.symm)
      · exact Or.inr h

theorem nodup_keys_recordInfos (m : StrMap (MucoVariableInfo R))
    (infos : List (MucoVariableInfo R)) (hn : (StrMap.keys m).Nodup) :
    (StrMap.keys (recordInfos m infos)).Nodup := by
  induction infos generalizing m with
  | nil => exact hn
  | cons info rest ih => exact ih _ (StrMap.nodup_keys_assign m _ _ hn)

theorem find_recordInfos_of_not_declared (m : StrMap (MucoVariableInfo R))
    (infos : List (MucoVariableInfo R)) (k : String) (h : ∀ info ∈ infos, info.name ≠ k) :
    StrMap.find (recordInfos m infos) k = StrMap.find m k := by
  induction infos generalizing m with
  | nil => rfl
  | cons info rest ih =>
    simp only [recordInfos]
    rw [ih _ (fun i hi => h i (List.mem_cons_of_mem _ hi))]
    exact StrMap.find_assign_ne m _ _ _ (fun hk => h info (List.mem_cons_self _ _) hk.symm)

theorem find_recordInfos_last (m : StrMap (MucoVariableInfo R))
    (l₁ l₂ : List (MucoVariableInfo R)) (info : MucoVariableInfo R)
    (h : ∀ i ∈ l₂, i.name ≠ info.name) :
    StrMap.find (recordInfos m (l₁ ++ info :: l₂)) info.name = some info := by
  rw [recordInfos_append]
  simp only [recordInfos]
  rw [find_recordInfos_of_not_declared _ _ _ h]
  exact StrMap.find_assign_self _ _ _

theorem mem_keys_addCoordinateInfo (b : MucoBounds R) (m : StrMap (MucoVariableInfo R))
    (c : Coordinate R) (k : String) :
    k ∈ StrMap.keys (addCoordinateInfo b m c) ↔
      k ∈ StrMap.keys m ∨ k = c.path ++ "/value" ∨ k = c.path ++ "/speed" := by
  unfold addCoordinateInfo
  simp only
  split_ifs with h1 h2 h2
  · rw [StrMap.mem_keys_assign, StrMap.mem_keys_assign]
    tauto
  · rw [StrMap.count_eq_zero_iff] at h2
    simp only [not_not] at h2
    rw [StrMap.mem_keys_assign] at h2 ⊢
    constructor
    · tauto
    · rintro (h | h | h)
      · tauto
      · tauto
      · rw [h]
        rcases h2 with h2 | h2
        · exact Or.inl h2
        · exact Or.inr h2
  · rw [StrMap.count_eq_zero_iff] at h1
    simp only [not_not] at h1
    rw [StrMap.mem_keys_assign]
    constructor
    · tauto
    · rintro (h | h | h)
      · tauto
      · rw [h]
        exact Or.inr h1
      · tauto
  · rw [StrMap.count_eq_zero_iff] at h1 h2
    simp only [not_not] at h1 h2
    constructor
    · tauto
    · rintro (h | h | h)
      · exact h
      · rw [h]
        exact h1
      · rw [h]
        exact h2

theorem nodup_keys_addCoordinateInfo (b : MucoBounds R) (m : StrMap (MucoVariableInfo R))
    (c : Coordinate R) (hn : (StrMap.keys m).Nodup) :
    (StrMap.keys (addCoordinateInfo b m c)).Nodup := by
  unfold addCoordinateInfo
  simp only
  split_ifs
  · exact StrMap.nodup_keys_assign _ _ _ (StrMap.nodup_keys_assign _ _ _ hn)
  · exact StrMap.nodup_keys_assign _ _ _ hn
  · exact StrMap.nodup_keys_assign _ _ _ hn
  · exact hn

theorem find_addCoordinateInfo_of_find (b : MucoBounds R) (m : StrMap (MucoVariableInfo R))
    (c : Coordinate R) (k : String) (v : MucoVariableInfo R) (h : StrMap.find m k = some v) :
    StrMap.find (addCoordinateInfo b m c) k = some v := by
  have hk : k ∈ StrMap.keys m := (StrMap.find_isSome_iff m k).1 ⟨v, h⟩
  have step : ∀ (m' : StrMap (MucoVariableInfo R)) (name : String) (w : MucoVariableInfo R),
      StrMap.find m' k = some v →
      StrMap.find (if m'.count name = 0 then m'.assign name w else m') k = some v := by
    intro m' name w hf
    split_ifs with h0
    · rw [StrMap.count_eq_zero_iff] at h0
      have hk' : k ∈ StrMap.keys m' := (StrMap.find_isSome_iff m' k).1 ⟨v, hf⟩
      rw [StrMap.find_assign_ne _ _ _ _ (fun (hkn : k = name) => h0 (by rw [← hkn]; exact hk'))]
      exact hf
    · exact hf
  unfold addCoordinateInfo
  exact step _ _ _ (step _ _ _ h)

theorem find_addCoordinateInfo_value (b : MucoBounds R) (m : StrMap (MucoVariableInfo R))
    (c : Coordinate R) (h : c.path ++ "/value" ∉ StrMap.keys m) :
    StrMap.find (addCoordinateInfo b m c) (c.path ++ "/value") =
      some ⟨c.path ++ "/value", MucoBounds.range c.rangeMin c.rangeMax, ⟨none, none⟩,
        ⟨none, none⟩⟩ := by
  unfold addCoordinateInfo
  simp only
  rw [if_pos ((StrMap.count_eq_zero_iff _ _).2 h)]
  split_ifs
  · rw [StrMap.find_assign_ne _ _ _ _ (value_ne_speed _ _)]
    exact StrMap.find_assign_self _ _ _
  · exact StrMap.find_assign_self _ _ _

theorem find_addCoordinateInfo_speed (b : MucoBounds R) (m : StrMap (MucoVariableInfo R))
    (c : Coordinate R) (h : c.path ++ "/speed" ∉ StrMap.keys m) :
    StrMap.find (addCoordinateInfo b m c) (c.path ++ "/speed") =
      some ⟨c.path ++ "/speed", b, ⟨none, none⟩, ⟨none, none⟩⟩ := by
  unfold addCoordinateInfo
  simp only
  have hs : ∀ (w : MucoVariableInfo R) (name : String), name = c.path ++ "/value" →
      c.path ++ "/speed" ∉
        StrMap.keys (if m.count name = 0 then m.assign name w else m) := by
    intro w name hname
    split_ifs
    · rw [StrMap.mem_keys_assign]
      rintro (hk | hk)
      · rw [hname] at hk
        exact value_ne_speed _ _ hk.symm
      · exact h hk
    · exact h
  rw [if_pos ((StrMap.count_eq_zero_iff _ _).2 (hs _ _ rfl))]
  exact StrMap.find_assign_self _ _ _

theorem addCoordinateInfos_append (b : MucoBounds R) (m : StrMap (MucoVariableInfo R))
    (l₁ l₂ : List (Coordinate R)) :
    addCoordinateInfos b m (l₁ ++ l₂) = addCoordinateInfos b (addCoordinateInfos b m l₁) l₂ := by
  induction l₁ generalizing m with
  | nil => rfl
  | cons c rest ih => simp [addCoordinateInfos, ih]

theorem mem_keys_addCoordinateInfos (b : MucoBounds R) (m : StrMap (MucoVariableInfo R))
    (cs : List (Coordinate R)) (k : String) :
    k ∈ StrMap.keys (addCoordinateInfos b m cs) ↔
      k ∈ StrMap.keys m ∨ ∃ c ∈ cs, k = c.path ++ "/value" ∨ k = c.path ++ "/speed" := by
  induction cs generalizing m with
  | nil => simp [addCoordinateInfos]
  | cons c rest ih =>
    simp only [addCoordinateInfos, ih, mem_keys_addCoordinateInfo, List.mem_cons,
      exists_eq_or_imp]
    constructor
    · rintro ((h | h) | h)
      · exact Or.inl h
      · exact Or.inr (Or.inl h)
      · exact Or.inr (Or.inr h)
    · rintro (h | h | h)
      · exact Or.inl (Or.inl h)
      · exact Or.inl (Or.inr h)
      · exact Or.inr h

theorem nodup_keys_addCoordinateInfos (b : MucoBounds R) (m : StrMap (MucoVariableInfo R))
    (cs : List (Coordinate R)) (hn : (StrMap.keys m).Nodup) :
    (StrMap.keys (addCoordinateInfos b m cs)).Nodup := by
  induction cs generalizing m with
  | nil => exact hn
  | cons c rest ih => exact ih _ (nodup_keys_addCoordinateInfo b m c hn)

theorem find_addCoordinateInfos_of_find (b : MucoBounds R) (m : StrMap (MucoVariableInfo R))
    (cs : List (Coordinate R)) (k : String) (v : MucoVariableInfo R)
    (h : StrMap.find m k = some v) :
    StrMap.find (addCoordinateInfos b m cs) k = some v := by
  induction cs generalizing m with
  | nil => exact h
  | cons c rest ih => exact ih _ (find_addCoordinateInfo_of_find b m c k v h)

theorem find_addCoordinateInfos_value (b : MucoBounds R) (m : StrMap (MucoVariableInfo R))
    (l₁ l₂ : List (Coordinate R)) (c : Coordinate R)
    (hfirst : ∀ c' ∈ l₁, c'.path ≠ c.path) (h : c.path ++ "/value" ∉ StrMap.keys m) :
    StrMap.find (addCoordinateInfos b m (l₁ ++ c :: l₂)) (c.path ++ "/value") =
      some ⟨c.path ++ "/value", MucoBounds.range c.rangeMin c.rangeMax, ⟨none, none⟩,
        ⟨none, none⟩⟩ := by
  rw [addCoordinateInfos_append]
  simp only [addCoordinateInfos]
  apply find_addCoordinateInfos_of_find
  apply find_addCoordinateInfo_value
  rw [mem_keys_addCoordinateInfos]
  rintro (hk | ⟨c', hc', hk | hk⟩)
  · exact h hk
  · exact hfirst c' hc' (append_suffix_cancel _ _ _ hk).symm
  · exact value_ne_speed _ _ hk

theorem find_addCoordinateInfos_speed (b : MucoBounds R) (m : StrMap (MucoVariableInfo R))
    (l₁ l₂ : List (Coordinate R)) (c : Coordinate R)
    (hfirst : ∀ c' ∈ l₁, c'.path ≠ c.path) (h : c.path ++ "/speed" ∉ StrMap.keys m) :
    StrMap.find (addCoordinateInfos b m (l₁ ++ c :: l₂)) (c.path ++ "/speed") =
      some ⟨c.path ++ "/speed", b, ⟨none, none⟩, ⟨none, none⟩⟩ := by
  rw [addCoordinateInfos_append]
  simp only [addCoordinateInfos]
  apply find_addCoordinateInfos_of_find
  apply find_addCoordinateInfo_speed
  rw [mem_keys_addCoordinateInfos]
  rintro (hk | ⟨c', hc', hk | hk⟩)
  · exact h hk
  · exact value_ne_speed _ _ hk.symm
  · exact hfirst c' hc' (append_suffix_cancel _ _ _ hk).symm

theorem length_eq_length_keys {V : Type} (m : StrMap V) : m.length = (StrMap.keys m).length := by
  simp [StrMap.keys]

theorem length_addCoordinateInfo (b : MucoBounds R) (m : StrMap (MucoVariableInfo R))
    (c : Coordinate R) (hv : c.path ++ "/value" ∉ StrMap.keys m)
    (hs : c.path ++ "/speed" ∉ StrMap.keys m) :
    (addCoordinateInfo b m c).length = m.length + 2 := by
  unfold addCoordinateInfo
  simp only
  rw [if_pos ((StrMap.count_eq_zero_iff _ _).2 hv)]
  have hs' : c.path ++ "/speed" ∉ StrMap.keys (m.assign (c.path ++ "/value")
      ⟨c.path ++ "/value", MucoBounds.range c.rangeMin c.rangeMax, ⟨none, none⟩,
        ⟨none, none⟩⟩) := by
    rw [StrMap.mem_keys_assign]
    rintro (hk | hk)
    · exact value_ne_speed _ _ hk.symm
    · exact hs hk
  rw [if_pos ((StrMap.count_eq_zero_iff _ _).2 hs')]
  rw [length_eq_length_keys, StrMap.keys_assign_of_not_mem _ _ _ hs',
    StrMap.keys_assign_of_not_mem _ _ _ hv, length_eq_length_keys m]
  simp

theorem length_addCoordinateInfos (b : MucoBounds R) (m : StrMap (MucoVariableInfo R))
    (cs : List (Coordinate R)) (hnd : (cs.map Coordinate.path).Nodup)
    (hfresh : ∀ c ∈ cs, c.path ++ "/value" ∉ StrMap.keys m ∧ c.path ++ "/speed" ∉ StrMap.keys m) :
    (addCoordinateInfos b m cs).length = m.length + 2 * cs.length := by
  induction cs generalizing m with
  | nil => simp [addCoordinateInfos]
  | cons c rest ih =>
    simp only [List.map_cons, List.nodup_cons, List.mem_map, not_exists, not_and] at hnd
    obtain ⟨hc, hrest⟩ := hnd
    have h0 := hfresh c (List.mem_cons_self _ _)
    simp only [addCoordinateInfos]
    rw [ih _ hrest, length_addCoordinateInfo b m c h0.1 h0.2]
    · simp only [List.length_cons]
      omega
    · intro c' hc'
      have h1 := hfresh c' (List.mem_cons_of_mem _ hc')
      rw [mem_keys_addCoordinateInfo, mem_keys_addCoordinateInfo]
      constructor
      · rintro (hk | hk | hk)
        · exact h1.1 hk
        · exact hc c' hc' (append_suffix_cancel _ _ _ hk)
        · exact value_ne_speed _ _ hk
      · rintro (hk | hk | hk)
        · exact h1.2 hk
        · exact value_ne_speed _ _ hk.symm
        · exact hc c' hc' (append_suffix_cancel _ _ _ hk)

theorem create_eq_ok_iff (infoName : Nat → Nat → Nat → Nat → String)
    (problem : MucoProblem R) (rep : MucoProblemRep R) :
    MucoProblemRep.create infoName problem = .ok rep ↔
      validateInfos problem.phase0 = .ok () ∧
        rep = populate infoName (MucoProblemRep.fresh problem) := by
  unfold MucoProblemRep.create
  rw [initialize_eq_ok_iff]
  rfl

theorem populate_state_infos (infoName : Nat → Nat → Nat → Nat → String)
    (problem : MucoProblem R) :
    (populate infoName (MucoProblemRep.fresh problem)).m_state_infos =
      addCoordinateInfos problem.phase0.default_speed_bounds
        (recordInfos [] problem.phase0.state_infos) problem.phase0.model.coordinates := rfl

theorem populate_control_infos (infoName : Nat → Nat → Nat → Nat → String)
    (problem : MucoProblem R) :
    (populate infoName (MucoProblemRep.fresh problem)).m_control_infos =
      addActuatorInfos (recordInfos [] problem.phase0.control_infos)
        problem.phase0.model.scalarActuators := rfl

/-- C2: after a successful construction, the names in the state-info registry are exactly
the declared state-info names together with `<coord>/value` and `<coord>/speed` for every
coordinate of the model, each name once; with no declared state infos and `n` coordinates
of distinct paths the registry has exactly `2 * n` entries. -/
theorem C2_state_info_names (infoName : Nat → Nat → Nat → Nat → String)
    (problem : MucoProblem R) (rep : MucoProblemRep R)
    (h : MucoProblemRep.create infoName problem = .ok rep) :
    (∀ name, name ∈ StrMap.keys rep.m_state_infos ↔
      ((∃ info ∈ problem.phase0.state_infos, info.name = name) ∨
       (∃ c ∈ problem.phase0.model.coordinates,
          name = c.path ++ "/value" ∨ name = c.path ++ "/speed"))) ∧
    (StrMap.keys rep.m_state_infos).Nodup ∧
    (problem.phase0.state_infos = [] →
      (problem.phase0.model.coordinates.map Coordinate.path).Nodup →
      rep.m_state_infos.length = 2 * problem.phase0.model.coordinates.length) := by
  obtain ⟨_, hrep⟩ := (create_eq_ok_iff infoName problem rep).1 h
  subst hrep
  rw [populate_state_infos]
  refine ⟨?_, ?_, ?_⟩
  · intro name
    rw [mem_keys_addCoordinateInfos, mem_keys_recordInfos]
    simp [StrMap.keys]
  · apply nodup_keys_addCoordinateInfos
    apply nodup_keys_recordInfos
    exact List.nodup_nil
  · intro hnone hnd
    rw [hnone, length_addCoordinateInfos _ _ _ hnd]
    · simp [recordInfos]
    · intro c _
      simp [recordInfos, StrMap.keys]

/-- C2 at the sample model (two coordinates) with no declared state infos: the registry
has four entries. -/
theorem C2_state_info_names_witness :
    ∃ rep, MucoProblemRep.create sampleInfoName
        (⟨"two", { samplePhase with state_infos := [] }⟩ : MucoProblem Int) = .ok rep ∧
      rep.m_state_infos.length = 4 ∧
      StrMap.keys rep.m_state_infos =
        ["j0/q0/value", "j0/q0/speed", "j1/q1/value", "j1/q1/speed"] :=
  ⟨populate sampleInfoName (MucoProblemRep.fresh ⟨"two", { samplePhase with state_infos := [] }⟩),
    rfl,
    (C2_state_info_names sampleInfoName ⟨"two", { samplePhase with state_infos := [] }⟩ _
      rfl).2.2 rfl (by decide),
    by decide⟩

theorem nodup_map_split {α : Type} (f : α → String) (l₁ l₂ : List α) (a : α)
    (hnd : ((l₁ ++ a :: l₂).map f).Nodup) :
    (∀ x ∈ l₁, f x ≠ f a) ∧ (∀ x ∈ l₂, f x ≠ f a) := by
  simp only [List.map_append, List.map_cons] at hnd
  have hparts := List.nodup_append.1 hnd
  obtain ⟨_, h2, hdisj⟩ := hparts
  have h2' := List.nodup_cons.1 h2
  constructor
  · intro x hx hfx
    exact hdisj (List.mem_map_of_mem f hx) (by rw [hfx]; exact List.mem_cons_self _ _)
  · intro x hx hfx
    exact h2'.1 (by rw [← hfx]; exact List.mem_map_of_mem f hx)

/-- C3: after a successful construction, a declared state name maps to the info the user
declared under it (the last one, should a name be declared twice) and is never replaced
by a coordinate default; a coordinate value or speed name that the user did not declare
maps to the auto-populated info with the coordinate's `[rangeMin, rangeMax]` for
`/value` and the phase's default speed bounds for `/speed` (the first coordinate of that
path, should two coordinates share one). -/
theorem C3_state_info_values (infoName : Nat → Nat → Nat → Nat → String)
    (problem : MucoProblem R) (rep : MucoProblemRep R)
    (h : MucoProblemRep.create infoName problem = .ok rep) :
    (∀ l₁ info l₂, problem.phase0.state_infos = l₁ ++ info :: l₂ →
      (∀ i ∈ l₂, i.name ≠ info.name) →
      StrMap.find rep.m_state_infos info.name = some info) ∧
    ((problem.phase0.state_infos.map MucoVariableInfo.name).Nodup →
      ∀ info ∈ problem.phase0.state_infos,
        StrMap.find rep.m_state_infos info.name = some info) ∧
    (∀ l₁ c l₂, problem.phase0.model.coordinates = l₁ ++ c :: l₂ →
      (∀ c' ∈ l₁, c'.path ≠ c.path) →
      ((∀ info ∈ problem.phase0.state_infos, info.name ≠ c.path ++ "/value") →
        StrMap.find rep.m_state_infos (c.path ++ "/value") =
          some ⟨c.path ++ "/value", MucoBounds.range c.rangeMin c.rangeMax, ⟨none, none⟩,
            ⟨none, none⟩⟩) ∧
      ((∀ info ∈ problem.phase0.state_infos, info.name ≠ c.path ++ "/speed") →
        StrMap.find rep.m_state_infos (c.path ++ "/speed") =
          some ⟨c.path ++ "/speed", problem.phase0.default_speed_bounds, ⟨none, none⟩,
            ⟨none, none⟩⟩)) ∧
    ((problem.phase0.model.coordinates.map Coordinate.path).Nodup →
      ∀ c ∈ problem.phase0.model.coordinates,
        ((∀ info ∈ problem.phase0.state_infos, info.name ≠ c.path ++ "/value") →
          StrMap.find rep.m_state_infos (c.path ++ "/value") =
            some ⟨c.path ++ "/value", MucoBounds.range c.rangeMin c.rangeMax, ⟨none, none⟩,
              ⟨none, none⟩⟩) ∧
        ((∀ info ∈ problem.phase0.state_infos, info.name ≠ c.path ++ "/speed") →
          StrMap.find rep.m_state_infos (c.path ++ "/speed") =
            some ⟨c.path ++ "/speed", problem.phase0.default_speed_bounds, ⟨none, none⟩,
              ⟨none, none⟩⟩)) := by
  obtain ⟨_, hrep⟩ := (create_eq_ok_iff infoName problem rep).1 h
  subst hrep
  rw [populate_state_infos]
  have hdecl : ∀ l₁ info l₂, problem.phase0.state_infos = l₁ ++ info :: l₂ →
      (∀ i ∈ l₂, i.name ≠ info.name) →
      StrMap.find (addCoordinateInfos problem.phase0.default_speed_bounds
        (recordInfos [] problem.phase0.state_infos) problem.phase0.model.coordinates)
        info.name = some info := by
    intro l₁ info l₂ hsplit hlast
    apply find_addCoordinateInfos_of_find
    rw [hsplit]
    exact find_recordInfos_last _ _ _ _ hlast
  have hnotin : ∀ k, (∀ info ∈ problem.phase0.state_infos, info.name ≠ k) →
      k ∉ StrMap.keys (recordInfos ([] : StrMap (MucoVariableInfo R))
        problem.phase0.state_infos) := by
    intro k hk
    rw [mem_keys_recordInfos]
    rintro (hm | ⟨info, hi, hn⟩)
    · simp [StrMap.keys] at hm
    · exact hk info hi hn
  have hcoord : ∀ l₁ c l₂, problem.phase0.model.coordinates = l₁ ++ c :: l₂ →
      (∀ c' ∈ l₁, c'.path ≠ c.path) →
      ((∀ info ∈ problem.phase0.state_infos, info.name ≠ c.path ++ "/value") →
        StrMap.find (addCoordinateInfos problem.phase0.default_speed_bounds
          (recordInfos [] problem.phase0.state_infos) problem.phase0.model.coordinates)
          (c.path ++ "/value") =
          some ⟨c.path ++ "/value", MucoBounds.range c.rangeMin c.rangeMax, ⟨none, none⟩,
            ⟨none, none⟩⟩) ∧
      ((∀ info ∈ problem.phase0.state_infos, info.name ≠ c.path ++ "/speed") →
        StrMap.find (addCoordinateInfos problem.phase0.default_speed_bounds
          (recordInfos [] problem.phase0.state_infos) problem.phase0.model.coordinates)
          (c.path ++ "/speed") =
          some ⟨c.path ++ "/speed", problem.phase0.default_speed_bounds, ⟨none, none⟩,
            ⟨none, none⟩⟩) := by
    intro l₁ c l₂ hsplit hfirst
    rw [hsplit]
    exact ⟨fun hv => find_addCoordinateInfos_value _ _ _ _ _ hfirst (hnotin _ hv),
      fun hs => find_addCoordinateInfos_speed _ _ _ _ _ hfirst (hnotin _ hs)⟩
  refine ⟨hdecl, ?_, hcoord, ?_⟩
  · intro hnd info hi
    obtain ⟨s, t, hst⟩ := List.append_of_mem hi
    rw [hst] at hnd
    exact hdecl s info t hst (nodup_map_split _ _ _ _ hnd).2
  · intro hnd c hc
    obtain ⟨s, t, hst⟩ := List.append_of_mem hc
    rw [hst] at hnd
    exact hcoord s c t hst (nodup_map_split _ _ _ _ hnd).1

/-- C3 at the sample problem: the declared `j1/q1/speed` keeps the declared info, and the
undeclared `j1/q1/value` gets the range of the coordinate. -/
theorem C3_state_info_values_witness :
    ∃ rep, MucoProblemRep.create sampleInfoName sampleProblem = .ok rep ∧
      StrMap.find rep.m_state_infos "j1/q1/speed" =
        some ⟨"j1/q1/speed", MucoBounds.range 0 3, ⟨some 0, some 0⟩, ⟨none, none⟩⟩ ∧
      StrMap.find rep.m_state_infos "j1/q1/value" =
        some ⟨"j1/q1/value", MucoBounds.range (-5) 5, ⟨none, none⟩, ⟨none, none⟩⟩ :=
  ⟨populate sampleInfoName (MucoProblemRep.fresh sampleProblem), rfl,
    (C3_state_info_values sampleInfoName sampleProblem _ rfl).1 []
      ⟨"j1/q1/speed", MucoBounds.range 0 3, ⟨some 0, some 0⟩, ⟨none, none⟩⟩ [] rfl
      (by simp),
    ((C3_state_info_values sampleInfoName sampleProblem _ rfl).2.2.1 [⟨"j0/q0", -10, 10⟩]
      ⟨"j1/q1", -5, 5⟩ [] rfl (by decide)).1 (by decide)⟩

theorem mem_keys_addActuatorInfo (m : StrMap (MucoVariableInfo R)) (a : ScalarActuator R)
    (k : String) :
    k ∈ StrMap.keys (addActuatorInfo m a) ↔ k ∈ StrMap.keys m ∨ k = a.path := by
  unfold addActuatorInfo
  simp only
  split_ifs with h0
  · rw [StrMap.mem_keys_assign]
    exact or_comm
  · rw [StrMap.count_eq_zero_iff] at h0
    simp only [not_not] at h0
    constructor
    · intro hk
      exact Or.inl hk
    · rintro (hk | hk)
      · exact hk
      · rw [hk]
        exact h0

theorem nodup_keys_addActuatorInfo (m : StrMap (MucoVariableInfo R)) (a : ScalarActuator R)
    (hn : (StrMap.keys m).Nodup) : (StrMap.keys (addActuatorInfo m a)).Nodup := by
  unfold addActuatorInfo
  simp only
  split_ifs
  · exact StrMap.nodup_keys_assign _ _ _ hn
  · exact hn

theorem find_addActuatorInfo_of_find (m : StrMap (MucoVariableInfo R)) (a : ScalarActuator R)
    (k : String) (v : MucoVariableInfo R) (h : StrMap.find m k = some v) :
    StrMap.find (addActuatorInfo m a) k = some v := by
  unfold addActuatorInfo
  simp only
  split_ifs with h0
  · rw [StrMap.count_eq_zero_iff] at h0
    have hk : k ∈ StrMap.keys m := (StrMap.find_isSome_iff m k).1 ⟨v, h⟩
    rw [StrMap.find_assign_ne _ _ _ _
      (fun (hkn : k = a.path) => h0 (by rw [← hkn]; exact hk))]
    exact h
  · exact h

theorem find_addActuatorInfo_new (m : StrMap (MucoVariableInfo R)) (a : ScalarActuator R)
    (h : a.path ∉ StrMap.keys m) :
    StrMap.find (addActuatorInfo m a) a.path =
      some ⟨a.path, MucoBounds.range a.minControl a.maxControl, ⟨none, none⟩,
        ⟨none, none⟩⟩ := by
  unfold addActuatorInfo
  simp only
  rw [if_pos ((StrMap.count_eq_zero_iff _ _).2 h)]
  exact StrMap.find_assign_self _ _ _

theorem addActuatorInfos_append (m : StrMap (MucoVariableInfo R))
    (l₁ l₂ : List (ScalarActuator R)) :
    addActuatorInfos m (l₁ ++ l₂) = addActuatorInfos (addActuatorInfos m l₁) l₂ := by
  induction l₁ generalizing m with
  | nil => rfl
  | cons a rest ih => simp [addActuatorInfos, ih]

theorem mem_keys_addActuatorInfos (m : StrMap (MucoVariableInfo R))
    (as : List (ScalarActuator R)) (k : String) :
    k ∈ StrMap.keys (addActuatorInfos m as) ↔ k ∈ StrMap.keys m ∨ ∃ a ∈ as, k = a.path := by
  induction as generalizing m with
  | nil => simp [addActuatorInfos]
  | cons a rest ih =>
    simp only [addActuatorInfos, ih, mem_keys_addActuatorInfo, List.mem_cons,
      exists_eq_or_imp]
    exact or_assoc

theorem nodup_keys_addActuatorInfos (m : StrMap (MucoVariableInfo R))
    (as : List (ScalarActuator R)) (hn : (StrMap.keys m).Nodup) :
    (StrMap.keys (addActuatorInfos m as)).Nodup := by
  induction as generalizing m with
  | nil => exact hn
  | cons a rest ih => exact ih _ (nodup_keys_addActuatorInfo m a hn)

theorem find_addActuatorInfos_of_find (m : StrMap (MucoVariableInfo R))
    (as : List (ScalarActuator R)) (k : String) (v : MucoVariableInfo R)
    (h : StrMap.find m k = some v) : StrMap.find (addActuatorInfos m as) k = some v := by
  induction as generalizing m with
  | nil => exact h
  | cons a rest ih => exact ih _ (find_addActuatorInfo_of_find m a k v h)

theorem find_addActuatorInfos_new (m : StrMap (MucoVariableInfo R))
    (l₁ l₂ : List (ScalarActuator R)) (a : ScalarActuator R)
    (hfirst : ∀ a' ∈ l₁, a'.path ≠ a.path) (h : a.path ∉ StrMap.keys m) :
    StrMap.find (addActuatorInfos m (l₁ ++ a :: l₂)) a.path =
      some ⟨a.path, MucoBounds.range a.minControl a.maxControl, ⟨none, none⟩,
        ⟨none, none⟩⟩ := by
  rw [addActuatorInfos_append]
  simp only [addActuatorInfos]
  apply find_addActuatorInfos_of_find
  apply find_addActuatorInfo_new
  rw [mem_keys_addActuatorInfos]
  rintro (hk | ⟨a', ha', hk⟩)
  · exact h hk
  · exact hfirst a' ha' hk.symm

/-- C4: after a successful construction, the names in the control-info registry are
exactly the model-relative paths of the scalar actuators, each name once (so one entry per
actuator when the paths are distinct); a declared name maps to the declared info (the
last one, should a name be declared twice), and the path of an actuator with no declared
info maps to the auto-populated info with bounds `[minControl, maxControl]`. -/
theorem C4_control_infos (infoName : Nat → Nat → Nat → Nat → String)
    (problem : MucoProblem R) (rep : MucoProblemRep R)
    (h : MucoProblemRep.create infoName problem = .ok rep) :
    (∀ name, name ∈ StrMap.keys rep.m_control_infos ↔
      ∃ a ∈ problem.phase0.model.scalarActuators, a.path = name) ∧
    (StrMap.keys rep.m_control_infos).Nodup ∧
    ((problem.phase0.model.scalarActuators.map ScalarActuator.path).Nodup →
      rep.m_control_infos.length = problem.phase0.model.scalarActuators.length) ∧
    (∀ l₁ info l₂, problem.phase0.control_infos = l₁ ++ info :: l₂ →
      (∀ i ∈ l₂, i.name ≠ info.name) →
      StrMap.find rep.m_control_infos info.name = some info) ∧
    (∀ l₁ a l₂, problem.phase0.model.scalarActuators = l₁ ++ a :: l₂ →
      (∀ a' ∈ l₁, a'.path ≠ a.path) →
      (∀ info ∈ problem.phase0.control_infos, info.name ≠ a.path) →
      StrMap.find rep.m_control_infos a.path =
        some ⟨a.path, MucoBounds.range a.minControl a.maxControl, ⟨none, none⟩,
          ⟨none, none⟩⟩) := by
  obtain ⟨hvalid, hrep⟩ := (create_eq_ok_iff infoName problem rep).1 h
  subst hrep
  rw [populate_control_infos]
  have hctl := ((validateInfos_ok_iff _).1 hvalid).2
  have hkeys : ∀ name, name ∈ StrMap.keys (addActuatorInfos
      (recordInfos [] problem.phase0.control_infos) problem.phase0.model.scalarActuators) ↔
      ∃ a ∈ problem.phase0.model.scalarActuators, a.path = name := by
    intro name
    rw [mem_keys_addActuatorInfos, mem_keys_recordInfos]
    constructor
    · rintro ((hm | ⟨info, hi, hn⟩) | ⟨a, ha, hk⟩)
      · simp [StrMap.keys] at hm
      · have := hctl info hi
        rw [hn] at this
        simpa using this
      · exact ⟨a, ha, hk.symm⟩
    · rintro ⟨a, ha, hk⟩
      exact Or.inr ⟨a, ha, hk.symm⟩
  have hnd : (StrMap.keys (addActuatorInfos
      (recordInfos [] problem.phase0.control_infos)
      problem.phase0.model.scalarActuators)).Nodup := by
    apply nodup_keys_addActuatorInfos
    apply nodup_keys_recordInfos
    exact List.nodup_nil
  refine ⟨hkeys, hnd, ?_, ?_, ?_⟩
  · intro hpaths
    rw [length_eq_length_keys]
    have hperm := (List.perm_ext_iff_of_nodup hnd hpaths).2 (by
      intro name
      rw [hkeys name]
      simp)
    rw [hperm.length_eq]
    simp
  · intro l₁ info l₂ hsplit hlast
    apply find_addActuatorInfos_of_find
    rw [hsplit]
    exact find_recordInfos_last _ _ _ _ hlast
  · intro l₁ a l₂ hsplit hfirst hundeclared
    rw [hsplit]
    apply find_addActuatorInfos_new _ _ _ _ hfirst
    rw [mem_keys_recordInfos]
    rintro (hm | ⟨info, hi, hn⟩)
    · simp [StrMap.keys] at hm
    · exact hundeclared info hi hn

/-- C4 at the sample problem: two actuators, two entries; the declared `tau1` keeps the
declared info and the undeclared `tau0` gets the control range of the actuator. -/
theorem C4_control_infos_witness :
    ∃ rep, MucoProblemRep.create sampleInfoName sampleProblem = .ok rep ∧
      rep.m_control_infos.length = 2 ∧
      StrMap.find rep.m_control_infos "tau1" =
        some ⟨"tau1", MucoBounds.range (-7) 7, ⟨none, none⟩, ⟨none, none⟩⟩ ∧
      StrMap.find rep.m_control_infos "tau0" =
        some ⟨"tau0", MucoBounds.range (-1) 1, ⟨none, none⟩, ⟨none, none⟩⟩ :=
  ⟨populate sampleInfoName (MucoProblemRep.fresh sampleProblem), rfl,
    (C4_control_infos sampleInfoName sampleProblem _ rfl).2.2.1 (by decide),
    (C4_control_infos sampleInfoName sampleProblem _ rfl).2.2.2.1 []
      ⟨"tau1", MucoBounds.range (-7) 7, ⟨none, none⟩, ⟨none, none⟩⟩ [] rfl (by simp),
    (C4_control_infos sampleInfoName sampleProblem _ rfl).2.2.2.2 []
      ⟨"tau0", -1, 1⟩ [⟨"tau1", -2, 2⟩] rfl (by simp) (by decide)⟩

/-! ## Decimal rendering of constraint and equation indices -/

theorem digitChar_spec : ∀ d, d < 10 →
    (Nat.digitChar d).isDigit = true ∧ (Nat.digitChar d).toNat - '0'.toNat = d := by
  decide

theorem decimal_foldl_snoc (ds : List Char) (d : Char) :
    (ds ++ [d]).foldl (fun acc ch => 10 * acc + (ch.toNat - '0'.toNat)) 0 =
      10 * ds.foldl (fun acc ch => 10 * acc + (ch.toNat - '0'.toNat)) 0 +
        (d.toNat - '0'.toNat) := by
  simp [List.foldl_append]

theorem toDigitsCore_spec (fuel : Nat) : ∀ (n : Nat) (ds : List Char), n < fuel →
    ∃ ds', Nat.toDigitsCore 10 fuel n ds = ds' ++ ds ∧
      (∀ c ∈ ds', c.isDigit = true) ∧
      ds'.foldl (fun acc ch => 10 * acc + (ch.toNat - '0'.toNat)) 0 = n := by
  induction fuel with
  | zero =>
    intro n ds h
    omega
  | succ fuel ih =>
    intro n ds h
    have hd := digitChar_spec (n % 10) (Nat.mod_lt _ (by decide))
    by_cases h0 : n / 10 = 0
    · refine ⟨[Nat.digitChar (n % 10)], ?_, ?_, ?_⟩
      · simp [Nat.toDigitsCore, h0]
      · intro c hc
        simp only [List.mem_singleton] at hc
        rw [hc]
        exact hd.1
      · simp only [List.foldl_cons, List.foldl_nil, Nat.mul_zero, Nat.zero_add]
        rw [hd.2]
        omega
    · obtain ⟨ds', heq, hdig, hval⟩ := ih (n / 10) (Nat.digitChar (n % 10) :: ds) (by omega)
      refine ⟨ds' ++ [Nat.digitChar (n % 10)], ?_, ?_, ?_⟩
      · simp [Nat.toDigitsCore, h0, heq]
      · intro c hc
        rcases List.mem_append.1 hc with hc | hc
        · exact hdig c hc
        · simp only [List.mem_singleton] at hc
          rw [hc]
          exact hd.1
      · rw [decimal_foldl_snoc, hval, hd.2]
        omega

theorem to_string_data (n : Nat) : (to_string n).data = Nat.toDigitsCore 10 (n + 1) n [] := rfl

theorem to_string_digits (n : Nat) : ∀ c ∈ (to_string n).data, c.isDigit = true := by
  obtain ⟨ds', heq, hdig, _⟩ := toDigitsCore_spec (n + 1) n [] (Nat.lt_succ_self n)
  rw [to_string_data, heq, List.append_nil]
  exact hdig

theorem decimalValue_to_string (n : Nat) : decimalValue (to_string n) = n := by
  obtain ⟨ds', heq, _, hval⟩ := toDigitsCore_spec (n + 1) n [] (Nat.lt_succ_self n)
  unfold decimalValue
  rw [to_string_data, heq, List.append_nil]
  exact hval

theorem to_string_injective (m n : Nat) (h : (to_string m).data = (to_string n).data) :
    m = n := by
  have hm := decimalValue_to_string m
  have hn := decimalValue_to_string n
  unfold decimalValue at hm hn
  rw [h] at hm
  exact hm.symm.trans hn

theorem underscore_not_mem_to_string (n : Nat) : '_' ∉ (to_string n).data := by
  intro h
  exact absurd (to_string_digits n '_' h) (by decide)

theorem split_at_first {α : Type} (a : α) : ∀ (l₁ l₂ r₁ r₂ : List α),
    a ∉ l₁ → a ∉ l₂ → l₁ ++ a :: r₁ = l₂ ++ a :: r₂ → l₁ = l₂ ∧ r₁ = r₂ := by
  intro l₁
  induction l₁ with
  | nil =>
    intro l₂ r₁ r₂ _ h2 heq
    cases l₂ with
    | nil => simpa using heq
    | cons x xs =>
      simp only [List.nil_append, List.cons_append, List.cons.injEq] at heq
      exact absurd (by rw [← heq.1]; exact List.mem_cons_self _ _) h2
  | cons y ys ih =>
    intro l₂ r₁ r₂ h1 h2 heq
    cases l₂ with
    | nil =>
      simp only [List.nil_append, List.cons_append, List.cons.injEq] at heq
      exact absurd (by rw [heq.1]; exact List.mem_cons_self _ _) h1
    | cons x xs =>
      simp only [List.cons_append, List.cons.injEq] at heq
      have hy : a ∉ ys := fun hm => h1 (List.mem_cons_of_mem _ hm)
      have hx : a ∉ xs := fun hm => h2 (List.mem_cons_of_mem _ hm)
      obtain ⟨hl, hr⟩ := ih xs r₁ r₂ hy hx heq.2
      exact ⟨by rw [heq.1, hl], hr⟩

theorem tag_data (tag : String) (h : tag ∈ ["_p", "_v", "_a"]) :
    ∃ ch, tag.data = ['_', ch] := by
  simp only [List.mem_cons, List.mem_singleton, List.not_mem_nil, or_false] at h
  rcases h with h | h | h
  · exact ⟨'p', by rw [h]⟩
  · exact ⟨'v', by rw [h]⟩
  · exact ⟨'a', by rw [h]⟩

theorem multiplier_name_injective (K K' i i' : Nat) (tag tag' : String)
    (ht : tag ∈ ["_p", "_v", "_a"]) (ht' : tag' ∈ ["_p", "_v", "_a"])
    (h : "lambda_cid" ++ to_string K ++ tag ++ to_string i =
      "lambda_cid" ++ to_string K' ++ tag' ++ to_string i') :
    K = K' ∧ tag = tag' ∧ i = i' := by
  obtain ⟨ch, hch⟩ := tag_data tag ht
  obtain ⟨ch', hch'⟩ := tag_data tag' ht'
  have hd := congrArg String.data h
  simp only [String.data_append, hch, hch', List.append_assoc] at hd
  have hd' := List.append_cancel_left hd
  obtain ⟨hK, hrest⟩ := split_at_first '_' _ _ _ _ (underscore_not_mem_to_string K)
    (underscore_not_mem_to_string K') (by simpa using hd')
  simp only [List.cons.injEq] at hrest
  refine ⟨to_string_injective K K' hK, ?_, to_string_injective i i' hrest.2⟩
  apply String.ext
  rw [hch, hch', hrest.1]

/-! ## The multiplier infos of one constraint -/

theorem pushMultipliers_eq (tag : String) (cid : Nat) (b : MucoBounds R)
    (ib : MucoInitialBounds R) (fb : MucoFinalBounds R) (count : Nat)
    (infos : List (MucoVariableInfo R)) :
    pushMultipliers tag cid b ib fb count infos =
      infos ++ (List.range count).map
        (fun i => ⟨"lambda_cid" ++ to_string cid ++ tag ++ to_string i, b, ib, fb⟩) := by
  unfold pushMultipliers
  exact foldl_push_eq _ _ _

theorem makeMultInfos_eq (cid mp mv ma : Nat) (b : MucoBounds R)
    (ib : MucoInitialBounds R) (fb : MucoFinalBounds R) :
    makeMultInfos cid mp mv ma b ib fb =
      (List.range mp).map
          (fun i => ⟨"lambda_cid" ++ to_string cid ++ "_p" ++ to_string i, b, ib, fb⟩) ++
        (List.range mv).map
          (fun i => ⟨"lambda_cid" ++ to_string cid ++ "_v" ++ to_string i, b, ib, fb⟩) ++
        (List.range ma).map
          (fun i => ⟨"lambda_cid" ++ to_string cid ++ "_a" ++ to_string i, b, ib, fb⟩) := by
  unfold makeMultInfos
  simp only [pushMultipliers_eq, List.nil_append]

theorem makeMultInfos_length (cid mp mv ma : Nat) (b : MucoBounds R)
    (ib : MucoInitialBounds R) (fb : MucoFinalBounds R) :
    (makeMultInfos cid mp mv ma b ib fb).length = mp + mv + ma := by
  rw [makeMultInfos_eq]
  simp [Nat.add_assoc]

theorem makeMultInfos_names (cid mp mv ma : Nat) (b : MucoBounds R)
    (ib : MucoInitialBounds R) (fb : MucoFinalBounds R) :
    (makeMultInfos cid mp mv ma b ib fb).map MucoVariableInfo.name =
      (List.range mp).map (fun i => "lambda_cid" ++ to_string cid ++ "_p" ++ to_string i) ++
        (List.range mv).map (fun i => "lambda_cid" ++ to_string cid ++ "_v" ++ to_string i) ++
        (List.range ma).map (fun i => "lambda_cid" ++ to_string cid ++ "_a" ++ to_string i) := by
  rw [makeMultInfos_eq]
  simp [Function.comp_def]

theorem mem_makeMultInfos_names (cid mp mv ma : Nat) (b : MucoBounds R)
    (ib : MucoInitialBounds R) (fb : MucoFinalBounds R) (name : String)
    (h : name ∈ (makeMultInfos cid mp mv ma b ib fb).map MucoVariableInfo.name) :
    ∃ tag ∈ ["_p", "_v", "_a"], ∃ i,
      name = "lambda_cid" ++ to_string cid ++ tag ++ to_string i := by
  rw [makeMultInfos_names] at h
  simp only [List.mem_append, List.mem_map, List.mem_range] at h
  rcases h with (⟨i, _, hi⟩ | ⟨i, _, hi⟩) | ⟨i, _, hi⟩
  · exact ⟨"_p", by simp, i, hi.symm⟩
  · exact ⟨"_v", by simp, i, hi.symm⟩
  · exact ⟨"_a", by simp, i, hi.symm⟩

theorem nodup_tagged_names (cid count : Nat) (tag : String) (ht : tag ∈ ["_p", "_v", "_a"]) :
    ((List.range count).map
      (fun i => "lambda_cid" ++ to_string cid ++ tag ++ to_string i)).Nodup := by
  apply List.Nodup.map_on _ (List.nodup_range count)
  intro x _ y _ hxy
  exact (multiplier_name_injective cid cid x y tag tag ht ht hxy).2.2

theorem disjoint_tagged_names (cid m n : Nat) (tag tag' : String)
    (ht : tag ∈ ["_p", "_v", "_a"]) (ht' : tag' ∈ ["_p", "_v", "_a"]) (hne : tag ≠ tag') :
    ∀ name, name ∈ (List.range m).map
        (fun i => "lambda_cid" ++ to_string cid ++ tag ++ to_string i) →
      name ∈ (List.range n).map
        (fun i => "lambda_cid" ++ to_string cid ++ tag' ++ to_string i) → False := by
  intro name h1 h2
  simp only [List.mem_map, List.mem_range] at h1 h2
  obtain ⟨i, _, hi⟩ := h1
  obtain ⟨j, _, hj⟩ := h2
  exact hne (multiplier_name_injective cid cid i j tag tag' ht ht' (hi.trans hj.symm)).2.1

theorem nodup_makeMultInfos_names (cid mp mv ma : Nat) (b : MucoBounds R)
    (ib : MucoInitialBounds R) (fb : MucoFinalBounds R) :
    ((makeMultInfos cid mp mv ma b ib fb).map MucoVariableInfo.name).Nodup := by
  rw [makeMultInfos_names]
  have hp := nodup_tagged_names cid mp "_p" (by simp)
  have hv := nodup_tagged_names cid mv "_v" (by simp)
  have ha := nodup_tagged_names cid ma "_a" (by simp)
  apply List.Nodup.append (List.Nodup.append hp hv ?_) ha ?_
  · intro name h1 h2
    exact disjoint_tagged_names cid mp mv "_p" "_v" (by simp) (by simp) (by decide) name h1 h2
  · intro name h1 h2
    rcases List.mem_append.1 h1 with h1 | h1
    · exact disjoint_tagged_names cid mp ma "_p" "_a" (by simp) (by simp) (by decide) name h1 h2
    · exact disjoint_tagged_names cid mv ma "_v" "_a" (by simp) (by simp) (by decide) name h1 h2

theorem disjoint_makeMultInfos_names (cid cid' mp mv ma mp' mv' ma' : Nat) (b : MucoBounds R)
    (ib : MucoInitialBounds R) (fb : MucoFinalBounds R) (hne : cid ≠ cid') (name : String)
    (h : name ∈ (makeMultInfos cid mp mv ma b ib fb).map MucoVariableInfo.name)
    (h' : name ∈ (makeMultInfos cid' mp' mv' ma' b ib fb).map MucoVariableInfo.name) :
    False := by
  obtain ⟨tag, ht, i, hi⟩ := mem_makeMultInfos_names _ _ _ _ _ _ _ _ h
  obtain ⟨tag', ht', i', hi'⟩ := mem_makeMultInfos_names _ _ _ _ _ _ _ _ h'
  exact hne (multiplier_name_injective cid cid' i i' tag tag' ht ht' (hi.symm.trans hi')).1

/-! ## The loop over the multibody constraints -/

theorem mem_enabledFrom (cs : List Constraint) (cid K : Nat) (c : Constraint) :
    (K, c) ∈ enabledFrom cs cid ↔
      cid ≤ K ∧ cs[K - cid]? = some c ∧ c.isDisabled = false := by
  induction cs generalizing cid with
  | nil => simp [enabledFrom]
  | cons c0 rest ih =>
    have hrest : (K, c) ∈ enabledFrom rest (cid + 1) ↔
        cid < K ∧ (c0 :: rest)[K - cid]? = some c ∧ c.isDisabled = false := by
      rw [ih (cid + 1)]
      constructor
      · rintro ⟨hle, hget, hen⟩
        refine ⟨hle, ?_, hen⟩
        have hk : K - cid = (K - (cid + 1)) + 1 := by omega
        rw [hk, List.getElem?_cons_succ]
        exact hget
      · rintro ⟨hlt, hget, hen⟩
        refine ⟨hlt, ?_, hen⟩
        have hk : K - cid = (K - (cid + 1)) + 1 := by omega
        rw [hk, List.getElem?_cons_succ] at hget
        exact hget
    by_cases hd : c0.isDisabled = true
    · simp only [enabledFrom, hd, if_true]
      rw [hrest]
      constructor
      · rintro ⟨hlt, hget, hen⟩
        exact ⟨Nat.le_of_lt hlt, hget, hen⟩
      · rintro ⟨hle, hget, hen⟩
        refine ⟨?_, hget, hen⟩
        rcases Nat.eq_or_lt_of_le hle with heq | hlt
        · exfalso
          rw [← heq, Nat.sub_self, List.getElem?_cons_zero] at hget
          simp only [Option.some.injEq] at hget
          rw [hget, hen] at hd
          exact absurd hd (by decide)
        · exact hlt
    · have hd' : c0.isDisabled = false := by simpa using hd
      simp only [enabledFrom, hd', Bool.false_eq_true, if_false, List.mem_cons, Prod.mk.injEq]
      rw [hrest]
      constructor
      · rintro (⟨hK, hc⟩ | ⟨hlt, hget, hen⟩)
        · subst hK
          subst hc
          exact ⟨Nat.le_refl _, by simp, hd'⟩
        · exact ⟨Nat.le_of_lt hlt, hget, hen⟩
      · rintro ⟨hle, hget, hen⟩
        rcases Nat.eq_or_lt_of_le hle with heq | hlt
        · left
          rw [← heq, Nat.sub_self, List.getElem?_cons_zero] at hget
          simp only [Option.some.injEq] at hget
          exact ⟨heq.symm, hget.symm⟩
        · exact Or.inr ⟨hlt, hget, hen⟩

theorem mem_enabledFrom_zero (cs : List Constraint) (p : Nat × Constraint) :
    p ∈ enabledFrom cs 0 ↔ cs[p.1]? = some p.2 ∧ p.2.isDisabled = false := by
  obtain ⟨K, c⟩ := p
  rw [mem_enabledFrom]
  simp

theorem pairwise_enabledFrom (cs : List Constraint) (cid : Nat) :
    (enabledFrom cs cid).Pairwise (fun p q => p.1 < q.1) := by
  induction cs generalizing cid with
  | nil => simp [enabledFrom]
  | cons c0 rest ih =>
    by_cases hd : c0.isDisabled = true
    · simp only [enabledFrom, hd, if_true]
      exact ih (cid + 1)
    · simp only [enabledFrom, hd, if_false]
      apply List.Pairwise.cons _ (ih (cid + 1))
      rintro ⟨K, c⟩ hmem
      have := (mem_enabledFrom rest (cid + 1) K c).1 hmem
      exact this.1

theorem enabledFrom_map_snd (cs : List Constraint) (cid : Nat) :
    (enabledFrom cs cid).map Prod.snd = cs.filter (fun c => !c.isDisabled) := by
  induction cs generalizing cid with
  | nil => simp [enabledFrom]
  | cons c0 rest ih =>
    by_cases hd : c0.isDisabled = true
    · simp [enabledFrom, hd, ih]
    · simp [enabledFrom, hd, ih]

theorem constraintLoop_eq (infoName : Nat → Nat → Nat → Nat → String) (mcBounds : MucoBounds R)
    (b : MucoBounds R) (ib : MucoInitialBounds R) (fb : MucoFinalBounds R)
    (cs : List Constraint) (cid : Nat) (st : ConstraintState R) :
    constraintLoop infoName mcBounds b ib fb cs cid st =
      { m_num_multibody_constraint_eqs := st.m_num_multibody_constraint_eqs +
          ((enabledFrom cs cid).map (fun p => p.2.mp + p.2.mv + p.2.ma)).sum,
        m_multibody_constraints := st.m_multibody_constraints ++
          (enabledFrom cs cid).map
            (fun p => makeConstraint infoName mcBounds p.1 p.2.mp p.2.mv p.2.ma),
        m_multiplier_infos_map :=
          ((enabledFrom cs cid).map
            (fun p => (infoName p.1 p.2.mp p.2.mv p.2.ma,
              makeMultInfos p.1 p.2.mp p.2.mv p.2.ma b ib fb))).foldl
            (fun m e => StrMap.insert m e.1 e.2) st.m_multiplier_infos_map } := by
  induction cs generalizing cid st with
  | nil => simp [constraintLoop, enabledFrom]
  | cons c0 rest ih =>
    by_cases hd : c0.isDisabled = true
    · simp only [constraintLoop, enabledFrom, hd, Bool.not_true, Bool.false_eq_true, if_false,
        if_true]
      exact ih (cid + 1) st
    · have hd' : c0.isDisabled = false := by simpa using hd
      simp only [constraintLoop, enabledFrom, hd', Bool.not_false, if_true,
        Bool.false_eq_true, if_false]
      rw [ih]
      simp [makeConstraint, MucoMultibodyConstraint.create,
        MucoMultibodyConstraint.getConstraintInfo, MucoMultibodyConstraint.setConstraintInfo,
        MucoConstraintInfo.setBounds, MucoConstraintInfo.getNumEquations, Nat.add_assoc]

theorem insertAll_eq_append {V : Type} (l : List (String × V)) (m : StrMap V) :
    ∃ l', l'.Sublist l ∧ l.foldl (fun m e => StrMap.insert m e.1 e.2) m = m ++ l' := by
  induction l generalizing m with
  | nil => exact ⟨[], List.Sublist.refl _, by simp⟩
  | cons e rest ih =>
    obtain ⟨l', hsub, heq⟩ := ih (StrMap.insert m e.1 e.2)
    simp only [List.foldl_cons]
    rw [heq]
    unfold StrMap.insert
    cases StrMap.find m e.1 with
    | some w => exact ⟨l', List.Sublist.cons _ hsub, rfl⟩
    | none => exact ⟨e :: l', List.Sublist.cons₂ _ hsub, by simp⟩

theorem mem_keys_insertAll {V : Type} (l : List (String × V)) (m : StrMap V) (k : String) :
    k ∈ StrMap.keys (l.foldl (fun m e => StrMap.insert m e.1 e.2) m) ↔
      k ∈ StrMap.keys m ∨ ∃ e ∈ l, e.1 = k := by
  induction l generalizing m with
  | nil => simp
  | cons e rest ih =>
    simp only [List.foldl_cons, ih, StrMap.mem_keys_insert, List.mem_cons, exists_eq_or_imp]
    constructor
    · rintro ((h | h) | h)
      · exact Or.inr (Or.inl h.symm)
      · exact Or.inl h
      · exact Or.inr (Or.inr h)
    · rintro (h | h | h)
      · exact Or.inl (Or.inr h)
      · exact Or.inl (Or.inl h.symm)
      · exact Or.inr h

theorem find_insertAll_of_find {V : Type} (l : List (String × V)) (m : StrMap V) (k : String)
    (v : V) (h : StrMap.find m k = some v) :
    StrMap.find (l.foldl (fun m e => StrMap.insert m e.1 e.2) m) k = some v := by
  induction l generalizing m with
  | nil => exact h
  | cons e rest ih => exact ih _ (StrMap.find_insert_of_find m e.1 k e.2 v h)

theorem find_insertAll_first {V : Type} (l₁ l₂ : List (String × V)) (m : StrMap V)
    (k : String) (v : V) (hm : k ∉ StrMap.keys m) (hfirst : ∀ e ∈ l₁, e.1 ≠ k) :
    StrMap.find ((l₁ ++ (k, v) :: l₂).foldl (fun m e => StrMap.insert m e.1 e.2) m) k =
      some v := by
  rw [List.foldl_append, List.foldl_cons]
  apply find_insertAll_of_find
  apply StrMap.find_insert_self_of_not_mem
  rw [mem_keys_insertAll]
  rintro (h | ⟨e, he, hk⟩)
  · exact hm h
  · exact hfirst e he hk

theorem populate_multibody (infoName : Nat → Nat → Nat → Nat → String)
    (problem : MucoProblem R) :
    (populate infoName (MucoProblemRep.fresh problem)).m_num_multibody_constraint_eqs =
        ((enabledFrom problem.phase0.model.constraints 0).map
          (fun p => p.2.mp + p.2.mv + p.2.ma)).sum ∧
    (populate infoName (MucoProblemRep.fresh problem)).m_multibody_constraints =
        (enabledFrom problem.phase0.model.constraints 0).map
          (fun p => makeConstraint infoName problem.phase0.multibody_constraint_bounds
            p.1 p.2.mp p.2.mv p.2.ma) ∧
    (populate infoName (MucoProblemRep.fresh problem)).m_multiplier_infos_map =
        ((enabledFrom problem.phase0.model.constraints 0).map
          (fun p => (infoName p.1 p.2.mp p.2.mv p.2.ma,
            multInfosOf problem.phase0 p.1 p.2))).foldl
          (fun m e => StrMap.insert m e.1 e.2) [] := by
  simp only [populate, MucoProblemRep.fresh, constraintLoop_eq, multInfosOf, Nat.zero_add,
    List.nil_append, and_self]

theorem registry_entries (infoName : Nat → Nat → Nat → Nat → String)
    (problem : MucoProblem R) (e : String × List (MucoVariableInfo R))
    (he : e ∈ (populate infoName (MucoProblemRep.fresh problem)).m_multiplier_infos_map) :
    ∃ K c, problem.phase0.model.constraints[K]? = some c ∧ c.isDisabled = false ∧
      e = (infoName K c.mp c.mv c.ma, multInfosOf problem.phase0 K c) := by
  rw [(populate_multibody infoName problem).2.2] at he
  obtain ⟨l', hsub, heq⟩ := insertAll_eq_append
    ((enabledFrom problem.phase0.model.constraints 0).map
      (fun p => (infoName p.1 p.2.mp p.2.mv p.2.ma, multInfosOf problem.phase0 p.1 p.2))) []
  rw [heq, List.nil_append] at he
  have hmem := hsub.subset he
  obtain ⟨p, hp, hpe⟩ := List.mem_map.1 hmem
  obtain ⟨hget, hen⟩ := (mem_enabledFrom_zero _ p).1 hp
  exact ⟨p.1, p.2, hget, hen, hpe.symm⟩

theorem registry_keys (infoName : Nat → Nat → Nat → Nat → String)
    (problem : MucoProblem R) (name : String) :
    name ∈ StrMap.keys (populate infoName (MucoProblemRep.fresh problem)).m_multiplier_infos_map ↔
      ∃ K c, problem.phase0.model.constraints[K]? = some c ∧ c.isDisabled = false ∧
        name = infoName K c.mp c.mv c.ma := by
  rw [(populate_multibody infoName problem).2.2, mem_keys_insertAll]
  constructor
  · rintro (h | ⟨e, he, hk⟩)
    · simp [StrMap.keys] at h
    · obtain ⟨p, hp, hpe⟩ := List.mem_map.1 he
      obtain ⟨hget, hen⟩ := (mem_enabledFrom_zero _ p).1 hp
      refine ⟨p.1, p.2, hget, hen, ?_⟩
      rw [← hk, ← hpe]
  · rintro ⟨K, c, hget, hen, hname⟩
    right
    refine ⟨(infoName K c.mp c.mv c.ma, multInfosOf problem.phase0 K c), ?_, hname.symm⟩
    exact List.mem_map.2 ⟨(K, c), (mem_enabledFrom_zero _ (K, c)).2 ⟨hget, hen⟩, rfl⟩

theorem registry_find (infoName : Nat → Nat → Nat → Nat → String)
    (problem : MucoProblem R) (K : Nat) (c : Constraint)
    (hget : problem.phase0.model.constraints[K]? = some c) (hen : c.isDisabled = false)
    (hfirst : ∀ K' c', K' < K → problem.phase0.model.constraints[K']? = some c' →
      c'.isDisabled = false → infoName K' c'.mp c'.mv c'.ma ≠ infoName K c.mp c.mv c.ma) :
    StrMap.find (populate infoName (MucoProblemRep.fresh problem)).m_multiplier_infos_map
      (infoName K c.mp c.mv c.ma) = some (multInfosOf problem.phase0 K c) := by
  rw [(populate_multibody infoName problem).2.2]
  have hmem := (mem_enabledFrom_zero problem.phase0.model.constraints (K, c)).2 ⟨hget, hen⟩
  obtain ⟨s, t, hst⟩ := List.append_of_mem hmem
  have hpw := pairwise_enabledFrom problem.phase0.model.constraints 0
  rw [hst] at hpw
  have hlt : ∀ p ∈ s, p.1 < K := by
    intro p hp
    exact (List.pairwise_append.1 hpw).2.2 p hp (K, c) (List.mem_cons_self _ _)
  have hsub : ∀ p ∈ s, p ∈ enabledFrom problem.phase0.model.constraints 0 := by
    intro p hp
    rw [hst]
    exact List.mem_append_left _ hp
  rw [hst, List.map_append, List.map_cons]
  apply find_insertAll_first
  · simp [StrMap.keys]
  · intro e he
    obtain ⟨p, hp, hpe⟩ := List.mem_map.1 he
    obtain ⟨hget', hen'⟩ := (mem_enabledFrom_zero _ p).1 (hsub p hp)
    rw [← hpe]
    exact hfirst p.1 p.2 (hlt p hp) hget' hen'

/-- C5: for every enabled constraint with counts `(mp, mv, ma)`, `initialize` builds
exactly `mp + mv + ma` multiplier infos, registered under the constraint-info name of the
constraint unless an enabled constraint of smaller index uses the same name; every
registered list is the list of an enabled constraint and has `mp + mv + ma` infos. -/
theorem C5_multiplier_count (infoName : Nat → Nat → Nat → Nat → String)
    (problem : MucoProblem R) (rep : MucoProblemRep R)
    (h : MucoProblemRep.create infoName problem = .ok rep) :
    (∀ K c, problem.phase0.model.constraints[K]? = some c → c.isDisabled = false →
      (multInfosOf problem.phase0 K c).length = c.mp + c.mv + c.ma ∧
      ((∀ K' c', K' < K → problem.phase0.model.constraints[K']? = some c' →
          c'.isDisabled = false →
          infoName K' c'.mp c'.mv c'.ma ≠ infoName K c.mp c.mv c.ma) →
        ∃ infos, StrMap.find rep.m_multiplier_infos_map (infoName K c.mp c.mv c.ma) =
            some infos ∧ infos = multInfosOf problem.phase0 K c ∧
          infos.length = c.mp + c.mv + c.ma)) ∧
    (∀ e ∈ rep.m_multiplier_infos_map,
      ∃ K c, problem.phase0.model.constraints[K]? = some c ∧ c.isDisabled = false ∧
        e.1 = infoName K c.mp c.mv c.ma ∧ e.2 = multInfosOf problem.phase0 K c ∧
        e.2.length = c.mp + c.mv + c.ma) := by
  obtain ⟨_, hrep⟩ := (create_eq_ok_iff infoName problem rep).1 h
  subst hrep
  have hlen : ∀ K c, (multInfosOf problem.phase0 K c).length = c.mp + c.mv + c.ma :=
    fun K c => makeMultInfos_length _ _ _ _ _ _ _
  constructor
  · intro K c hget hen
    refine ⟨hlen K c, fun hfirst => ⟨_, registry_find infoName problem K c hget hen hfirst,
      rfl, hlen K c⟩⟩
  · intro e he
    obtain ⟨K, c, hget, hen, heq⟩ := registry_entries infoName problem e he
    refine ⟨K, c, hget, hen, ?_, ?_, ?_⟩
    · rw [heq]
    · rw [heq]
    · rw [heq]
      exact hlen K c

/-- C5 at the sample problem: the holonomic constraint 0 with counts `(1, 0, 0)` gets
exactly one multiplier info. -/
theorem C5_multiplier_count_witness :
    ∃ rep, MucoProblemRep.create sampleInfoName sampleProblem = .ok rep ∧
      (multInfosOf sampleProblem.phase0 0 ⟨false, 1, 0, 0⟩).length = 1 + 0 + 0 ∧
      ∃ infos, StrMap.find rep.m_multiplier_infos_map "constraint0" = some infos ∧
        infos = multInfosOf sampleProblem.phase0 0 ⟨false, 1, 0, 0⟩ ∧
        infos.length = 1 + 0 + 0 :=
  ⟨populate sampleInfoName (MucoProblemRep.fresh sampleProblem), rfl,
    ((C5_multiplier_count sampleInfoName sampleProblem _ rfl).1 0 ⟨false, 1, 0, 0⟩ rfl rfl).1,
    ((C5_multiplier_count sampleInfoName sampleProblem _ rfl).1 0 ⟨false, 1, 0, 0⟩ rfl rfl).2
      (fun K' _ hlt => absurd hlt (Nat.not_lt_zero K'))⟩

/-- C6: after construction, `m_num_multibody_constraint_eqs` is the sum of
`mp + mv + ma` over the enabled constraints of the model; an enabled holonomic constraint
with counts `(1, 0, 0)` accounts for exactly 1 of the total. -/
theorem C6_multibody_equation_total (infoName : Nat → Nat → Nat → Nat → String)
    (problem : MucoProblem R) (rep : MucoProblemRep R)
    (h : MucoProblemRep.create infoName problem = .ok rep) :
    rep.m_num_multibody_constraint_eqs =
      ((problem.phase0.model.constraints.filter (fun c => !c.isDisabled)).map
        (fun c => c.mp + c.mv + c.ma)).sum ∧
    (∀ l₁ l₂, problem.phase0.model.constraints = l₁ ++ ⟨false, 1, 0, 0⟩ :: l₂ →
      rep.m_num_multibody_constraint_eqs =
        (((l₁ ++ l₂).filter (fun c => !c.isDisabled)).map
          (fun c => c.mp + c.mv + c.ma)).sum + 1) := by
  obtain ⟨_, hrep⟩ := (create_eq_ok_iff infoName problem rep).1 h
  subst hrep
  have hsum : (populate infoName (MucoProblemRep.fresh problem)).m_num_multibody_constraint_eqs =
      ((problem.phase0.model.constraints.filter (fun c => !c.isDisabled)).map
        (fun c => c.mp + c.mv + c.ma)).sum := by
    rw [(populate_multibody infoName problem).1, ← enabledFrom_map_snd _ 0, List.map_map]
    rfl
  refine ⟨hsum, ?_⟩
  intro l₁ l₂ hsplit
  rw [hsum, hsplit]
  simp only [List.filter_append, List.map_append, List.sum_append]
  simp [List.filter_cons]
  omega

/-- C6 at the sample problem: the enabled constraints have counts `(1, 0, 0)` and
`(0, 1, 2)`, the disabled one `(2, 1, 0)`; the total is 4. -/
theorem C6_multibody_equation_total_witness :
    ∃ rep, MucoProblemRep.create sampleInfoName sampleProblem = .ok rep ∧
      rep.m_num_multibody_constraint_eqs = 4 :=
  ⟨populate sampleInfoName (MucoProblemRep.fresh sampleProblem), rfl,
    (C6_multibody_equation_total sampleInfoName sampleProblem _ rfl).1.trans (by decide)⟩

theorem multInfosOf_names (ph0 : MucoPhase R) (K : Nat) (c : Constraint) :
    (multInfosOf ph0 K c).map MucoVariableInfo.name = multiplierNames K c.mp c.mv c.ma :=
  makeMultInfos_names _ _ _ _ _ _ _

/-- C7: for every enabled constraint of index `K` with counts `(mp, mv, ma)`, the
multiplier infos built by `initialize` are named, in this order, `lambda_cid<K>_p0` to
`lambda_cid<K>_p(mp-1)`, then `lambda_cid<K>_v0` to `lambda_cid<K>_v(mv-1)`, then
`lambda_cid<K>_a0` to `lambda_cid<K>_a(ma-1)`; every registered list is such a list; and
`K` and the indices are rendered in decimal digits denoting them. -/
theorem C7_multiplier_names (infoName : Nat → Nat → Nat → Nat → String)
    (problem : MucoProblem R) (rep : MucoProblemRep R)
    (h : MucoProblemRep.create infoName problem = .ok rep) :
    (∀ K c, problem.phase0.model.constraints[K]? = some c → c.isDisabled = false →
      (multInfosOf problem.phase0 K c).map MucoVariableInfo.name =
          (List.range c.mp).map
              (fun i => "lambda_cid" ++ to_string K ++ "_p" ++ to_string i) ++
            (List.range c.mv).map
              (fun i => "lambda_cid" ++ to_string K ++ "_v" ++ to_string i) ++
            (List.range c.ma).map
              (fun i => "lambda_cid" ++ to_string K ++ "_a" ++ to_string i) ∧
      ((∀ K' c', K' < K → problem.phase0.model.constraints[K']? = some c' →
          c'.isDisabled = false →
          infoName K' c'.mp c'.mv c'.ma ≠ infoName K c.mp c.mv c.ma) →
        ∃ infos, StrMap.find rep.m_multiplier_infos_map (infoName K c.mp c.mv c.ma) =
            some infos ∧
          infos.map MucoVariableInfo.name = multiplierNames K c.mp c.mv c.ma)) ∧
    (∀ e ∈ rep.m_multiplier_infos_map,
      ∃ K c, problem.phase0.model.constraints[K]? = some c ∧ c.isDisabled = false ∧
        e.1 = infoName K c.mp c.mv c.ma ∧
        e.2.map MucoVariableInfo.name = multiplierNames K c.mp c.mv c.ma) ∧
    (∀ n, decimalValue (to_string n) = n ∧ ∀ ch ∈ (to_string n).data, ch.isDigit = true) := by
  obtain ⟨_, hrep⟩ := (create_eq_ok_iff infoName problem rep).1 h
  subst hrep
  refine ⟨?_, ?_, ?_⟩
  · intro K c hget hen
    refine ⟨multInfosOf_names _ K c, fun hfirst =>
      ⟨_, registry_find infoName problem K c hget hen hfirst, multInfosOf_names _ K c⟩⟩
  · intro e he
    obtain ⟨K, c, hget, hen, heq⟩ := registry_entries infoName problem e he
    refine ⟨K, c, hget, hen, ?_, ?_⟩
    · rw [heq]
    · rw [heq]
      exact multInfosOf_names _ K c
  · intro n
    exact ⟨decimalValue_to_string n, to_string_digits n⟩

/-- C7 at the sample problem: constraint 2 with counts `(0, 1, 2)` gets the names
`lambda_cid2_v0`, `lambda_cid2_a0`, `lambda_cid2_a1`, in this order. -/
theorem C7_multiplier_names_witness :
    ∃ rep, MucoProblemRep.create sampleInfoName sampleProblem = .ok rep ∧
      (multInfosOf sampleProblem.phase0 2 ⟨false, 0, 1, 2⟩).map MucoVariableInfo.name =
        ["lambda_cid2_v0", "lambda_cid2_a0", "lambda_cid2_a1"] :=
  ⟨populate sampleInfoName (MucoProblemRep.fresh sampleProblem), rfl,
    ((C7_multiplier_names sampleInfoName sampleProblem _ rfl).1 2 ⟨false, 0, 1, 2⟩ rfl
      rfl).1.trans (by decide)⟩

/-- C8: multiplier names are unique across the whole registry: the names of all
registered multiplier infos are pairwise distinct; two names of the scheme are equal only
for the same constraint index, the same equation class and the same index in the class;
and two multiplier infos built for enabled constraints have the same name only if they
are built for the same constraint index and stand at the same position of its list. -/
theorem C8_multiplier_names_unique (infoName : Nat → Nat → Nat → Nat → String)
    (problem : MucoProblem R) (rep : MucoProblemRep R)
    (h : MucoProblemRep.create infoName problem = .ok rep) :
    ((allMultiplierInfos rep).map MucoVariableInfo.name).Nodup ∧
    (∀ K K' i i' tag tag', tag ∈ ["_p", "_v", "_a"] → tag' ∈ ["_p", "_v", "_a"] →
      "lambda_cid" ++ to_string K ++ tag ++ to_string i =
        "lambda_cid" ++ to_string K' ++ tag' ++ to_string i' →
      K = K' ∧ tag = tag' ∧ i = i') ∧
    (∀ (K : Nat) (c : Constraint) (K' : Nat) (c' : Constraint) (j j' : Nat) (name : String),
      problem.phase0.model.constraints[K]? = some c → c.isDisabled = false →
      problem.phase0.model.constraints[K']? = some c' → c'.isDisabled = false →
      ((multInfosOf problem.phase0 K c).map MucoVariableInfo.name)[j]? = some name →
      ((multInfosOf problem.phase0 K' c').map MucoVariableInfo.name)[j']? = some name →
      K = K' ∧ j = j') := by
  obtain ⟨_, hrep⟩ := (create_eq_ok_iff infoName problem rep).1 h
  subst hrep
  refine ⟨?_, ?_, ?_⟩
  · unfold allMultiplierInfos
    rw [(populate_multibody infoName problem).2.2]
    obtain ⟨l', hsub, heq⟩ := insertAll_eq_append
      ((enabledFrom problem.phase0.model.constraints 0).map
        (fun p => (infoName p.1 p.2.mp p.2.mv p.2.ma, multInfosOf problem.phase0 p.1 p.2))) []
    rw [heq, List.nil_append, List.map_flatten, List.map_map]
    have hsub' := hsub.map ((List.map MucoVariableInfo.name) ∘ Prod.snd)
    rw [List.map_map] at hsub'
    rw [List.nodup_flatten]
    constructor
    · intro l hl
      obtain ⟨p, _, hp⟩ := List.mem_map.1 (hsub'.subset hl)
      rw [← hp]
      exact nodup_makeMultInfos_names _ _ _ _ _ _ _
    · apply List.Pairwise.sublist hsub'
      rw [List.pairwise_map]
      apply List.Pairwise.imp _ (pairwise_enabledFrom problem.phase0.model.constraints 0)
      intro p q hpq
      rw [List.disjoint_left]
      intro name h1 h2
      exact disjoint_makeMultInfos_names p.1 q.1 _ _ _ _ _ _ _ _ _ (Nat.ne_of_lt hpq) name h1 h2
  · intro K K' i i' tag tag' ht ht' heq
    exact multiplier_name_injective K K' i i' tag tag' ht ht' heq
  · intro K c K' c' j j' name hget _ hget' _ hj hj'
    have hK : K = K' := by
      by_contra hne
      exact disjoint_makeMultInfos_names K K' _ _ _ _ _ _ _ _ _ hne name
        (List.getElem?_mem hj) (List.getElem?_mem hj')
    subst hK
    rw [hget] at hget'
    simp only [Option.some.injEq] at hget'
    subst hget'
    refine ⟨rfl, ?_⟩
    have hnd : ((multInfosOf problem.phase0 K c).map MucoVariableInfo.name).Nodup :=
      nodup_makeMultInfos_names _ _ _ _ _ _ _
    obtain ⟨hlt, hv⟩ := List.getElem?_eq_some_iff.1 hj
    obtain ⟨hlt', hv'⟩ := List.getElem?_eq_some_iff.1 hj'
    exact (List.Nodup.getElem_inj_iff hnd).1 (hv.trans hv'.symm)

/-- C8 at the sample problem: the four registered multiplier names are pairwise
distinct. -/
theorem C8_multiplier_names_unique_witness :
    ∃ rep, MucoProblemRep.create sampleInfoName sampleProblem = .ok rep ∧
      (allMultiplierInfos rep).map MucoVariableInfo.name =
        ["lambda_cid0_p0", "lambda_cid2_v0", "lambda_cid2_a0", "lambda_cid2_a1"] ∧
      ((allMultiplierInfos rep).map MucoVariableInfo.name).Nodup :=
  ⟨populate sampleInfoName (MucoProblemRep.fresh sampleProblem), rfl, by decide,
    (C8_multiplier_names_unique sampleInfoName sampleProblem _ rfl).1⟩

theorem mem_registered_constraints (infoName : Nat → Nat → Nat → Nat → String)
    (problem : MucoProblem R) (mc : MucoMultibodyConstraint R) :
    mc ∈ (populate infoName (MucoProblemRep.fresh problem)).m_multibody_constraints ↔
      ∃ K c, problem.phase0.model.constraints[K]? = some c ∧ c.isDisabled = false ∧
        mc = makeConstraint infoName problem.phase0.multibody_constraint_bounds
          K c.mp c.mv c.ma := by
  rw [(populate_multibody infoName problem).2.1, List.mem_map]
  constructor
  · rintro ⟨p, hp, hmc⟩
    obtain ⟨hget, hen⟩ := (mem_enabledFrom_zero _ p).1 hp
    exact ⟨p.1, p.2, hget, hen, hmc.symm⟩
  · rintro ⟨K, c, hget, hen, hmc⟩
    exact ⟨(K, c), (mem_enabledFrom_zero _ (K, c)).2 ⟨hget, hen⟩, hmc.symm⟩

/-- C9: `initialize` registers a multibody constraint for each enabled constraint of the
model and for no disabled one, in increasing order of constraint index; the names under
which multiplier-info lists are registered are exactly the constraint-info names of the
enabled constraints, every registered list is the list of an enabled constraint, an
enabled constraint whose name no enabled constraint of smaller index uses has its own
list registered, and the equation total is the sum of the equation counts of the
registered constraints, so that a disabled constraint adds nothing to it. -/
theorem C9_registered_constraints (infoName : Nat → Nat → Nat → Nat → String)
    (problem : MucoProblem R) (rep : MucoProblemRep R)
    (h : MucoProblemRep.create infoName problem = .ok rep) :
    (∀ mc, mc ∈ rep.m_multibody_constraints ↔
      ∃ K c, problem.phase0.model.constraints[K]? = some c ∧ c.isDisabled = false ∧
        mc = makeConstraint infoName problem.phase0.multibody_constraint_bounds
          K c.mp c.mv c.ma) ∧
    (rep.m_multibody_constraints.map MucoMultibodyConstraint.cid).Pairwise (· < ·) ∧
    rep.m_multibody_constraints.length =
      (problem.phase0.model.constraints.filter (fun c => !c.isDisabled)).length ∧
    (∀ name, name ∈ StrMap.keys rep.m_multiplier_infos_map ↔
      ∃ K c, problem.phase0.model.constraints[K]? = some c ∧ c.isDisabled = false ∧
        name = infoName K c.mp c.mv c.ma) ∧
    (∀ e ∈ rep.m_multiplier_infos_map,
      ∃ K c, problem.phase0.model.constraints[K]? = some c ∧ c.isDisabled = false ∧
        e = (infoName K c.mp c.mv c.ma, multInfosOf problem.phase0 K c)) ∧
    (∀ K c, problem.phase0.model.constraints[K]? = some c → c.isDisabled = false →
      (∀ K' c', K' < K → problem.phase0.model.constraints[K']? = some c' →
        c'.isDisabled = false →
        infoName K' c'.mp c'.mv c'.ma ≠ infoName K c.mp c.mv c.ma) →
      StrMap.find rep.m_multiplier_infos_map (infoName K c.mp c.mv c.ma) =
        some (multInfosOf problem.phase0 K c)) ∧
    rep.m_num_multibody_constraint_eqs =
      (rep.m_multibody_constraints.map (fun mc => mc.getConstraintInfo.getNumEquations)).sum := by
  obtain ⟨_, hrep⟩ := (create_eq_ok_iff infoName problem rep).1 h
  subst hrep
  refine ⟨mem_registered_constraints infoName problem, ?_, ?_, registry_keys infoName problem,
    registry_entries infoName problem, registry_find infoName problem, ?_⟩
  · rw [(populate_multibody infoName problem).2.1, List.map_map, List.pairwise_map]
    exact pairwise_enabledFrom _ 0
  · rw [(populate_multibody infoName problem).2.1, List.length_map,
      ← enabledFrom_map_snd _ 0, List.length_map]
  · rw [(populate_multibody infoName problem).1, (populate_multibody infoName problem).2.1,
      List.map_map]
    rfl

/-- C9 at the sample problem: constraints 0 and 2 are enabled, constraint 1 is disabled;
the registered constraints have indices 0 and 2, in this order. -/
theorem C9_registered_constraints_witness :
    ∃ rep, MucoProblemRep.create sampleInfoName sampleProblem = .ok rep ∧
      rep.m_multibody_constraints.map MucoMultibodyConstraint.cid = [0, 2] ∧
      (rep.m_multibody_constraints.map MucoMultibodyConstraint.cid).Pairwise (· < ·) ∧
      StrMap.keys rep.m_multiplier_infos_map = ["constraint0", "constraint2"] :=
  ⟨populate sampleInfoName (MucoProblemRep.fresh sampleProblem), rfl, by decide,
    (C9_registered_constraints sampleInfoName sampleProblem _ rfl).2.1, by decide⟩

/-- C10: for every enabled constraint, the registered multibody constraint carries a
constraint info with one bound per scalar equation, `mp + mv + ma` of them, each equal to
the phase's `multibody_constraint_bounds`. -/
theorem C10_constraint_bounds (infoName : Nat → Nat → Nat → Nat → String)
    (problem : MucoProblem R) (rep : MucoProblemRep R)
    (h : MucoProblemRep.create infoName problem = .ok rep) :
    (∀ K c, problem.phase0.model.constraints[K]? = some c → c.isDisabled = false →
      ∃ mc ∈ rep.m_multibody_constraints, mc.cid = K ∧
        mc.getConstraintInfo.getNumEquations = c.mp + c.mv + c.ma ∧
        mc.getConstraintInfo.bounds =
          List.replicate (c.mp + c.mv + c.ma) problem.phase0.multibody_constraint_bounds) ∧
    (∀ mc ∈ rep.m_multibody_constraints,
      mc.getConstraintInfo.bounds.length = mc.getConstraintInfo.getNumEquations ∧
      mc.getConstraintInfo.getNumEquations = mc.mp + mc.mv + mc.ma ∧
      ∀ b ∈ mc.getConstraintInfo.bounds, b = problem.phase0.multibody_constraint_bounds) := by
  obtain ⟨_, hrep⟩ := (create_eq_ok_iff infoName problem rep).1 h
  subst hrep
  constructor
  · intro K c hget hen
    exact ⟨makeConstraint infoName problem.phase0.multibody_constraint_bounds K c.mp c.mv c.ma,
      (mem_registered_constraints infoName problem _).2 ⟨K, c, hget, hen, rfl⟩, rfl, rfl, rfl⟩
  · intro mc hmc
    obtain ⟨K, c, _, _, heq⟩ := (mem_registered_constraints infoName problem mc).1 hmc
    subst heq
    refine ⟨?_, rfl, ?_⟩
    · simp [makeConstraint, MucoMultibodyConstraint.create,
        MucoMultibodyConstraint.getConstraintInfo, MucoMultibodyConstraint.setConstraintInfo,
        MucoConstraintInfo.setBounds, MucoConstraintInfo.getNumEquations]
    · intro b hb
      simp only [makeConstraint, MucoMultibodyConstraint.create,
        MucoMultibodyConstraint.getConstraintInfo, MucoMultibodyConstraint.setConstraintInfo,
        MucoConstraintInfo.setBounds, MucoConstraintInfo.getNumEquations] at hb
      exact List.eq_of_mem_replicate hb

/-- C10 at the sample problem: constraint 2 with counts `(0, 1, 2)` has three bounds, each
the phase's `multibody_constraint_bounds`. -/
theorem C10_constraint_bounds_witness :
    ∃ rep, MucoProblemRep.create sampleInfoName sampleProblem = .ok rep ∧
      ∃ mc ∈ rep.m_multibody_constraints, mc.cid = 2 ∧
        mc.getConstraintInfo.getNumEquations = 0 + 1 + 2 ∧
        mc.getConstraintInfo.bounds =
          List.replicate (0 + 1 + 2) sampleProblem.phase0.multibody_constraint_bounds :=
  ⟨populate sampleInfoName (MucoProblemRep.fresh sampleProblem), rfl,
    (C10_constraint_bounds sampleInfoName sampleProblem _ rfl).1 2 ⟨false, 0, 1, 2⟩ rfl rfl⟩

/-! ## The bounds of the multiplier infos -/

theorem mem_makeMultInfos_bounds (cid mp mv ma : Nat) (b : MucoBounds R)
    (ib : MucoInitialBounds R) (fb : MucoFinalBounds R) (info : MucoVariableInfo R)
    (h : info ∈ makeMultInfos cid mp mv ma b ib fb) :
    info.bounds = b ∧ info.initialBounds = ib ∧ info.finalBounds = fb := by
  rw [makeMultInfos_eq] at h
  simp only [List.mem_append, List.mem_map, List.mem_range] at h
  rcases h with (⟨i, _, hi⟩ | ⟨i, _, hi⟩) | ⟨i, _, hi⟩ <;>
    · rw [← hi]
      exact ⟨rfl, rfl, rfl⟩

theorem mem_multInfosOf_bounds (ph0 : MucoPhase R) (K : Nat) (c : Constraint)
    (info : MucoVariableInfo R) (h : info ∈ multInfosOf ph0 K c) :
    info.bounds = ph0.multiplier_bounds ∧
      info.initialBounds.lower = ph0.multiplier_bounds.getLower ∧
      info.initialBounds.upper = ph0.multiplier_bounds.getUpper ∧
      info.finalBounds.lower = ph0.multiplier_bounds.getLower ∧
      info.finalBounds.upper = ph0.multiplier_bounds.getUpper := by
  obtain ⟨hb, hi, hf⟩ := mem_makeMultInfos_bounds _ _ _ _ _ _ _ info h
  rw [hb, hi, hf]
  exact ⟨rfl, rfl, rfl, rfl, rfl⟩

/-- C11: every multiplier info built for an enabled constraint, and every registered
multiplier info, has the phase's `multiplier_bounds` as bounds, and initial bounds and
final bounds whose lower and upper values are those of `multiplier_bounds`. -/
theorem C11_multiplier_bounds (infoName : Nat → Nat → Nat → Nat → String)
    (problem : MucoProblem R) (rep : MucoProblemRep R)
    (h : MucoProblemRep.create infoName problem = .ok rep) :
    (∀ K c, problem.phase0.model.constraints[K]? = some c → c.isDisabled = false →
      ∀ info ∈ multInfosOf problem.phase0 K c,
        info.bounds = problem.phase0.multiplier_bounds ∧
        info.initialBounds.lower = problem.phase0.multiplier_bounds.getLower ∧
        info.initialBounds.upper = problem.phase0.multiplier_bounds.getUpper ∧
        info.finalBounds.lower = problem.phase0.multiplier_bounds.getLower ∧
        info.finalBounds.upper = problem.phase0.multiplier_bounds.getUpper) ∧
    (∀ info ∈ allMultiplierInfos rep,
        info.bounds = problem.phase0.multiplier_bounds ∧
        info.initialBounds.lower = problem.phase0.multiplier_bounds.getLower ∧
        info.initialBounds.upper = problem.phase0.multiplier_bounds.getUpper ∧
        info.finalBounds.lower = problem.phase0.multiplier_bounds.getLower ∧
        info.finalBounds.upper = problem.phase0.multiplier_bounds.getUpper) := by
  obtain ⟨_, hrep⟩ := (create_eq_ok_iff infoName problem rep).1 h
  subst hrep
  constructor
  · intro K c _ _ info hinfo
    exact mem_multInfosOf_bounds _ K c info hinfo
  · intro info hinfo
    unfold allMultiplierInfos at hinfo
    obtain ⟨l, hl, hmem⟩ := List.mem_flatten.1 hinfo
    obtain ⟨e, he, hel⟩ := List.mem_map.1 hl
    obtain ⟨K, c, _, _, heq⟩ := registry_entries infoName problem e he
    rw [← hel, heq] at hmem
    exact mem_multInfosOf_bounds _ K c info hmem

/-- C11 at the sample problem: the multiplier `lambda_cid0_p0` has the multiplier bounds
`[-1000, 1000]` as bounds, initial bounds and final bounds. -/
theorem C11_multiplier_bounds_witness :
    ∃ rep, MucoProblemRep.create sampleInfoName sampleProblem = .ok rep ∧
      (⟨"lambda_cid0_p0", MucoBounds.range (-1000) 1000, ⟨some (-1000), some 1000⟩,
          ⟨some (-1000), some 1000⟩⟩ : MucoVariableInfo Int) ∈ allMultiplierInfos rep ∧
      ∀ info ∈ allMultiplierInfos rep,
        info.bounds = sampleProblem.phase0.multiplier_bounds ∧
        info.initialBounds.lower = sampleProblem.phase0.multiplier_bounds.getLower ∧
        info.initialBounds.upper = sampleProblem.phase0.multiplier_bounds.getUpper ∧
        info.finalBounds.lower = sampleProblem.phase0.multiplier_bounds.getLower ∧
        info.finalBounds.upper = sampleProblem.phase0.multiplier_bounds.getUpper :=
  ⟨populate sampleInfoName (MucoProblemRep.fresh sampleProblem), rfl, by decide,
    (C11_multiplier_bounds sampleInfoName sampleProblem _ rfl).2⟩

/-! ## The path constraints -/

theorem wrapInt_of_fits (n : Int) (h0 : 0 ≤ n) (h1 : n < 2147483648) : wrapInt n = n := by
  unfold wrapInt
  omega

theorem pathConstraintLoop_list (pcs : List MucoPathConstraint) (st : PathState) :
    (pathConstraintLoop pcs st).m_path_constraints =
      st.m_path_constraints ++ bindPathConstraints pcs st.m_num_path_constraint_eqs := by
  induction pcs generalizing st with
  | nil => simp [pathConstraintLoop, bindPathConstraints]
  | cons pc rest ih =>
    simp only [pathConstraintLoop, ih, bindPathConstraints, MucoPathConstraint.initialize,
      List.append_assoc, List.singleton_append]

theorem pathConstraintLoop_total (pcs : List MucoPathConstraint) (st : PathState) (n : Nat)
    (hst : st.m_num_path_constraint_eqs = (n : Int))
    (hfit : n + (pcs.map MucoPathConstraint.implEquations).sum < 2147483648) :
    (pathConstraintLoop pcs st).m_num_path_constraint_eqs =
      ((n + (pcs.map MucoPathConstraint.implEquations).sum : Nat) : Int) := by
  induction pcs generalizing st n with
  | nil => simpa [pathConstraintLoop] using hst
  | cons pc rest ih =>
    simp only [List.map_cons, List.sum_cons] at hfit
    simp only [pathConstraintLoop, MucoPathConstraint.initialize, List.map_cons, List.sum_cons]
    rw [ih _ (n + pc.implEquations) _ (by omega)]
    · congr 1
      omega
    · simp only [hst]
      rw [wrapInt_of_fits _ (by omega) (by omega)]
      push_cast
      rfl

theorem length_bindPathConstraints (pcs : List MucoPathConstraint) (start : Int) :
    (bindPathConstraints pcs start).length = pcs.length := by
  induction pcs generalizing start with
  | nil => rfl
  | cons pc rest ih => simp [bindPathConstraints, ih]

theorem getElem?_bindPathConstraints (pcs : List MucoPathConstraint) (start i : Nat)
    (pc : MucoPathConstraint)
    (hfit : start + (pcs.map MucoPathConstraint.implEquations).sum < 2147483648)
    (h : pcs[i]? = some pc) :
    (bindPathConstraints pcs (start : Int))[i]? =
      some ( MucoPathConstraint.initialize pc
        ((start + ((pcs.take i).map MucoPathConstraint.implEquations).sum : Nat) : Int)) := by
  induction pcs generalizing start i with
  | nil => simp at h
  | cons pc0 rest ih =>
    simp only [List.map_cons, List.sum_cons] at hfit
    cases i with
    | zero =>
      simp only [List.getElem?_cons_zero, Option.some.injEq] at h
      subst h
      simp [bindPathConstraints]
    | succ i =>
      simp only [List.getElem?_cons_succ] at h
      have hw : wrapInt ((start : Int) + (pc0.implEquations : Int)) =
          ((start + pc0.implEquations : Nat) : Int) := by
        rw [wrapInt_of_fits _ (by omega) (by omega)]
        push_cast
        rfl
      simp only [bindPathConstraints, List.getElem?_cons_succ, hw,
        ih (start + pc0.implEquations) i (by omega) h, List.take_succ_cons,
        List.map_cons, List.sum_cons, Nat.add_assoc]

theorem sum_take_succ (ks : List Nat) (i k : Nat) (h : ks[i]? = some k) :
    (ks.take (i + 1)).sum = (ks.take i).sum + k := by
  induction ks generalizing i with
  | nil => simp at h
  | cons k0 rest ih =>
    cases i with
    | zero =>
      simp only [List.getElem?_cons_zero, Option.some.injEq] at h
      subst h
      simp
    | succ i =>
      simp only [List.getElem?_cons_succ] at h
      simp only [List.take_succ_cons, List.sum_cons, ih i h]
      omega

theorem sum_take_mono (ks : List Nat) (i j : Nat) (h : i ≤ j) :
    (ks.take i).sum ≤ (ks.take j).sum := by
  induction ks generalizing i j with
  | nil => simp
  | cons k0 rest ih =>
    cases i with
    | zero => simp
    | succ i =>
      cases j with
      | zero => omega
      | succ j =>
        simp only [List.take_succ_cons, List.sum_cons]
        have := ih i j (by omega)
        omega

theorem sum_take_le (ks : List Nat) (i : Nat) : (ks.take i).sum ≤ ks.sum := by
  by_cases hi : i ≤ ks.length
  · have h := sum_take_mono ks i ks.length hi
    rwa [List.take_length] at h
  · rw [List.take_of_length_le (by omega)]

theorem populate_path_constraints (infoName : Nat → Nat → Nat → Nat → String)
    (problem : MucoProblem R) :
    (populate infoName (MucoProblemRep.fresh problem)).m_path_constraints =
        bindPathConstraints problem.phase0.path_constraints 0 := by
  simp only [populate, MucoProblemRep.fresh, pathConstraintLoop_list, List.nil_append]

theorem populate_path_total (infoName : Nat → Nat → Nat → Nat → String)
    (problem : MucoProblem R)
    (hfit : (problem.phase0.path_constraints.map MucoPathConstraint.implEquations).sum <
      2147483648) :
    (populate infoName (MucoProblemRep.fresh problem)).m_num_path_constraint_eqs =
      (((problem.phase0.path_constraints.map MucoPathConstraint.implEquations).sum : Nat) :
        Int) := by
  simp only [populate, MucoProblemRep.fresh]
  rw [pathConstraintLoop_total _ _ 0 rfl (by omega), Nat.zero_add]

theorem bound_path_constraint (pcs : List MucoPathConstraint) (i : Nat)
    (b : MucoPathConstraint)
    (hfit : (pcs.map MucoPathConstraint.implEquations).sum < 2147483648)
    (h : (bindPathConstraints pcs 0)[i]? = some b) :
    ∃ pc, pcs[i]? = some pc ∧
      b = MucoPathConstraint.initialize pc
        ((((pcs.take i).map MucoPathConstraint.implEquations).sum : Nat) : Int) ∧
      b.startIndex =
        some ((((pcs.take i).map MucoPathConstraint.implEquations).sum : Nat) : Int) ∧
      b.numEquations = pc.implEquations ∧
      ((pcs.take (i + 1)).map MucoPathConstraint.implEquations).sum =
        ((pcs.take i).map MucoPathConstraint.implEquations).sum + b.numEquations := by
  have hlt : i < pcs.length := by
    have := (List.getElem?_eq_some_iff.1 h).1
    rwa [length_bindPathConstraints] at this
  have hget : pcs[i]? = some pcs[i] := List.getElem?_eq_getElem hlt
  have hb := getElem?_bindPathConstraints pcs 0 i pcs[i] (by omega) hget
  rw [Nat.cast_zero, h, Nat.zero_add] at hb
  simp only [Option.some.injEq] at hb
  refine ⟨pcs[i], hget, hb, ?_, ?_, ?_⟩
  · rw [hb]
    rfl
  · rw [hb]
    rfl
  · rw [List.map_take, List.map_take]
    rw [sum_take_succ (pcs.map MucoPathConstraint.implEquations) i pcs[i].implEquations
      (by rw [List.getElem?_map, hget]; rfl)]
    rw [hb]
    rfl

/-- C12: provided the sum of the equation counts of the declared path constraints fits in
an `int` (is below 2^31), the declared path constraints are bound in declaration order, the
`i`-th one at the sum of the equation counts of those before it (the first at 0);
consecutive index ranges are contiguous, ranges of different constraints do not overlap and
lie between 0 and the total, which is the sum of all counts. This holds for every
declaration order, and a permutation of the declarations leaves the total unchanged. -/
theorem C12_path_constraint_indices (infoName : Nat → Nat → Nat → Nat → String)
    (problem : MucoProblem R) (rep : MucoProblemRep R)
    (h : MucoProblemRep.create infoName problem = .ok rep)
    (hfit : (problem.phase0.path_constraints.map MucoPathConstraint.implEquations).sum <
      2147483648) :
    rep.m_path_constraints.length = problem.phase0.path_constraints.length ∧
    (∀ (i : Nat) (pc : MucoPathConstraint), problem.phase0.path_constraints[i]? = some pc →
      rep.m_path_constraints[i]? = some ( MucoPathConstraint.initialize pc
        ((((problem.phase0.path_constraints.take i).map
          MucoPathConstraint.implEquations).sum : Nat) : Int))) ∧
    (∀ b, rep.m_path_constraints[0]? = some b → b.startIndex = some 0) ∧
    (∀ (i : Nat) (b b' : MucoPathConstraint), rep.m_path_constraints[i]? = some b →
      rep.m_path_constraints[i + 1]? = some b' →
      ∃ start : Int, b.startIndex = some start ∧
        b'.startIndex = some (start + (b.numEquations : Int))) ∧
    (∀ (i j : Nat) (b b' : MucoPathConstraint), i < j →
      rep.m_path_constraints[i]? = some b → rep.m_path_constraints[j]? = some b' →
      ∃ start start' : Int, b.startIndex = some start ∧ b'.startIndex = some start' ∧
        0 ≤ start ∧ start + (b.numEquations : Int) ≤ start') ∧
    (∀ (i : Nat) (b : MucoPathConstraint), rep.m_path_constraints[i]? = some b →
      ∃ start : Int, b.startIndex = some start ∧ 0 ≤ start ∧
        start + (b.numEquations : Int) ≤ rep.m_num_path_constraint_eqs) ∧
    rep.m_num_path_constraint_eqs =
      (((problem.phase0.path_constraints.map MucoPathConstraint.implEquations).sum : Nat) :
        Int) ∧
    rep.m_num_path_constraint_eqs =
      (((rep.m_path_constraints.map MucoPathConstraint.numEquations).sum : Nat) : Int) ∧
    (∀ (problem' : MucoProblem R) (rep' : MucoProblemRep R),
      MucoProblemRep.create infoName problem' = .ok rep' →
      problem'.phase0.path_constraints.Perm problem.phase0.path_constraints →
      rep'.m_num_path_constraint_eqs = rep.m_num_path_constraint_eqs) := by
  obtain ⟨_, hrep⟩ := (create_eq_ok_iff infoName problem rep).1 h
  subst hrep
  have hlist := populate_path_constraints infoName problem
  have htotal := populate_path_total infoName problem hfit
  rw [hlist, htotal]
  refine ⟨length_bindPathConstraints _ 0, ?_, ?_, ?_, ?_, ?_, rfl, ?_, ?_⟩
  · intro i pc hpc
    have := getElem?_bindPathConstraints problem.phase0.path_constraints 0 i pc
      (by omega) hpc
    rwa [Nat.cast_zero, Nat.zero_add] at this
  · intro b hb
    obtain ⟨pc, _, _, hstart, _, _⟩ := bound_path_constraint _ 0 b hfit hb
    simpa using hstart
  · intro i b b' hb hb'
    obtain ⟨pc, _, _, hstart, _, hnext⟩ := bound_path_constraint _ i b hfit hb
    obtain ⟨pc', _, _, hstart', _, _⟩ := bound_path_constraint _ (i + 1) b' hfit hb'
    refine ⟨_, hstart, ?_⟩
    rw [hstart', hnext]
    push_cast
    rfl
  · intro i j b b' hij hb hb'
    obtain ⟨pc, _, _, hstart, _, hnext⟩ := bound_path_constraint _ i b hfit hb
    obtain ⟨pc', _, _, hstart', _, _⟩ := bound_path_constraint _ j b' hfit hb'
    refine ⟨_, _, hstart, hstart', Int.ofNat_nonneg _, ?_⟩
    have hmono := sum_take_mono
      (problem.phase0.path_constraints.map MucoPathConstraint.implEquations) (i + 1) j hij
    rw [← List.map_take, ← List.map_take, hnext] at hmono
    exact_mod_cast hmono
  · intro i b hb
    obtain ⟨pc, _, _, hstart, _, hnext⟩ := bound_path_constraint _ i b hfit hb
    refine ⟨_, hstart, Int.ofNat_nonneg _, ?_⟩
    have hle := sum_take_le
      (problem.phase0.path_constraints.map MucoPathConstraint.implEquations) (i + 1)
    rw [← List.map_take, hnext] at hle
    exact_mod_cast hle
  · have hgen : ∀ (pcs : List MucoPathConstraint) (start : Int),
        ((bindPathConstraints pcs start).map MucoPathConstraint.numEquations).sum =
          (pcs.map MucoPathConstraint.implEquations).sum := by
      intro pcs
      induction pcs with
      | nil => intro _; rfl
      | cons pc rest ih =>
        intro start
        simp [bindPathConstraints, MucoPathConstraint.initialize, ih]
    rw [hgen _ 0]
  · intro problem' rep' h' hperm
    obtain ⟨_, hrep'⟩ := (create_eq_ok_iff infoName problem' rep').1 h'
    subst hrep'
    have hsum := (hperm.map MucoPathConstraint.implEquations).sum_eq
    rw [populate_path_total infoName problem' (by rw [hsum]; exact hfit), hsum]

/-- C12 at the sample problem: `pc0` with 2 equations starts at 0, `pc1` with 3 equations
starts at 2, and the total is 5. -/
theorem C12_path_constraint_indices_witness :
    ∃ rep, MucoProblemRep.create sampleInfoName sampleProblem = .ok rep ∧
      rep.m_path_constraints[1]? = some ⟨"pc1", 3, 3, some 2⟩ ∧
      rep.m_num_path_constraint_eqs = 5 :=
  ⟨populate sampleInfoName (MucoProblemRep.fresh sampleProblem), rfl,
    (C12_path_constraint_indices sampleInfoName sampleProblem _ rfl (by decide)).2.1 1
      ⟨"pc1", 3, 0, none⟩ rfl,
    (C12_path_constraint_indices sampleInfoName sampleProblem _ rfl
      (by decide)).2.2.2.2.2.2.1.trans (by decide)⟩

theorem overflowProblem_indices :
    (populate sampleInfoName (MucoProblemRep.fresh overflowProblem)).m_path_constraints =
      [⟨"pc0", 1073741824, 1073741824, some 0⟩,
        ⟨"pc1", 1073741824, 1073741824, some 1073741824⟩,
        ⟨"pc2", 1, 1, some (-2147483648)⟩] ∧
    (populate sampleInfoName (MucoProblemRep.fresh overflowProblem)).m_num_path_constraint_eqs =
      -2147483647 := by
  decide

/-- C12 as stated fails: for the path constraints of 2^30, 2^30 and 1 equations the sum
of the counts is 2^31 + 1, which an `int` does not hold; the third constraint is bound at
-2^31 and the total is -2^31 + 1, not the sums 2^31 and 2^31 + 1 of the counts. -/
theorem C12_path_constraint_indices_counterexample :
    ¬ ∀ (problem : MucoProblem Int) (rep : MucoProblemRep Int),
      MucoProblemRep.create sampleInfoName problem = .ok rep →
      (∀ (i : Nat) (b : MucoPathConstraint), rep.m_path_constraints[i]? = some b →
        b.startIndex = some ((((problem.phase0.path_constraints.take i).map
          MucoPathConstraint.implEquations).sum : Nat) : Int)) ∧
      rep.m_num_path_constraint_eqs =
        (((problem.phase0.path_constraints.map MucoPathConstraint.implEquations).sum : Nat) :
          Int) := by
  intro hall
  have h := (hall overflowProblem (populate sampleInfoName (MucoProblemRep.fresh overflowProblem))
    rfl).2
  have hval : (populate sampleInfoName
      (MucoProblemRep.fresh overflowProblem)).m_num_path_constraint_eqs = -2147483647 := by
    decide
  rw [hval] at h
  exact absurd h (by decide)

/-! ## Parameters -/

theorem addParameters_eq (ps decl : List MucoParameter) :
    addParameters ps decl = ps ++ decl.map MucoParameter.initialize := by
  induction decl generalizing ps with
  | nil => simp [addParameters]
  | cons p rest ih => simp [addParameters, ih]

theorem populate_parameters (infoName : Nat → Nat → Nat → Nat → String)
    (problem : MucoProblem R) :
    (populate infoName (MucoProblemRep.fresh problem)).m_parameters =
      problem.phase0.parameters.map MucoParameter.initialize := by
  simp only [populate, MucoProblemRep.fresh, addParameters_eq, List.nil_append]

theorem apply_loop_eq {M : Type} (apply : MucoParameter → R → M → M) :
    ∀ (params : List MucoParameter) (values : List R) (model : M),
      values.length = params.length →
      (List.range params.length).foldl
        (fun m i =>
          match params[i]?, values[i]? with
          | some p, some v => apply p v m
          | _, _ => m)
        model =
      (List.zip params values).foldl (fun m pv => apply pv.1 pv.2 m) model := by
  intro params
  induction params with
  | nil =>
    intro values model _
    simp
  | cons p ps ih =>
    intro values model hlen
    cases values with
    | nil => simp at hlen
    | cons v vs =>
      simp only [List.length_cons, Nat.add_right_cancel_iff] at hlen
      simp only [List.length_cons, List.range_succ_eq_map, List.foldl_cons, List.foldl_map,
        List.getElem?_cons_zero, List.getElem?_cons_succ, List.zip_cons_cons, Nat.succ_eq_add_one]
      exact ih vs (apply p v model) hlen

theorem record_applications_eq {R : Type} (pvs log : List (MucoParameter × R)) :
    pvs.foldl (fun m pv => recordApplication pv.1 pv.2 m) log = log ++ pvs := by
  induction pvs generalizing log with
  | nil => simp
  | cons pv rest ih =>
    simp only [List.foldl_cons]
    rw [ih]
    simp [recordApplication]

/-- C13: `applyParametersToModel` fails if and only if the number of supplied values
differs from the number of declared parameters, with a message giving both numbers; when
it fails, what the parameters mutate is as it was, no parameter having been applied. -/
theorem C13_applyParameters_fails_iff (infoName : Nat → Nat → Nat → Nat → String)
    (problem : MucoProblem R) (rep : MucoProblemRep R)
    (h : MucoProblemRep.create infoName problem = .ok rep) :
    rep.m_parameters.length = problem.phase0.parameters.length ∧
    (∀ (M : Type) (apply : MucoParameter → R → M → M) (values : List R) (model : M),
      ((∃ e, (MucoProblemRep.applyParametersToModel apply rep values model).1 = .error e) ↔
        values.length ≠ problem.phase0.parameters.length) ∧
      (∀ e, (MucoProblemRep.applyParametersToModel apply rep values model).1 = .error e →
        (MucoProblemRep.applyParametersToModel apply rep values model).2 = model ∧
        e.msg = "There are " ++ to_string problem.phase0.parameters.length ++
          " parameters in this MucoProblem, but " ++ to_string values.length ++
          " values were provided.")) ∧
    (∀ (values : List R) (e : Exception),
      (MucoProblemRep.applyParametersToModel recordApplication rep values []).1 = .error e →
      (MucoProblemRep.applyParametersToModel recordApplication rep values []).2 = []) := by
  obtain ⟨_, hrep⟩ := (create_eq_ok_iff infoName problem rep).1 h
  subst hrep
  have hlen : (populate infoName (MucoProblemRep.fresh problem)).m_parameters.length =
      problem.phase0.parameters.length := by
    rw [populate_parameters, List.length_map]
  have hmain : ∀ (M : Type) (apply : MucoParameter → R → M → M) (values : List R) (model : M),
      ((∃ e, (MucoProblemRep.applyParametersToModel apply
          (populate infoName (MucoProblemRep.fresh problem)) values model).1 = .error e) ↔
        values.length ≠ problem.phase0.parameters.length) ∧
      (∀ e, (MucoProblemRep.applyParametersToModel apply
          (populate infoName (MucoProblemRep.fresh problem)) values model).1 = .error e →
        (MucoProblemRep.applyParametersToModel apply
          (populate infoName (MucoProblemRep.fresh problem)) values model).2 = model ∧
        e.msg = "There are " ++ to_string problem.phase0.parameters.length ++
          " parameters in this MucoProblem, but " ++ to_string values.length ++
          " values were provided.") := by
    intro M apply values model
    unfold MucoProblemRep.applyParametersToModel
    rw [hlen]
    by_cases hv : values.length = problem.phase0.parameters.length
    · simp [hv]
    · simp only [ne_eq, hv, not_false_eq_true, if_true, Except.error.injEq, exists_eq',
        true_and]
      intro e he
      rw [← he]
  refine ⟨hlen, hmain, ?_⟩
  intro values e he
  exact ((hmain _ recordApplication values []).2 e he).1

/-- C13 at the sample problem with three declared parameters and two supplied values:
the call fails and nothing is applied. -/
theorem C13_applyParameters_fails_iff_witness :
    ∃ rep, MucoProblemRep.create sampleInfoName threeParameterProblem = .ok rep ∧
      (MucoProblemRep.applyParametersToModel recordApplication rep [(5 : Int), 7] []).1 =
        .error ⟨"There are 3 parameters in this MucoProblem, but 2 values were provided."⟩ ∧
      (MucoProblemRep.applyParametersToModel recordApplication rep [(5 : Int), 7] []).2 = [] :=
  ⟨populate sampleInfoName (MucoProblemRep.fresh threeParameterProblem), rfl, rfl,
    (C13_applyParameters_fails_iff sampleInfoName threeParameterProblem _ rfl).2.2
      [5, 7] ⟨"There are 3 parameters in this MucoProblem, but 2 values were provided."⟩ rfl⟩

/-- C14: the parameter list holds one bound clone per declared parameter, in declaration
order; when as many values as parameters are supplied, `applyParametersToModel` succeeds
and applies the `i`-th value to the `i`-th parameter, for `i` in increasing order, each
parameter exactly once. -/
theorem C14_applyParameters_in_order (infoName : Nat → Nat → Nat → Nat → String)
    (problem : MucoProblem R) (rep : MucoProblemRep R)
    (h : MucoProblemRep.create infoName problem = .ok rep) :
    rep.m_parameters = problem.phase0.parameters.map MucoParameter.initialize ∧
    (∀ (M : Type) (apply : MucoParameter → R → M → M) (values : List R) (model : M),
      values.length = problem.phase0.parameters.length →
      (MucoProblemRep.applyParametersToModel apply rep values model).1 = .ok () ∧
      (MucoProblemRep.applyParametersToModel apply rep values model).2 =
        (List.zip rep.m_parameters values).foldl (fun m pv => apply pv.1 pv.2 m) model) ∧
    (∀ (values : List R), values.length = problem.phase0.parameters.length →
      (MucoProblemRep.applyParametersToModel recordApplication rep values []).2 =
        List.zip rep.m_parameters values ∧
      ((MucoProblemRep.applyParametersToModel recordApplication rep values []).2.map
        Prod.fst) = rep.m_parameters ∧
      ((MucoProblemRep.applyParametersToModel recordApplication rep values []).2.map
        Prod.snd) = values) := by
  obtain ⟨_, hrep⟩ := (create_eq_ok_iff infoName problem rep).1 h
  subst hrep
  have hlen : (populate infoName (MucoProblemRep.fresh problem)).m_parameters.length =
      problem.phase0.parameters.length := by
    rw [populate_parameters, List.length_map]
  have hmain : ∀ (M : Type) (apply : MucoParameter → R → M → M) (values : List R) (model : M),
      values.length = problem.phase0.parameters.length →
      (MucoProblemRep.applyParametersToModel apply
        (populate infoName (MucoProblemRep.fresh problem)) values model).1 = .ok () ∧
      (MucoProblemRep.applyParametersToModel apply
        (populate infoName (MucoProblemRep.fresh problem)) values model).2 =
        (List.zip (populate infoName (MucoProblemRep.fresh problem)).m_parameters
          values).foldl (fun m pv => apply pv.1 pv.2 m) model := by
    intro M apply values model hv
    have hv' : values.length =
        (populate infoName (MucoProblemRep.fresh problem)).m_parameters.length := by
      rw [hlen, hv]
    unfold MucoProblemRep.applyParametersToModel
    simp only [ne_eq, hv', not_true_eq_false, if_false, true_and]
    exact apply_loop_eq apply _ values model hv'
  refine ⟨populate_parameters infoName problem, hmain, ?_⟩
  intro values hv
  have hlog := (hmain _ recordApplication values [] hv).2
  rw [record_applications_eq, List.nil_append] at hlog
  have hv' : values.length =
      (populate infoName (MucoProblemRep.fresh problem)).m_parameters.length := by
    rw [hlen, hv]
  refine ⟨hlog, ?_, ?_⟩
  · rw [hlog]
    exact List.map_fst_zip _ _ (Nat.le_of_eq hv'.symm)
  · rw [hlog]
    exact List.map_snd_zip _ _ (Nat.le_of_eq hv')

/-- C14 at the sample problem with three declared parameters and the values 5, 7, 9:
`mass` gets 5, then `length` gets 7, then `stiffness` gets 9. -/
theorem C14_applyParameters_in_order_witness :
    ∃ rep, MucoProblemRep.create sampleInfoName threeParameterProblem = .ok rep ∧
      (MucoProblemRep.applyParametersToModel recordApplication rep [(5 : Int), 7, 9] []).2 =
        [(⟨"mass", true⟩, 5), (⟨"length", true⟩, 7), (⟨"stiffness", true⟩, 9)] :=
  ⟨populate sampleInfoName (MucoProblemRep.fresh threeParameterProblem), rfl,
    ((C14_applyParameters_in_order sampleInfoName threeParameterProblem _ rfl).2.2
      [5, 7, 9] rfl).1.trans (by decide)⟩

/-! ## Lookup by name -/

theorem find_mem {V : Type} (m : StrMap V) (k : String) (v : V) (h : StrMap.find m k = some v) :
    (k, v) ∈ m := by
  induction m with
  | nil => simp [StrMap.find] at h
  | cons e t ih =>
    obtain ⟨k', v'⟩ := e
    by_cases hk : k' = k
    · simp only [StrMap.find, hk, if_true, Option.some.injEq] at h
      rw [hk, h]
      exact List.mem_cons_self _ _
    · simp only [StrMap.find, hk, if_false] at h
      exact List.mem_cons_of_mem _ (ih h)

theorem mem_assign {V : Type} (m : StrMap V) (k : String) (v : V) (e : String × V)
    (h : e ∈ StrMap.assign m k v) : e ∈ m ∨ e = (k, v) := by
  induction m with
  | nil =>
    simp only [StrMap.assign, List.mem_singleton] at h
    exact Or.inr h
  | cons e0 t ih =>
    obtain ⟨k', v'⟩ := e0
    by_cases hk : k' = k
    · simp only [StrMap.assign, hk, if_true, List.mem_cons] at h
      rcases h with h | h
      · exact Or.inr h
      · exact Or.inl (List.mem_cons_of_mem _ h)
    · simp only [StrMap.assign, hk, if_false, List.mem_cons] at h
      rcases h with h | h
      · exact Or.inl (by rw [h]; exact List.mem_cons_self _ _)
      · rcases ih h with h' | h'
        · exact Or.inl (List.mem_cons_of_mem _ h')
        · exact Or.inr h'

theorem named_recordInfos (m : StrMap (MucoVariableInfo R)) (infos : List (MucoVariableInfo R))
    (hm : ∀ e ∈ m, e.2.name = e.1) : ∀ e ∈ recordInfos m infos, e.2.name = e.1 := by
  induction infos generalizing m with
  | nil => exact hm
  | cons info rest ih =>
    apply ih
    intro e he
    rcases mem_assign _ _ _ e he with h | h
    · exact hm e h
    · rw [h]

theorem named_addCoordinateInfo (b : MucoBounds R) (m : StrMap (MucoVariableInfo R))
    (c : Coordinate R) (hm : ∀ e ∈ m, e.2.name = e.1) :
    ∀ e ∈ addCoordinateInfo b m c, e.2.name = e.1 := by
  have step : ∀ (m' : StrMap (MucoVariableInfo R)) (w : MucoVariableInfo R),
      (∀ e ∈ m', e.2.name = e.1) →
      ∀ e ∈ (if m'.count w.name = 0 then m'.assign w.name w else m'), e.2.name = e.1 := by
    intro m' w hm' e he
    split_ifs at he
    · rcases mem_assign _ _ _ e he with h | h
      · exact hm' e h
      · rw [h]
    · exact hm' e he
  unfold addCoordinateInfo
  exact step _ ⟨c.path ++ "/speed", b, ⟨none, none⟩, ⟨none, none⟩⟩
    (step m ⟨c.path ++ "/value", MucoBounds.range c.rangeMin c.rangeMax, ⟨none, none⟩,
      ⟨none, none⟩⟩ hm)

theorem named_addCoordinateInfos (b : MucoBounds R) (m : StrMap (MucoVariableInfo R))
    (cs : List (Coordinate R)) (hm : ∀ e ∈ m, e.2.name = e.1) :
    ∀ e ∈ addCoordinateInfos b m cs, e.2.name = e.1 := by
  induction cs generalizing m with
  | nil => exact hm
  | cons c rest ih => exact ih _ (named_addCoordinateInfo b m c hm)

theorem named_addActuatorInfos (m : StrMap (MucoVariableInfo R))
    (as : List (ScalarActuator R)) (hm : ∀ e ∈ m, e.2.name = e.1) :
    ∀ e ∈ addActuatorInfos m as, e.2.name = e.1 := by
  induction as generalizing m with
  | nil => exact hm
  | cons a rest ih =>
    apply ih
    intro e he
    unfold addActuatorInfo at he
    simp only at he
    split_ifs at he
    · rcases mem_assign _ _ _ e he with h | h
      · exact hm e h
      · rw [h]
    · exact hm e he

theorem lookup_spec {V : Type} (m : StrMap V) (name : String) (msg : Exception) :
    ((∃ e, (if m.count name = 0 then Except.error msg else StrMap.atKey m name) =
        Except.error e) ↔ name ∉ StrMap.keys m) ∧
    (∀ e, (if m.count name = 0 then Except.error msg else StrMap.atKey m name) =
        Except.error e → e = msg) ∧
    (∀ v, (if m.count name = 0 then Except.error msg else StrMap.atKey m name) =
        Except.ok v → (name, v) ∈ m) := by
  by_cases hk : name ∈ StrMap.keys m
  · obtain ⟨w, hw⟩ := (StrMap.find_isSome_iff m name).2 hk
    have hc : ¬ m.count name = 0 := fun h0 => (StrMap.count_eq_zero_iff m name).1 h0 hk
    have hval : (if m.count name = 0 then Except.error msg else StrMap.atKey m name) =
        Except.ok w := by
      rw [if_neg hc]
      unfold StrMap.atKey
      rw [hw]
    rw [hval]
    refine ⟨⟨fun ⟨e, he⟩ => (by cases he), fun hn => absurd hk hn⟩,
      fun e he => (by cases he), fun v hv => ?_⟩
    simp only [Except.ok.injEq] at hv
    rw [← hv]
    exact find_mem m name w hw
  · have hc : m.count name = 0 := (StrMap.count_eq_zero_iff m name).2 hk
    rw [if_pos hc]
    exact ⟨⟨fun _ => hk, fun _ => ⟨msg, rfl⟩⟩, fun e he => (Except.error.inj he).symm,
      fun v hv => (by cases hv)⟩

theorem firstNamed_some {α : Type} (getName : α → String) (l : List α) (name : String) (x : α)
    (h : firstNamed getName l name = some x) : x ∈ l ∧ getName x = name := by
  induction l with
  | nil => simp [firstNamed] at h
  | cons y ys ih =>
    by_cases hy : getName y = name
    · simp only [firstNamed, hy, if_true, Option.some.injEq] at h
      rw [← h]
      exact ⟨List.mem_cons_self _ _, hy⟩
    · simp only [firstNamed, hy, if_false] at h
      exact ⟨List.mem_cons_of_mem _ (ih h).1, (ih h).2⟩

theorem firstNamed_none_iff {α : Type} (getName : α → String) (l : List α) (name : String) :
    firstNamed getName l name = none ↔ ∀ x ∈ l, getName x ≠ name := by
  induction l with
  | nil => simp [firstNamed]
  | cons y ys ih =>
    by_cases hy : getName y = name
    · simp [firstNamed, hy]
    · simp [firstNamed, hy, ih]

theorem search_spec {α : Type} (getName : α → String) (l : List α) (name : String)
    (msg : Exception) (r : Except Exception α)
    (hsome : ∀ x, firstNamed getName l name = some x → r = .ok x)
    (hnone : firstNamed getName l name = none → r = .error msg) :
    ((∃ e, r = Except.error e) ↔ ∀ x ∈ l, getName x ≠ name) ∧
    (∀ e, r = Except.error e → e = msg) ∧
    (∀ x, r = Except.ok x → x ∈ l ∧ getName x = name) := by
  cases hf : firstNamed getName l name with
  | none =>
    rw [hnone hf]
    exact ⟨⟨fun _ => (firstNamed_none_iff getName l name).1 hf, fun _ => ⟨msg, rfl⟩⟩,
      fun e he => (Except.error.inj he).symm, fun x hx => (by cases hx)⟩
  | some y =>
    have hy := firstNamed_some getName l name y hf
    rw [hsome y hf]
    refine ⟨⟨fun ⟨e, he⟩ => (by cases he), fun hall => absurd hy.2 (hall y hy.1)⟩,
      fun e he => (by cases he), fun x hx => ?_⟩
    simp only [Except.ok.injEq] at hx
    rw [← hx]
    exact hy

theorem getMultiplierInfos_spec (rep : MucoProblemRep R) (name : String) :
    ((∃ e, MucoProblemRep.getMultiplierInfos rep name = .error e) ↔
      name ∉ StrMap.keys rep.m_multiplier_infos_map) ∧
    (∀ e, MucoProblemRep.getMultiplierInfos rep name = .error e →
      e.msg = "No variable infos for multibody constraint info with name '" ++ name ++
        "' found.") ∧
    (∀ infos, MucoProblemRep.getMultiplierInfos rep name = .ok infos →
      (name, infos) ∈ rep.m_multiplier_infos_map) := by
  unfold MucoProblemRep.getMultiplierInfos
  by_cases hk : name ∈ StrMap.keys rep.m_multiplier_infos_map
  · obtain ⟨w, hw⟩ := (StrMap.find_isSome_iff _ name).2 hk
    simp only [hw, StrMap.atKey]
    refine ⟨⟨fun ⟨e, he⟩ => (by cases he), fun hn => absurd hk hn⟩,
      fun e he => (by cases he), fun v hv => ?_⟩
    simp only [Except.ok.injEq] at hv
    rw [← hv]
    exact find_mem _ name w hw
  · rw [(StrMap.find_eq_none_iff _ name).2 hk]
    refine ⟨⟨fun _ => hk, fun _ => ⟨_, rfl⟩⟩, fun e he => ?_, fun v hv => (by cases hv)⟩
    rw [← Except.error.inj he]

theorem populate_infos_named (infoName : Nat → Nat → Nat → Nat → String)
    (problem : MucoProblem R) :
    (∀ e ∈ (populate infoName (MucoProblemRep.fresh problem)).m_state_infos,
      e.2.name = e.1) ∧
    (∀ e ∈ (populate infoName (MucoProblemRep.fresh problem)).m_control_infos,
      e.2.name = e.1) := by
  rw [populate_state_infos, populate_control_infos]
  constructor
  · apply named_addCoordinateInfos
    apply named_recordInfos
    intro e he
    cases he
  · apply named_addActuatorInfos
    apply named_recordInfos
    intro e he
    cases he

/-- C15: on a constructed report, each lookup by name fails, with a message quoting the
name, if and only if nothing is registered under that name, and otherwise returns a
registered entity of that name: the info registered under the name for `getStateInfo` and
`getControlInfo`, the first parameter, path constraint or multibody constraint of that
name for `getParameter`, `getPathConstraint` and `getMultibodyConstraint`, and the list
registered under the name for `getMultiplierInfos`. -/
theorem C15_lookup_by_name (infoName : Nat → Nat → Nat → Nat → String)
    (problem : MucoProblem R) (rep : MucoProblemRep R)
    (h : MucoProblemRep.create infoName problem = .ok rep) (name : String) :
    (((∃ e, rep.getStateInfo name = .error e) ↔ name ∉ StrMap.keys rep.m_state_infos) ∧
      (∀ e, rep.getStateInfo name = .error e →
        e.msg = "No info available for state '" ++ name ++ "'.") ∧
      (∀ info, rep.getStateInfo name = .ok info →
        (name, info) ∈ rep.m_state_infos ∧ info.name = name)) ∧
    (((∃ e, rep.getControlInfo name = .error e) ↔ name ∉ StrMap.keys rep.m_control_infos) ∧
      (∀ e, rep.getControlInfo name = .error e →
        e.msg = "No info available for control '" ++ name ++ "'.") ∧
      (∀ info, rep.getControlInfo name = .ok info →
        (name, info) ∈ rep.m_control_infos ∧ info.name = name)) ∧
    (((∃ e, rep.getParameter name = .error e) ↔ ∀ p ∈ rep.m_parameters, p.name ≠ name) ∧
      (∀ e, rep.getParameter name = .error e →
        e.msg = "No parameter with name '" ++ name ++ "' found.") ∧
      (∀ p, rep.getParameter name = .ok p → p ∈ rep.m_parameters ∧ p.name = name)) ∧
    (((∃ e, rep.getPathConstraint name = .error e) ↔
        ∀ pc ∈ rep.m_path_constraints, pc.name ≠ name) ∧
      (∀ e, rep.getPathConstraint name = .error e →
        e.msg = "No path constraint with name '" ++ name ++ "' found.") ∧
      (∀ pc, rep.getPathConstraint name = .ok pc →
        pc ∈ rep.m_path_constraints ∧ pc.name = name)) ∧
    (((∃ e, rep.getMultibodyConstraint name = .error e) ↔
        ∀ mc ∈ rep.m_multibody_constraints, mc.getConstraintInfo.name ≠ name) ∧
      (∀ e, rep.getMultibodyConstraint name = .error e →
        e.msg = "No multibody constraint with name '" ++ name ++ "' found.") ∧
      (∀ mc, rep.getMultibodyConstraint name = .ok mc →
        mc ∈ rep.m_multibody_constraints ∧ mc.getConstraintInfo.name = name)) ∧
    (((∃ e, rep.getMultiplierInfos name = .error e) ↔
        name ∉ StrMap.keys rep.m_multiplier_infos_map) ∧
      (∀ e, rep.getMultiplierInfos name = .error e →
        e.msg = "No variable infos for multibody constraint info with name '" ++ name ++
          "' found.") ∧
      (∀ infos, rep.getMultiplierInfos name = .ok infos →
        (name, infos) ∈ rep.m_multiplier_infos_map)) := by
  obtain ⟨_, hrep⟩ := (create_eq_ok_iff infoName problem rep).1 h
  subst hrep
  obtain ⟨hsn, hcn⟩ := populate_infos_named infoName problem
  refine ⟨?_, ?_, ?_, ?_, ?_, getMultiplierInfos_spec _ name⟩
  · obtain ⟨h1, h2, h3⟩ := lookup_spec
      (populate infoName (MucoProblemRep.fresh problem)).m_state_infos name
      ⟨"No info available for state '" ++ name ++ "'."⟩
    exact ⟨h1, fun e he => by rw [h2 e he], fun v hv => ⟨h3 v hv, hsn _ (h3 v hv)⟩⟩
  · obtain ⟨h1, h2, h3⟩ := lookup_spec
      (populate infoName (MucoProblemRep.fresh problem)).m_control_infos name
      ⟨"No info available for control '" ++ name ++ "'."⟩
    exact ⟨h1, fun e he => by rw [h2 e he], fun v hv => ⟨h3 v hv, hcn _ (h3 v hv)⟩⟩
  · obtain ⟨h1, h2, h3⟩ := search_spec MucoParameter.name
      (populate infoName (MucoProblemRep.fresh problem)).m_parameters name
      ⟨"No parameter with name '" ++ name ++ "' found."⟩
      ((populate infoName (MucoProblemRep.fresh problem)).getParameter name)
      (fun x hx => by unfold MucoProblemRep.getParameter; rw [hx])
      (fun hx => by unfold MucoProblemRep.getParameter; rw [hx])
    exact ⟨h1, fun e he => by rw [h2 e he], h3⟩
  · obtain ⟨h1, h2, h3⟩ := search_spec MucoPathConstraint.name
      (populate infoName (MucoProblemRep.fresh problem)).m_path_constraints name
      ⟨"No path constraint with name '" ++ name ++ "' found."⟩
      ((populate infoName (MucoProblemRep.fresh problem)).getPathConstraint name)
      (fun x hx => by unfold MucoProblemRep.getPathConstraint; rw [hx])
      (fun hx => by unfold MucoProblemRep.getPathConstraint; rw [hx])
    exact ⟨h1, fun e he => by rw [h2 e he], h3⟩
  · obtain ⟨h1, h2, h3⟩ := search_spec
      (fun mc : MucoMultibodyConstraint R => mc.getConstraintInfo.name)
      (populate infoName (MucoProblemRep.fresh problem)).m_multibody_constraints name
      ⟨"No multibody constraint with name '" ++ name ++ "' found."⟩
      ((populate infoName (MucoProblemRep.fresh problem)).getMultibodyConstraint name)
      (fun x hx => by unfold MucoProblemRep.getMultibodyConstraint; rw [hx])
      (fun hx => by unfold MucoProblemRep.getMultibodyConstraint; rw [hx])
    exact ⟨h1, fun e he => by rw [h2 e he], h3⟩

/-- C15 at the sample problem: `getControlInfo("/no/such/actuator")` fails, and
`getControlInfo("tau0")` returns the info named `tau0`. -/
theorem C15_lookup_by_name_witness :
    ∃ rep, MucoProblemRep.create sampleInfoName sampleProblem = .ok rep ∧
      rep.getControlInfo "/no/such/actuator" =
        .error ⟨"No info available for control '/no/such/actuator'."⟩ ∧
      (∃ e, rep.getControlInfo "/no/such/actuator" = .error e) ∧
      ∃ info, rep.getControlInfo "tau0" = .ok info ∧ info.name = "tau0" :=
  ⟨populate sampleInfoName (MucoProblemRep.fresh sampleProblem), rfl, rfl,
    ((C15_lookup_by_name sampleInfoName sampleProblem _ rfl "/no/such/actuator").2.1.1).2
      (by decide),
    ⟨⟨"tau0", MucoBounds.range (-1) 1, ⟨none, none⟩, ⟨none, none⟩⟩, rfl,
      (((C15_lookup_by_name sampleInfoName sampleProblem _ rfl "tau0").2.1.2.2) _ rfl).2⟩⟩

/-! ## Name lists -/

theorem set_append_length (pre suf : List String) (x name : String) :
    (pre ++ x :: suf).set pre.length name = pre ++ name :: suf := by
  induction pre with
  | nil => rfl
  | cons y ys ih => simp [ih]

theorem fillNames_append (src : List String) : ∀ (pre suf : List String),
    src.length ≤ suf.length →
    fillNames (pre ++ suf) src pre.length = pre ++ src ++ suf.drop src.length := by
  induction src with
  | nil =>
    intro pre suf _
    simp [fillNames]
  | cons name rest ih =>
    intro pre suf hlen
    cases suf with
    | nil => simp at hlen
    | cons x suf' =>
      simp only [List.length_cons, Nat.add_le_add_iff_right] at hlen
      simp only [fillNames, set_append_length]
      have := ih (pre ++ [name]) suf' hlen
      simp only [List.length_append, List.length_singleton, List.append_assoc,
        List.singleton_append] at this
      simp only [this, List.length_cons, List.drop_succ_cons, List.append_assoc,
        List.cons_append]

theorem fillNames_replicate (src : List String) (n : Nat) (h : src.length = n) :
    fillNames (List.replicate n "") src 0 = src := by
  have := fillNames_append src [] (List.replicate n "") (by simp [h])
  simp only [List.nil_append, List.length_nil] at this
  rw [this, ← h]
  simp

theorem createParameterNames_eq (rep : MucoProblemRep R) :
    rep.createParameterNames = rep.m_parameters.map MucoParameter.name := by
  unfold MucoProblemRep.createParameterNames
  exact fillNames_replicate _ _ (by simp)

theorem createPathConstraintNames_eq (rep : MucoProblemRep R) :
    rep.createPathConstraintNames = rep.m_path_constraints.map MucoPathConstraint.name := by
  unfold MucoProblemRep.createPathConstraintNames
  exact fillNames_replicate _ _ (by simp)

theorem createMultibodyConstraintNames_eq (rep : MucoProblemRep R) :
    rep.createMultibodyConstraintNames =
      rep.m_multibody_constraints.map (fun mc => mc.getConstraintInfo.name) := by
  unfold MucoProblemRep.createMultibodyConstraintNames
  exact fillNames_replicate _ _ (by simp)

theorem createStateInfoNames_eq
    (iterate : StrMap (MucoVariableInfo R) → List (String × MucoVariableInfo R))
    (rep : MucoProblemRep R) (h : (iterate rep.m_state_infos).Perm rep.m_state_infos) :
    rep.createStateInfoNames iterate = (iterate rep.m_state_infos).map Prod.fst := by
  unfold MucoProblemRep.createStateInfoNames
  exact fillNames_replicate _ _ (by simp [h.length_eq])

theorem createControlInfoNames_eq
    (iterate : StrMap (MucoVariableInfo R) → List (String × MucoVariableInfo R))
    (rep : MucoProblemRep R) (h : (iterate rep.m_control_infos).Perm rep.m_control_infos) :
    rep.createControlInfoNames iterate = (iterate rep.m_control_infos).map Prod.fst := by
  unfold MucoProblemRep.createControlInfoNames
  exact fillNames_replicate _ _ (by simp [h.length_eq])

theorem names_of_perm {V : Type} (m it : StrMap V) (h : it.Perm m)
    (hnd : (StrMap.keys m).Nodup) :
    (it.map Prod.fst).length = m.length ∧
    (∀ name, name ∈ it.map Prod.fst ↔ name ∈ StrMap.keys m) ∧
    (it.map Prod.fst).Nodup ∧ (it.map Prod.fst).Perm (StrMap.keys m) := by
  have hp : (it.map Prod.fst).Perm (StrMap.keys m) := h.map Prod.fst
  refine ⟨?_, fun name => hp.mem_iff, hp.nodup_iff.2 hnd, hp⟩
  rw [List.length_map, h.length_eq]

theorem map_name_bindPathConstraints (pcs : List MucoPathConstraint) (start : Int) :
    (bindPathConstraints pcs start).map MucoPathConstraint.name =
      pcs.map MucoPathConstraint.name := by
  induction pcs generalizing start with
  | nil => rfl
  | cons pc rest ih => simp [bindPathConstraints, MucoPathConstraint.initialize, ih]

theorem populate_keys_nodup (infoName : Nat → Nat → Nat → Nat → String)
    (problem : MucoProblem R) :
    (StrMap.keys (populate infoName (MucoProblemRep.fresh problem)).m_state_infos).Nodup ∧
    (StrMap.keys (populate infoName (MucoProblemRep.fresh problem)).m_control_infos).Nodup := by
  rw [populate_state_infos, populate_control_infos]
  constructor
  · apply nodup_keys_addCoordinateInfos
    apply nodup_keys_recordInfos
    exact List.nodup_nil
  · apply nodup_keys_addActuatorInfos
    apply nodup_keys_recordInfos
    exact List.nodup_nil

/-- C16: on a constructed report, `createStateInfoNames` and `createControlInfoNames`
return, whatever the order in which the map is iterated, a list as long as the registry
that holds every registered name and no name twice; `createParameterNames`,
`createPathConstraintNames` and `createMultibodyConstraintNames` return the names of the
registered entities, one per entity, in registration order. -/
theorem C16_name_lists (infoName : Nat → Nat → Nat → Nat → String)
    (problem : MucoProblem R) (rep : MucoProblemRep R)
    (h : MucoProblemRep.create infoName problem = .ok rep)
    (iterate : StrMap (MucoVariableInfo R) → List (String × MucoVariableInfo R))
    (hiter : ∀ m, (iterate m).Perm m) :
    ((rep.createStateInfoNames iterate).length = rep.m_state_infos.length ∧
      (∀ name, name ∈ rep.createStateInfoNames iterate ↔
        name ∈ StrMap.keys rep.m_state_infos) ∧
      (rep.createStateInfoNames iterate).Nodup ∧
      (rep.createStateInfoNames iterate).Perm (StrMap.keys rep.m_state_infos)) ∧
    ((rep.createControlInfoNames iterate).length = rep.m_control_infos.length ∧
      (∀ name, name ∈ rep.createControlInfoNames iterate ↔
        name ∈ StrMap.keys rep.m_control_infos) ∧
      (rep.createControlInfoNames iterate).Nodup ∧
      (rep.createControlInfoNames iterate).Perm (StrMap.keys rep.m_control_infos)) ∧
    (rep.createParameterNames = rep.m_parameters.map MucoParameter.name ∧
      rep.createParameterNames = problem.phase0.parameters.map MucoParameter.name) ∧
    (rep.createPathConstraintNames = rep.m_path_constraints.map MucoPathConstraint.name ∧
      rep.createPathConstraintNames =
        problem.phase0.path_constraints.map MucoPathConstraint.name) ∧
    (rep.createMultibodyConstraintNames =
        rep.m_multibody_constraints.map (fun mc => mc.getConstraintInfo.name) ∧
      rep.createMultibodyConstraintNames =
        (enabledFrom problem.phase0.model.constraints 0).map
          (fun p => infoName p.1 p.2.mp p.2.mv p.2.ma)) := by
  obtain ⟨_, hrep⟩ := (create_eq_ok_iff infoName problem rep).1 h
  have hs : (StrMap.keys rep.m_state_infos).Nodup := by
    rw [hrep]
    exact (populate_keys_nodup infoName problem).1
  have hc : (StrMap.keys rep.m_control_infos).Nodup := by
    rw [hrep]
    exact (populate_keys_nodup infoName problem).2
  refine ⟨?_, ?_, ?_, ?_, ?_⟩
  · rw [createStateInfoNames_eq iterate rep (hiter _)]
    exact names_of_perm _ _ (hiter _) hs
  · rw [createControlInfoNames_eq iterate rep (hiter _)]
    exact names_of_perm _ _ (hiter _) hc
  · refine ⟨createParameterNames_eq rep, ?_⟩
    rw [createParameterNames_eq, hrep, populate_parameters, List.map_map]
    rfl
  · refine ⟨createPathConstraintNames_eq rep, ?_⟩
    rw [createPathConstraintNames_eq, hrep, populate_path_constraints infoName problem,
      map_name_bindPathConstraints]
  · refine ⟨createMultibodyConstraintNames_eq rep, ?_⟩
    rw [createMultibodyConstraintNames_eq, hrep, (populate_multibody infoName problem).2.1,
      List.map_map]
    rfl

/-- C16 at the sample problem, the maps being iterated in reverse order of insertion:
four state names, two control names, each once, and the parameter, path-constraint and
multibody-constraint names in registration order. -/
theorem C16_name_lists_witness :
    ∃ rep, MucoProblemRep.create sampleInfoName sampleProblem = .ok rep ∧
      (rep.createStateInfoNames List.reverse).length = 4 ∧
      (rep.createStateInfoNames List.reverse).Nodup ∧
      rep.createPathConstraintNames = ["pc0", "pc1"] ∧
      rep.createMultibodyConstraintNames = ["constraint0", "constraint2"] :=
  ⟨populate sampleInfoName (MucoProblemRep.fresh sampleProblem), rfl,
    (C16_name_lists sampleInfoName sampleProblem _ rfl List.reverse
      (fun m => List.reverse_perm m)).1.1.trans (by decide),
    (C16_name_lists sampleInfoName sampleProblem _ rfl List.reverse
      (fun m => List.reverse_perm m)).1.2.2.1,
    (C16_name_lists sampleInfoName sampleProblem _ rfl List.reverse
      (fun m => List.reverse_perm m)).2.2.2.1.2.trans (by decide),
    (C16_name_lists sampleInfoName sampleProblem _ rfl List.reverse
      (fun m => List.reverse_perm m)).2.2.2.2.2.trans (by decide)⟩

/-! ## Running `initialize` again -/

theorem strmap_ext {V : Type} : ∀ (m₁ m₂ : StrMap V), StrMap.keys m₁ = StrMap.keys m₂ →
    (StrMap.keys m₁).Nodup → (∀ k, StrMap.find m₁ k = StrMap.find m₂ k) → m₁ = m₂ := by
  intro m₁
  induction m₁ with
  | nil =>
    intro m₂ hk _ _
    cases m₂ with
    | nil => rfl
    | cons e t => simp [StrMap.keys] at hk
  | cons e t ih =>
    intro m₂ hk hnd hf
    cases m₂ with
    | nil => simp [StrMap.keys] at hk
    | cons e' t' =>
      obtain ⟨k, v⟩ := e
      obtain ⟨k', v'⟩ := e'
      simp only [StrMap.keys, List.map_cons, List.cons.injEq] at hk
      obtain ⟨hkk, hkt⟩ := hk
      subst hkk
      have hv : v = v' := by
        have := hf k
        simpa [StrMap.find] using this
      subst hv
      simp only [StrMap.keys, List.map_cons, List.nodup_cons] at hnd
      have htail : t = t' := by
        apply ih t' hkt hnd.2
        intro x
        by_cases hx : k = x
        · subst hx
          have h1 : StrMap.find t k = none := (StrMap.find_eq_none_iff t k).2 hnd.1
          have h2 : StrMap.find t' k = none :=
            (StrMap.find_eq_none_iff t' k).2 (by
              have hk' : StrMap.keys t' = List.map Prod.fst t := hkt.symm
              rw [hk']
              exact hnd.1)
          rw [h1, h2]
        · have := hf x
          simpa [StrMap.find, hx] using this
      rw [htail]

theorem keys_recordInfos_of_present (m : StrMap (MucoVariableInfo R))
    (infos : List (MucoVariableInfo R)) (h : ∀ info ∈ infos, info.name ∈ StrMap.keys m) :
    StrMap.keys (recordInfos m infos) = StrMap.keys m := by
  induction infos generalizing m with
  | nil => rfl
  | cons info rest ih =>
    simp only [recordInfos]
    have hk := StrMap.keys_assign_of_mem m info.name info (h info (List.mem_cons_self _ _))
    rw [ih, hk]
    intro i hi
    rw [hk]
    exact h i (List.mem_cons_of_mem _ hi)

theorem exists_last_declared (infos : List (MucoVariableInfo R)) (k : String)
    (h : ∃ info ∈ infos, info.name = k) :
    ∃ l₁ info l₂, infos = l₁ ++ info :: l₂ ∧ info.name = k ∧ ∀ i ∈ l₂, i.name ≠ k := by
  induction infos with
  | nil =>
    obtain ⟨info, hi, _⟩ := h
    cases hi
  | cons x rest ih =>
    by_cases hrest : ∃ info ∈ rest, info.name = k
    · obtain ⟨l₁, info, l₂, hsplit, hname, hlast⟩ := ih hrest
      exact ⟨x :: l₁, info, l₂, by rw [hsplit]; rfl, hname, hlast⟩
    · obtain ⟨info, hi, hname⟩ := h
      rcases List.mem_cons.1 hi with hx | hx
      · refine ⟨[], x, rest, rfl, by rw [← hx]; exact hname, ?_⟩
        intro i hi' hik
        exact hrest ⟨i, hi', hik⟩
      · exact absurd ⟨info, hx, hname⟩ hrest

theorem recordInfos_again (m : StrMap (MucoVariableInfo R)) (infos : List (MucoVariableInfo R))
    (hnd : (StrMap.keys m).Nodup)
    (hlast : ∀ l₁ info l₂, infos = l₁ ++ info :: l₂ → (∀ i ∈ l₂, i.name ≠ info.name) →
      StrMap.find m info.name = some info) :
    recordInfos m infos = m := by
  have hpresent : ∀ info ∈ infos, info.name ∈ StrMap.keys m := by
    intro info hi
    obtain ⟨l₁, i, l₂, hsplit, hname, hl⟩ := exists_last_declared infos info.name ⟨info, hi, rfl⟩
    rw [← hname]
    exact (StrMap.find_isSome_iff m i.name).1
      ⟨i, hlast l₁ i l₂ hsplit (fun j hj => by rw [hname]; exact hl j hj)⟩
  have hkeys := keys_recordInfos_of_present m infos hpresent
  apply strmap_ext _ _ hkeys (by rw [hkeys]; exact hnd)
  intro k
  by_cases hk : ∃ info ∈ infos, info.name = k
  · obtain ⟨l₁, i, l₂, hsplit, hname, hl⟩ := exists_last_declared infos k hk
    have hl' : ∀ j ∈ l₂, j.name ≠ i.name := fun j hj => by rw [hname]; exact hl j hj
    rw [← hname, hlast l₁ i l₂ hsplit hl', hsplit]
    exact find_recordInfos_last m l₁ l₂ i hl'
  · apply find_recordInfos_of_not_declared
    intro info hi hname
    exact hk ⟨info, hi, hname⟩

theorem addCoordinateInfos_of_present (b : MucoBounds R) (m : StrMap (MucoVariableInfo R))
    (cs : List (Coordinate R))
    (h : ∀ c ∈ cs, c.path ++ "/value" ∈ StrMap.keys m ∧ c.path ++ "/speed" ∈ StrMap.keys m) :
    addCoordinateInfos b m cs = m := by
  induction cs with
  | nil => rfl
  | cons c rest ih =>
    obtain ⟨hv, hs⟩ := h c (List.mem_cons_self _ _)
    have hstep : addCoordinateInfo b m c = m := by
      unfold addCoordinateInfo
      simp only
      rw [if_neg (fun h0 => (StrMap.count_eq_zero_iff _ _).1 h0 hv),
        if_neg (fun h0 => (StrMap.count_eq_zero_iff _ _).1 h0 hs)]
    simp only [addCoordinateInfos, hstep]
    exact ih (fun c' hc' => h c' (List.mem_cons_of_mem _ hc'))

theorem addActuatorInfos_of_present (m : StrMap (MucoVariableInfo R))
    (as : List (ScalarActuator R)) (h : ∀ a ∈ as, a.path ∈ StrMap.keys m) :
    addActuatorInfos m as = m := by
  induction as with
  | nil => rfl
  | cons a rest ih =>
    have hstep : addActuatorInfo m a = m := by
      unfold addActuatorInfo
      simp only
      rw [if_neg (fun h0 => (StrMap.count_eq_zero_iff _ _).1 h0 (h a (List.mem_cons_self _ _)))]
    simp only [addActuatorInfos, hstep]
    exact ih (fun a' ha' => h a' (List.mem_cons_of_mem _ ha'))

theorem state_registry_again (b : MucoBounds R) (infos : List (MucoVariableInfo R))
    (cs : List (Coordinate R)) :
    addCoordinateInfos b
        (recordInfos (addCoordinateInfos b (recordInfos [] infos) cs) infos) cs =
      addCoordinateInfos b (recordInfos [] infos) cs := by
  have hnd : (StrMap.keys (addCoordinateInfos b (recordInfos [] infos) cs)).Nodup := by
    apply nodup_keys_addCoordinateInfos
    apply nodup_keys_recordInfos
    exact List.nodup_nil
  rw [recordInfos_again _ infos hnd]
  · apply addCoordinateInfos_of_present
    intro c hc
    constructor
    · rw [mem_keys_addCoordinateInfos]
      exact Or.inr ⟨c, hc, Or.inl rfl⟩
    · rw [mem_keys_addCoordinateInfos]
      exact Or.inr ⟨c, hc, Or.inr rfl⟩
  · intro l₁ info l₂ hsplit hl
    apply find_addCoordinateInfos_of_find
    rw [hsplit]
    exact find_recordInfos_last _ _ _ _ hl

theorem control_registry_again (infos : List (MucoVariableInfo R))
    (as : List (ScalarActuator R)) :
    addActuatorInfos (recordInfos (addActuatorInfos (recordInfos [] infos) as) infos) as =
      addActuatorInfos (recordInfos [] infos) as := by
  have hnd : (StrMap.keys (addActuatorInfos (recordInfos [] infos) as)).Nodup := by
    apply nodup_keys_addActuatorInfos
    apply nodup_keys_recordInfos
    exact List.nodup_nil
  rw [recordInfos_again _ infos hnd]
  · apply addActuatorInfos_of_present
    intro a ha
    rw [mem_keys_addActuatorInfos]
    exact Or.inr ⟨a, ha, rfl⟩
  · intro l₁ info l₂ hsplit hl
    apply find_addActuatorInfos_of_find
    rw [hsplit]
    exact find_recordInfos_last _ _ _ _ hl

/-- C17: reconciliation is idempotent on the variable registry. Constructing a report
again from the same problem gives the same state-info and control-info registries, and
running `initialize` again on a constructed report succeeds and leaves both registries as
they were, every name mapped to the same info. -/
theorem C17_reconciliation_idempotent (infoName : Nat → Nat → Nat → Nat → String)
    (problem : MucoProblem R) (rep : MucoProblemRep R)
    (h : MucoProblemRep.create infoName problem = .ok rep) :
    (∀ rep', MucoProblemRep.create infoName problem = .ok rep' →
      rep'.m_state_infos = rep.m_state_infos ∧ rep'.m_control_infos = rep.m_control_infos) ∧
    (∃ rep₂, MucoProblemRep.initialize infoName rep = .ok rep₂ ∧
      rep₂.m_state_infos = rep.m_state_infos ∧
      rep₂.m_control_infos = rep.m_control_infos ∧
      (∀ name, StrMap.find rep₂.m_state_infos name = StrMap.find rep.m_state_infos name) ∧
      (∀ name, StrMap.find rep₂.m_control_infos name =
        StrMap.find rep.m_control_infos name)) := by
  constructor
  · intro rep' h'
    rw [h] at h'
    simp only [Except.ok.injEq] at h'
    rw [h']
    exact ⟨rfl, rfl⟩
  · obtain ⟨hvalid, hrep⟩ := (create_eq_ok_iff infoName problem rep).1 h
    subst hrep
    have hs : (populate infoName (populate infoName (MucoProblemRep.fresh problem))).m_state_infos
        = (populate infoName (MucoProblemRep.fresh problem)).m_state_infos := by
      rw [populate_state_infos]
      exact state_registry_again _ _ _
    have hc : (populate infoName
        (populate infoName (MucoProblemRep.fresh problem))).m_control_infos
        = (populate infoName (MucoProblemRep.fresh problem)).m_control_infos := by
      rw [populate_control_infos]
      exact control_registry_again _ _
    refine ⟨populate infoName (populate infoName (MucoProblemRep.fresh problem)), ?_, hs, hc,
      fun name => by rw [hs], fun name => by rw [hc]⟩
    rw [initialize_eq_ok_iff]
    exact ⟨hvalid, rfl⟩

/-- C17 at the sample problem: running `initialize` again on the constructed report gives
the same state-info and control-info registries. -/
theorem C17_reconciliation_idempotent_witness :
    ∃ rep, MucoProblemRep.create sampleInfoName sampleProblem = .ok rep ∧
      ∃ rep₂, MucoProblemRep.initialize sampleInfoName rep = .ok rep₂ ∧
        rep₂.m_state_infos = rep.m_state_infos ∧
        rep₂.m_control_infos = rep.m_control_infos ∧
        (∀ name, StrMap.find rep₂.m_state_infos name = StrMap.find rep.m_state_infos name) ∧
        (∀ name, StrMap.find rep₂.m_control_infos name =
          StrMap.find rep.m_control_infos name) :=
  ⟨populate sampleInfoName (MucoProblemRep.fresh sampleProblem), rfl,
    (C17_reconciliation_idempotent sampleInfoName sampleProblem _ rfl).2⟩

/-! ## Failure of `initialize` -/

theorem initialize_eq_error_iff (infoName : Nat → Nat → Nat → Nat → String)
    (self : MucoProblemRep R) (e : Exception) :
    MucoProblemRep.initialize infoName self = .error e ↔
      validateInfos self.m_problem.phase0 = .error e := by
  unfold MucoProblemRep.initialize
  cases hv : validateInfos self.m_problem.phase0 with
  | error e' => simp
  | ok u => simp

theorem initializeMembers_of_ok (infoName : Nat → Nat → Nat → Nat → String)
    (self rep : MucoProblemRep R) (h : MucoProblemRep.initialize infoName self = .ok rep) :
    MucoProblemRep.initializeMembers infoName self = rep := by
  obtain ⟨hvalid, hrep⟩ := (initialize_eq_ok_iff infoName self rep).1 h
  unfold MucoProblemRep.initializeMembers
  simp only [hvalid, hrep]
  rfl

theorem initializeMembers_of_error (infoName : Nat → Nat → Nat → Nat → String)
    (self : MucoProblemRep R) (e : Exception)
    (h : MucoProblemRep.initialize infoName self = .error e) :
    MucoProblemRep.initializeMembers infoName self =
      { self with m_model := self.m_problem.phase0.model } := by
  unfold MucoProblemRep.initialize at h
  unfold MucoProblemRep.initializeMembers
  cases hv : validateInfos self.m_problem.phase0 with
  | error e' => simp only [hv]
  | ok u =>
    rw [hv] at h
    cases h

/-- C18: when `initialize` fails because a declared state or control name does not exist
in the model, it fails before anything is registered: at the exit the state infos,
control infos, parameters, costs, multibody constraints, multiplier infos, path
constraints and both equation totals are as they were before the call, hence all empty
in the constructor; when it succeeds, the members are those of the report. -/
theorem C18_no_partial_report (infoName : Nat → Nat → Nat → Nat → String)
    (self : MucoProblemRep R) (e : Exception)
    (h : MucoProblemRep.initialize infoName self = .error e) :
    ((∃ info ∈ self.m_problem.phase0.state_infos,
        info.name ∉ self.m_problem.phase0.model.stateVariableNames) ∨
     (∃ info ∈ self.m_problem.phase0.control_infos,
        info.name ∉
          self.m_problem.phase0.model.scalarActuators.map ScalarActuator.path)) ∧
    (MucoProblemRep.initializeMembers infoName self).m_state_infos = self.m_state_infos ∧
    (MucoProblemRep.initializeMembers infoName self).m_control_infos = self.m_control_infos ∧
    (MucoProblemRep.initializeMembers infoName self).m_parameters = self.m_parameters ∧
    (MucoProblemRep.initializeMembers infoName self).m_costs = self.m_costs ∧
    (MucoProblemRep.initializeMembers infoName self).m_multibody_constraints =
      self.m_multibody_constraints ∧
    (MucoProblemRep.initializeMembers infoName self).m_multiplier_infos_map =
      self.m_multiplier_infos_map ∧
    (MucoProblemRep.initializeMembers infoName self).m_path_constraints =
      self.m_path_constraints ∧
    (MucoProblemRep.initializeMembers infoName self).m_num_multibody_constraint_eqs =
      self.m_num_multibody_constraint_eqs ∧
    (MucoProblemRep.initializeMembers infoName self).m_num_path_constraint_eqs =
      self.m_num_path_constraint_eqs ∧
    (∀ problem, self = MucoProblemRep.fresh problem →
      MucoProblemRep.create infoName problem = .error e ∧
      (MucoProblemRep.initializeMembers infoName self).m_state_infos = [] ∧
      (MucoProblemRep.initializeMembers infoName self).m_control_infos = [] ∧
      (MucoProblemRep.initializeMembers infoName self).m_parameters = [] ∧
      (MucoProblemRep.initializeMembers infoName self).m_costs = [] ∧
      (MucoProblemRep.initializeMembers infoName self).m_multibody_constraints = [] ∧
      (MucoProblemRep.initializeMembers infoName self).m_multiplier_infos_map = [] ∧
      (MucoProblemRep.initializeMembers infoName self).m_path_constraints = []) ∧
    (∀ (self' rep : MucoProblemRep R), MucoProblemRep.initialize infoName self' = .ok rep →
      MucoProblemRep.initializeMembers infoName self' = rep) := by
  have hm := initializeMembers_of_error infoName self e h
  have hv : validateInfos self.m_problem.phase0 = .error e :=
    (initialize_eq_error_iff infoName self e).1 h
  refine ⟨?_, ?_, ?_, ?_, ?_, ?_, ?_, ?_, ?_, ?_, ?_, ?_⟩
  · rcases validateInfos_error _ e hv with ⟨info, hi, hn, _⟩ | ⟨info, hi, hn, _⟩
    · exact Or.inl ⟨info, hi, hn⟩
    · exact Or.inr ⟨info, hi, hn⟩
  all_goals try (rw [hm])
  · intro problem hself
    subst hself
    exact ⟨h, rfl, rfl, rfl, rfl, rfl, rfl, rfl⟩
  · intro self' rep hok
    exact initializeMembers_of_ok infoName self' rep hok

/-- C18 at the sample problem with a state info declared for the absent state
`nope/value`: construction fails with nothing registered. -/
theorem C18_no_partial_report_witness :
    MucoProblemRep.create sampleInfoName badStateProblem =
        .error ⟨"State info provided for nonexistent state 'nope/value'."⟩ ∧
      (MucoProblemRep.initializeMembers sampleInfoName
        (MucoProblemRep.fresh badStateProblem)).m_state_infos = [] ∧
      (MucoProblemRep.initializeMembers sampleInfoName
        (MucoProblemRep.fresh badStateProblem)).m_control_infos = [] ∧
      (MucoProblemRep.initializeMembers sampleInfoName
        (MucoProblemRep.fresh badStateProblem)).m_parameters = [] :=
  ⟨rfl,
    (C18_no_partial_report sampleInfoName (MucoProblemRep.fresh badStateProblem)
      ⟨"State info provided for nonexistent state 'nope/value'."⟩ rfl).2.1,
    (C18_no_partial_report sampleInfoName (MucoProblemRep.fresh badStateProblem)
      ⟨"State info provided for nonexistent state 'nope/value'."⟩ rfl).2.2.1,
    (C18_no_partial_report sampleInfoName (MucoProblemRep.fresh badStateProblem)
      ⟨"State info provided for nonexistent state 'nope/value'."⟩ rfl).2.2.2.1⟩

/-! ## `MocoGoal::calcGoal` and `MocoGoal::getNumIntegrals` -/

theorem calcGoal_enabled {S : Type} [Zero R] [Mul R] (g : MocoGoal S R)
    (input : GoalInput S R) (henabled : g.enabled = true) :
    (g.calcGoal input).1 =
      match g.getApplyAsEndpointConstraint with
      | .error e => .error e
      | .ok endpoint_constraint =>
        if endpoint_constraint then
          .ok (g.calcGoalImpl input (List.replicate g.getNumOutputsImpl.toNat 0))
        else
          .ok ((g.calcGoalImpl input (List.replicate g.getNumOutputsImpl.toNat 0)).map
            (fun x => x * g.weight)) := by
  have hsame : (g.setNumEquations g.getNumOutputsImpl).getApplyAsEndpointConstraint =
      g.getApplyAsEndpointConstraint := rfl
  unfold MocoGoal.calcGoal MocoGoal.getNumOutputs
  simp only [hsame]
  have hen : (g.setNumEquations g.getNumOutputsImpl).enabled = true := henabled
  simp only [hen, Bool.not_true, Bool.false_eq_true, if_false]
  cases hcase : g.getApplyAsEndpointConstraint with
  | error e => rfl
  | ok ec =>
    cases ec with
    | true => rfl
    | false => rfl

/-- C19, as amended: for an enabled goal that is not applied as an endpoint constraint,
`calcGoal` returns the values computed by `calcGoalImpl`, each multiplied by the weight;
for an enabled goal applied as an endpoint constraint it returns the values of
`calcGoalImpl` as they are, without the weight; and when the endpoint-constraint mode is
asked of a goal that does not support it, `calcGoal` raises. -/
theorem C19_calcGoal_weight {S : Type} [Zero R] [Mul R] (g : MocoGoal S R)
    (input : GoalInput S R) (henabled : g.enabled = true) :
    (g.getApplyAsEndpointConstraint = .ok false →
      (g.calcGoal input).1 =
        .ok ((g.calcGoalImpl input (List.replicate g.getNumOutputsImpl.toNat 0)).map
          (fun x => x * g.weight)) ∧
      ((∀ a b : R, a * b = b * a) →
        (g.calcGoal input).1 =
          .ok ((g.calcGoalImpl input (List.replicate g.getNumOutputsImpl.toNat 0)).map
            (fun x => g.weight * x)))) ∧
    (g.getApplyAsEndpointConstraint = .ok true →
      (g.calcGoal input).1 =
        .ok (g.calcGoalImpl input (List.replicate g.getNumOutputsImpl.toNat 0))) ∧
    (∀ e, g.getApplyAsEndpointConstraint = .error e → (g.calcGoal input).1 = .error e) ∧
    (g.getApplyAsEndpointConstraint = .ok false ↔
      (match g.apply_as_endpoint_constraint with
        | none => g.getDefaultEndpointConstraintImpl
        | some b => b) = false) := by
  have hcalc := calcGoal_enabled g input henabled
  refine ⟨?_, ?_, ?_, ?_⟩
  · intro hmode
    rw [hmode] at hcalc
    simp only [Bool.false_eq_true, if_false] at hcalc
    refine ⟨hcalc, fun hcomm => ?_⟩
    rw [hcalc]
    congr 1
    apply List.map_congr_left
    intro x _
    exact hcomm x g.weight
  · intro hmode
    rw [hmode] at hcalc
    simpa using hcalc
  · intro e hmode
    rw [hmode] at hcalc
    exact hcalc
  · unfold MocoGoal.getApplyAsEndpointConstraint MocoGoal.getDefaultEndpointConstraint
      MocoGoal.getSupportsEndpointConstraint
    cases g.apply_as_endpoint_constraint with
    | none =>
      cases g.getDefaultEndpointConstraintImpl <;>
        cases g.getSupportsEndpointConstraintImpl <;> simp
    | some b =>
      cases b <;> cases g.getSupportsEndpointConstraintImpl <;> simp

/-- C19 at the final-time goal of weight 2, applied as a cost, with final time 5: the
value returned is 10. -/
theorem C19_calcGoal_weight_witness :
    (finalTimeGoal.calcGoal ⟨0, 5, 0⟩).1 = .ok [10] :=
  ((C19_calcGoal_weight finalTimeGoal ⟨0, 5, 0⟩ rfl).1 rfl).1.trans rfl

/-- C19 as stated fails: the enabled goal `endpointConstraintGoal` of weight 2, applied as
an endpoint constraint, returns the value 3 of `calcGoalImpl`, not 2 times 3. -/
theorem C19_calcGoal_weight_counterexample :
    ¬ ∀ (g : MocoGoal Unit Int) (input : GoalInput Unit Int), g.enabled = true →
      (g.calcGoal input).1 =
        .ok ((g.calcGoalImpl input (List.replicate g.getNumOutputsImpl.toNat 0)).map
          (fun x => g.weight * x)) := by
  intro hall
  have h := hall endpointConstraintGoal ⟨(), (), 0⟩ rfl
  have hval : (endpointConstraintGoal.calcGoal ⟨(), (), 0⟩).1 = .ok [3] := rfl
  rw [hval] at h
  injection h with h'
  exact absurd h' (by decide)

/-- C20: `getNumIntegrals` returns what `getNumIntegralsImpl` returns whenever that is
not negative: for the goal whose `getNumIntegralsImpl` returns 2 it returns 2 without
raising, a number that is neither 0 nor 1; for the final-time goal it returns 0. -/
theorem C20_getNumIntegrals_returns_two :
    twoIntegralsGoal.getNumIntegrals = .ok 2 ∧ (2 : Int) ≠ 0 ∧ (2 : Int) ≠ 1 ∧
      finalTimeGoal.getNumIntegrals = .ok 0 :=
  ⟨rfl, by decide, by decide, rfl⟩

/-! ## `filterLowpass` -/

theorem real64_lt_zero_iff [LinearOrder R] [Zero R] (a : Real64 R) :
    Real64.lt a (some 0) = true ↔ ∃ c, a = some c ∧ c < 0 := by
  cases a with
  | none => simp [Real64.lt]
  | some c => simp [Real64.lt]

/-- C21: `filterLowpass` raises if and only if `cutoffFreq < 0` (a comparison that is
false for NaN); it then raises before any conversion or filtering, with a message giving
the cutoff; a cutoff of exactly 0 passes the check, and a call that passes it converts,
pads if asked, filters and exports, in this order. -/
theorem C21_filterLowpass_cutoff {Table Sto : Type} [LinearOrder R] [Zero R]
    (formatG : Real64 R → String) (ops : StorageOps Table Sto R) (table : Table)
    (cutoffFreq : Real64 R) (padData : Bool) :
    ((∃ e, (filterLowpass formatG ops table cutoffFreq padData).1 = .error e) ↔
      Real64.lt cutoffFreq (some 0) = true) ∧
    (Real64.lt cutoffFreq (some 0) = true ↔ ∃ c, cutoffFreq = some c ∧ c < 0) ∧
    (∀ e, (filterLowpass formatG ops table cutoffFreq padData).1 = .error e →
      (filterLowpass formatG ops table cutoffFreq padData).2 = [] ∧
      e.msg = "Cutoff frequency must be non-negative; got " ++ formatG cutoffFreq ++ ".") ∧
    (∃ t, (filterLowpass formatG ops table (some 0) padData).1 = .ok t) ∧
    (∀ t, (filterLowpass formatG ops table cutoffFreq padData).1 = .ok t →
      (filterLowpass formatG ops table cutoffFreq padData).2 =
        if padData then
          [StorageCall.convertTableToStorage, StorageCall.pad, StorageCall.lowpassIIR,
            StorageCall.exportToTable]
        else
          [StorageCall.convertTableToStorage, StorageCall.lowpassIIR,
            StorageCall.exportToTable]) := by
  refine ⟨?_, real64_lt_zero_iff cutoffFreq, ?_, ?_, ?_⟩
  · unfold filterLowpass
    by_cases hlt : Real64.lt cutoffFreq (some 0) = true
    · simp [hlt]
    · simp [hlt]
  · intro e he
    unfold filterLowpass at he ⊢
    by_cases hlt : Real64.lt cutoffFreq (some 0) = true
    · simp only [hlt, if_true, Except.error.injEq] at he ⊢
      rw [← he]
      exact ⟨trivial, rfl⟩
    · simp [hlt] at he
  · have h0 : ¬ Real64.lt (some (0 : R)) (some 0) = true := by simp [Real64.lt]
    unfold filterLowpass
    simp [h0]
  · intro t ht
    unfold filterLowpass at ht ⊢
    by_cases hlt : Real64.lt cutoffFreq (some 0) = true
    · simp [hlt] at ht
    · cases padData <;> simp [hlt]

/-- C21 at the stand-in storage: a cutoff of -1 raises with no call made, a cutoff of 0
passes. -/
theorem C21_filterLowpass_cutoff_witness :
    filterLowpass sampleFormatG sampleStorageOps [1, 2] (some (-1)) true =
        (.error ⟨"Cutoff frequency must be non-negative; got -1."⟩, []) ∧
      (∃ e, (filterLowpass sampleFormatG sampleStorageOps [1, 2] (some (-1)) true).1 =
        .error e) ∧
      ∃ t, (filterLowpass sampleFormatG sampleStorageOps [1, 2] (some 0) true).1 = .ok t :=
  ⟨rfl,
    (C21_filterLowpass_cutoff sampleFormatG sampleStorageOps [1, 2] (some (-1)) true).1.2
      (by decide),
    (C21_filterLowpass_cutoff sampleFormatG sampleStorageOps [1, 2] (some (-1)) true).2.2.2.1⟩

/-! ## `interpolate` -/

theorem retainSamples_false (x y : List (Real64 R)) (h : x.length ≤ y.length) :
    retainSamples x y false = some (x, y.take x.length) := by
  induction x generalizing y with
  | nil => simp [retainSamples]
  | cons xi x ih =>
    cases y with
    | nil => simp at h
    | cons yi y =>
      simp only [List.length_cons, Nat.add_le_add_iff_right] at h
      simp [retainSamples, ih y h]

theorem retainSamples_true (x y : List (Real64 R)) (h : x.length ≤ y.length) :
    retainSamples x y true =
      some (((x.zip y).filter
          (fun p => !(Real64.isNaN p.1 || Real64.isNaN p.2))).map Prod.fst,
        ((x.zip y).filter
          (fun p => !(Real64.isNaN p.1 || Real64.isNaN p.2))).map Prod.snd) := by
  induction x generalizing y with
  | nil => simp [retainSamples]
  | cons xi x ih =>
    cases y with
    | nil => simp at h
    | cons yi y =>
      simp only [List.length_cons, Nat.add_le_add_iff_right] at h
      simp only [retainSamples, ih y h, Bool.and_true, List.zip_cons_cons, List.filter_cons]
      by_cases hnan : (Real64.isNaN xi || Real64.isNaN yi) = true
      · simp [hnan]
      · simp only [Bool.not_eq_true] at hnan
        simp [hnan]

/-- C22: with `ignoreNaNs` false, `interpolate` keeps every sample, NaN included, and
returns a vector without raising: on `x = [NaN, 1]`, `y = [0, 1]`, `newX = [1]` it
returns `[NaN]`. With `ignoreNaNs` true, exactly the pairs with a NaN member are dropped
and the others are kept in order. -/
theorem C22_interpolate_keeps_nan_samples :
    retainSamples [(none : Real64 Int), some 1] [some 0, some 1] false =
        some ([none, some 1], [some 0, some 1]) ∧
    interpolate sampleCalcValue [none, some 1] [some 0, some 1] [some 1] false =
        some [Real64.nan] ∧
    (∀ (T : Type) (x y : List (Real64 T)), x.length ≤ y.length →
      retainSamples x y false = some (x, y.take x.length)) ∧
    (∀ (T : Type) (x y : List (Real64 T)), x.length ≤ y.length →
      retainSamples x y true =
        some (((x.zip y).filter
            (fun p => !(Real64.isNaN p.1 || Real64.isNaN p.2))).map Prod.fst,
          ((x.zip y).filter
            (fun p => !(Real64.isNaN p.1 || Real64.isNaN p.2))).map Prod.snd)) :=
  ⟨rfl, rfl, fun _ x y h => retainSamples_false x y h, fun _ x y h => retainSamples_true x y h⟩

/-! ## `createMultiplierInfoNames` -/

theorem createMultiplierInfoNamesFrom_eq (map : StrMap (List (MucoVariableInfo R)))
    (mcs : List (MucoMultibodyConstraint R)) (names : List String)
    (h : ∀ mc ∈ mcs, ∃ infos, StrMap.find map mc.getConstraintInfo.name = some infos) :
    createMultiplierInfoNamesFrom map mcs names =
      .ok (names ++ (mcs.map (fun mc =>
        ((StrMap.find map mc.getConstraintInfo.name).getD []).map
          MucoVariableInfo.name)).flatten) := by
  induction mcs generalizing names with
  | nil => simp [createMultiplierInfoNamesFrom]
  | cons mc rest ih =>
    obtain ⟨infos, hinfos⟩ := h mc (List.mem_cons_self _ _)
    simp only [createMultiplierInfoNamesFrom, StrMap.atKey, hinfos, List.map_cons,
      List.flatten_cons, Option.getD_some]
    rw [ih _ (fun mc' hmc' => h mc' (List.mem_cons_of_mem _ hmc'))]
    simp

theorem nodup_enabled_multiplier_names (cs : List Constraint) (cid : Nat) :
    (((enabledFrom cs cid).map
      (fun p => multiplierNames p.1 p.2.mp p.2.mv p.2.ma)).flatten).Nodup := by
  have hnames : ∀ K mp mv ma, multiplierNames K mp mv ma =
      (makeMultInfos K mp mv ma (⟨none, none⟩ : MucoBounds Unit) ⟨none, none⟩
        ⟨none, none⟩).map MucoVariableInfo.name :=
    fun K mp mv ma => (makeMultInfos_names K mp mv ma _ _ _).symm
  rw [List.nodup_flatten]
  constructor
  · intro l hl
    obtain ⟨p, _, hp⟩ := List.mem_map.1 hl
    rw [← hp, hnames]
    exact nodup_makeMultInfos_names _ _ _ _ _ _ _
  · rw [List.pairwise_map]
    apply List.Pairwise.imp _ (pairwise_enabledFrom cs cid)
    intro p q hpq
    rw [List.disjoint_left]
    intro name h1 h2
    rw [hnames] at h1 h2
    exact disjoint_makeMultInfos_names p.1 q.1 _ _ _ _ _ _ _ _ _ (Nat.ne_of_lt hpq) name h1 h2

theorem length_enabled_multiplier_names (cs : List Constraint) (cid : Nat) :
    (((enabledFrom cs cid).map
      (fun p => multiplierNames p.1 p.2.mp p.2.mv p.2.ma)).flatten).length =
      ((cs.filter (fun c => !c.isDisabled)).map (fun c => c.mp + c.mv + c.ma)).sum := by
  rw [← enabledFrom_map_snd cs cid]
  induction enabledFrom cs cid with
  | nil => rfl
  | cons p rest ih =>
    simp only [List.map_cons, List.flatten_cons, List.length_append, List.sum_cons, ih]
    simp [multiplierNames, Nat.add_assoc]

/-- C25: when the constraint-info names of the enabled constraints are pairwise distinct,
`createMultiplierInfoNames` returns the names of the multiplier infos stored for the
first registered constraint, then those of the second one, and so on, each list in its
stored order: the names `lambda_cid<K>_..` of the enabled constraints by increasing index.
Its length is the sum of `mp + mv + ma` over the enabled constraints and it holds no name
twice. -/
theorem C25_multiplier_info_names (infoName : Nat → Nat → Nat → Nat → String)
    (problem : MucoProblem R) (rep : MucoProblemRep R)
    (h : MucoProblemRep.create infoName problem = .ok rep)
    (hdist : ∀ (K : Nat) (c : Constraint) (K' : Nat) (c' : Constraint),
      problem.phase0.model.constraints[K]? = some c → c.isDisabled = false →
      problem.phase0.model.constraints[K']? = some c' → c'.isDisabled = false →
      infoName K c.mp c.mv c.ma = infoName K' c'.mp c'.mv c'.ma → K = K') :
    ∃ names, rep.createMultiplierInfoNames = .ok names ∧
      names = (rep.m_multibody_constraints.map (fun mc =>
        ((StrMap.find rep.m_multiplier_infos_map mc.getConstraintInfo.name).getD []).map
          MucoVariableInfo.name)).flatten ∧
      (∀ mc ∈ rep.m_multibody_constraints,
        StrMap.find rep.m_multiplier_infos_map mc.getConstraintInfo.name =
          some (makeMultInfos mc.cid mc.mp mc.mv mc.ma problem.phase0.multiplier_bounds
            ⟨problem.phase0.multiplier_bounds.getLower,
              problem.phase0.multiplier_bounds.getUpper⟩
            ⟨problem.phase0.multiplier_bounds.getLower,
              problem.phase0.multiplier_bounds.getUpper⟩)) ∧
      names = ((enabledFrom problem.phase0.model.constraints 0).map
        (fun p => multiplierNames p.1 p.2.mp p.2.mv p.2.ma)).flatten ∧
      names.length =
        ((problem.phase0.model.constraints.filter (fun c => !c.isDisabled)).map
          (fun c => c.mp + c.mv + c.ma)).sum ∧
      names.Nodup := by
  obtain ⟨_, hrep⟩ := (create_eq_ok_iff infoName problem rep).1 h
  subst hrep
  have hfind : ∀ p ∈ enabledFrom problem.phase0.model.constraints 0,
      StrMap.find (populate infoName (MucoProblemRep.fresh problem)).m_multiplier_infos_map
        (infoName p.1 p.2.mp p.2.mv p.2.ma) = some (multInfosOf problem.phase0 p.1 p.2) := by
    intro p hp
    obtain ⟨hget, hen⟩ := (mem_enabledFrom_zero _ p).1 hp
    apply registry_find infoName problem p.1 p.2 hget hen
    intro K' c' hlt hget' hen' hname
    exact absurd (hdist K' c' p.1 p.2 hget' hen' hget hen hname) (Nat.ne_of_lt hlt)
  have hmcs := (populate_multibody infoName problem).2.1
  have hstored : ∀ mc ∈ (populate infoName (MucoProblemRep.fresh problem)).m_multibody_constraints,
      StrMap.find (populate infoName (MucoProblemRep.fresh problem)).m_multiplier_infos_map
          mc.getConstraintInfo.name =
        some (makeMultInfos mc.cid mc.mp mc.mv mc.ma problem.phase0.multiplier_bounds
          ⟨problem.phase0.multiplier_bounds.getLower,
            problem.phase0.multiplier_bounds.getUpper⟩
          ⟨problem.phase0.multiplier_bounds.getLower,
            problem.phase0.multiplier_bounds.getUpper⟩) := by
    intro mc hmc
    rw [hmcs] at hmc
    obtain ⟨p, hp, hpmc⟩ := List.mem_map.1 hmc
    rw [← hpmc]
    exact hfind p hp
  have hnames : (populate infoName (MucoProblemRep.fresh problem)).createMultiplierInfoNames =
      .ok (((populate infoName (MucoProblemRep.fresh problem)).m_multibody_constraints.map
        (fun mc => ((StrMap.find
          (populate infoName (MucoProblemRep.fresh problem)).m_multiplier_infos_map
          mc.getConstraintInfo.name).getD []).map MucoVariableInfo.name)).flatten) := by
    unfold MucoProblemRep.createMultiplierInfoNames
    rw [createMultiplierInfoNamesFrom_eq _ _ _ (fun mc hmc => ⟨_, hstored mc hmc⟩)]
    simp
  have heq : ((populate infoName (MucoProblemRep.fresh problem)).m_multibody_constraints.map
        (fun mc => ((StrMap.find
          (populate infoName (MucoProblemRep.fresh problem)).m_multiplier_infos_map
          mc.getConstraintInfo.name).getD []).map MucoVariableInfo.name)).flatten =
      ((enabledFrom problem.phase0.model.constraints 0).map
        (fun p => multiplierNames p.1 p.2.mp p.2.mv p.2.ma)).flatten := by
    congr 1
    rw [hmcs, List.map_map]
    apply List.map_congr_left
    intro p hp
    have := hfind p hp
    simp only [Function.comp]
    have hn : (makeConstraint infoName problem.phase0.multibody_constraint_bounds p.1 p.2.mp
        p.2.mv p.2.ma : MucoMultibodyConstraint R).getConstraintInfo.name =
        infoName p.1 p.2.mp p.2.mv p.2.ma := rfl
    rw [hn, this, Option.getD_some]
    exact multInfosOf_names _ _ _
  refine ⟨_, hnames, rfl, hstored, heq, ?_, ?_⟩
  · rw [heq]
    exact length_enabled_multiplier_names _ 0
  · rw [heq]
    exact nodup_enabled_multiplier_names _ 0

/-- C25 at the sample problem, whose constraint-info names are distinct: the names are
those of constraint 0, then those of constraint 2. -/
theorem C25_multiplier_info_names_witness :
    ∃ rep, MucoProblemRep.create sampleInfoName sampleProblem = .ok rep ∧
      rep.createMultiplierInfoNames =
        .ok ["lambda_cid0_p0", "lambda_cid2_v0", "lambda_cid2_a0", "lambda_cid2_a1"] ∧
      ∃ names, rep.createMultiplierInfoNames = .ok names ∧ names.length = 4 ∧ names.Nodup :=
  ⟨populate sampleInfoName (MucoProblemRep.fresh sampleProblem), rfl, rfl,
    match C25_multiplier_info_names sampleInfoName sampleProblem _ rfl (by
      intro K c K' c' _ _ _ _ hname
      have hinj : ∀ a b : Nat, sampleInfoName a c.mp c.mv c.ma =
          sampleInfoName b c'.mp c'.mv c'.ma → (to_string a).data = (to_string b).data := by
        intro a b hab
        unfold sampleInfoName at hab
        have hd := congrArg String.data hab
        simp only [String.data_append] at hd
        exact List.append_cancel_left hd
      exact to_string_injective K K' (hinj K K' hname)) with
    | ⟨names, h1, _, _, _, h5, h6⟩ => ⟨names, h1, h5.trans (by decide), h6⟩⟩

/-! ## `MocoJointReactionCost::initializeOnModelImpl` -/

namespace MocoJointReactionCost

variable {J F St : Type}

theorem resolveFrames_fields (model : JointModel R J F St)
    (self self1 : MocoJointReactionCost R J F) (h : resolveFrames model self = .ok self1) :
    self1.reaction_components = self.reaction_components ∧
    self1.reaction_weights = self.reaction_weights ∧
    self1.m_componentIndices = self.m_componentIndices ∧
    self1.m_componentWeights = self.m_componentWeights := by
  unfold resolveFrames at h
  repeat' split at h
  all_goals first
    | (cases h; exact ⟨rfl, rfl, rfl, rfl⟩)
    | cases h

theorem checkComponents_ok (comps acc : List String)
    (h : ∀ c ∈ comps, c ∈ allowedComponents) :
    checkComponents comps acc = .ok (acc ++ comps) := by
  induction comps generalizing acc with
  | nil => simp [checkComponents]
  | cons c rest ih =>
    have hc : allowedComponents.contains c = true := by
      simpa using h c (List.mem_cons_self _ _)
    simp only [checkComponents, hc, Bool.not_true, Bool.false_eq_true, if_false]
    rw [ih _ (fun c' hc' => h c' (List.mem_cons_of_mem _ hc'))]
    simp

theorem checkComponents_error (comps acc : List String) (e : Exception)
    (h : checkComponents comps acc = .error e) :
    ∃ c ∈ comps, c ∉ allowedComponents ∧
      e.msg = "Reaction component '" ++ c ++ "' not recognized." := by
  induction comps generalizing acc with
  | nil => simp [checkComponents] at h
  | cons c rest ih =>
    by_cases hc : allowedComponents.contains c = true
    · simp only [checkComponents, hc, Bool.not_true, Bool.false_eq_true, if_false] at h
      obtain ⟨c', hc', hrest⟩ := ih _ h
      exact ⟨c', List.mem_cons_of_mem _ hc', hrest⟩
    · simp only [checkComponents, hc, Bool.not_false, if_true, Except.error.injEq] at h
      refine ⟨c, List.mem_cons_self _ _, ?_, ?_⟩
      · intro hmem
        exact hc (by simpa using hmem)
      · rw [← h]

theorem checkComponents_bad (comps acc : List String) (c : String) (hc : c ∈ comps)
    (hn : c ∉ allowedComponents) : ∃ e, checkComponents comps acc = .error e := by
  induction comps generalizing acc with
  | nil => cases hc
  | cons c0 rest ih =>
    by_cases hc0 : allowedComponents.contains c0 = true
    · simp only [checkComponents, hc0, Bool.not_true, Bool.false_eq_true, if_false]
      rcases List.mem_cons.1 hc with h0 | h0
      · exact absurd (by simpa using hc0) (h0 ▸ hn)
      · exact ih _ h0
    · simp only [checkComponents, hc0, Bool.not_false, if_true]
      exact ⟨_, rfl⟩

theorem selectComponents_spec (self : MocoJointReactionCost R J F) :
    ((∃ e, selectComponents self = .error e) ↔
      ∃ c ∈ self.reaction_components, c ∉ allowedComponents) ∧
    (∀ e, selectComponents self = .error e →
      ∃ c ∈ self.reaction_components, c ∉ allowedComponents ∧
        e.msg = "Reaction component '" ++ c ++ "' not recognized.") ∧
    (∀ comps, selectComponents self = .ok comps →
      comps = (if self.reaction_components = [] then allowedComponents
        else self.reaction_components) ∧
      ∀ c ∈ comps, c ∈ allowedComponents) := by
  unfold selectComponents
  by_cases hempty : self.reaction_components = []
  · simp only [hempty, List.isEmpty_nil, if_true, List.not_mem_nil, false_and, exists_false,
      iff_false, not_exists, Except.ok.injEq]
    refine ⟨fun e he => (by cases he), fun e he => (by cases he), fun comps hc => ?_⟩
    rw [← hc]
    exact ⟨rfl, fun c hc' => hc'⟩
  · have hne : self.reaction_components.isEmpty = false := by
      cases hrc : self.reaction_components with
      | nil => exact absurd hrc hempty
      | cons a t => rfl
    simp only [hne, Bool.false_eq_true, if_false, hempty]
    by_cases hall : ∀ c ∈ self.reaction_components, c ∈ allowedComponents
    · rw [checkComponents_ok _ _ hall]
      refine ⟨⟨fun ⟨e, he⟩ => (by cases he), fun ⟨c, hc, hn⟩ => absurd (hall c hc) hn⟩,
        fun e he => (by cases he), fun comps hc => ?_⟩
      simp only [List.nil_append, Except.ok.injEq] at hc
      rw [← hc]
      exact ⟨rfl, hall⟩
    · cases hcheck : checkComponents self.reaction_components [] with
      | error e =>
        refine ⟨⟨fun _ => ?_, fun _ => ⟨e, rfl⟩⟩, fun e' he' => ?_, fun comps hc => (by cases hc)⟩
        · obtain ⟨c, hc, hn, _⟩ := checkComponents_error _ _ e hcheck
          exact ⟨c, hc, hn⟩
        · simp only [Except.error.injEq] at he'
          rw [← he']
          exact checkComponents_error _ _ e hcheck
      | ok comps =>
        exfalso
        apply hall
        intro c hc
        by_contra hn
        have hbad := checkComponents_bad self.reaction_components [] c hc hn
        obtain ⟨e, he⟩ := hbad
        rw [he] at hcheck
        cases hcheck

theorem recordComponents_spec [One R] (comps : List String)
    (self : MocoJointReactionCost R J F) :
    (recordComponents self comps).m_componentIndices =
      self.m_componentIndices ++ (comps.map componentIndex).flatten ∧
    (recordComponents self comps).m_componentWeights =
      self.m_componentWeights ++ comps.map (componentWeight self.reaction_weights) ∧
    (recordComponents self comps).m_joint = self.m_joint ∧
    (recordComponents self comps).m_frame = self.m_frame ∧
    (recordComponents self comps).m_isParentFrame = self.m_isParentFrame := by
  induction comps generalizing self with
  | nil => simp [recordComponents]
  | cons c rest ih =>
    obtain ⟨h1, h2, h3, h4, h5⟩ := ih
      { self with
        m_componentIndices := self.m_componentIndices ++ componentIndex c,
        m_componentWeights :=
          self.m_componentWeights ++ [componentWeight self.reaction_weights c] }
    simp only [recordComponents]
    rw [h1, h2, h3, h4, h5]
    simp [List.append_assoc]

theorem componentIndex_allowed (c : String) (h : c ∈ allowedComponents) :
    componentIndex c = [(allowedComponents.indexOf c / 3, allowedComponents.indexOf c % 3)] := by
  simp only [allowedComponents, List.mem_cons, List.mem_singleton, List.not_mem_nil,
    or_false] at h
  rcases h with h | h | h | h | h | h <;> subst h <;> decide

theorem componentIndex_flatten (comps : List String) (h : ∀ c ∈ comps, c ∈ allowedComponents) :
    (comps.map componentIndex).flatten =
      comps.map (fun c => (allowedComponents.indexOf c / 3, allowedComponents.indexOf c % 3)) := by
  induction comps with
  | nil => rfl
  | cons c rest ih =>
    simp only [List.map_cons, List.flatten_cons]
    rw [componentIndex_allowed c (h c (List.mem_cons_self _ _)),
      ih (fun c' hc' => h c' (List.mem_cons_of_mem _ hc'))]
    rfl

theorem componentWeight_eq [One R] (weights : StrMap R) (c : String) :
    componentWeight weights c = (StrMap.find weights c).getD 1 := by
  unfold componentWeight
  cases StrMap.find weights c <;> rfl

end MocoJointReactionCost

open MocoJointReactionCost

theorem resolveFrames_ok {J F St : Type} (model : JointModel R J F St)
    (self : MocoJointReactionCost R J F) (joint : J)
    (hpath : self.joint_path.isEmpty = false)
    (hjoint : model.getJoint self.joint_path = some joint)
    (hloads : self.loads_frame = "parent" ∨ self.loads_frame = "child")
    (hframe : self.expressed_in_frame_path.isEmpty = true ∨
      ∃ frame, model.getFrame self.expressed_in_frame_path = some frame) :
    ∃ self1, resolveFrames model self = .ok self1 := by
  have hcontains : ["parent", "child"].contains self.loads_frame = true := by
    rcases hloads with h | h <;> rw [h] <;> decide
  unfold resolveFrames
  simp only [hpath, Bool.false_eq_true, if_false, hjoint, hcontains, Bool.not_true]
  by_cases hempty : self.expressed_in_frame_path.isEmpty = true
  · simp only [hempty, if_true]
    exact ⟨_, rfl⟩
  · rcases hframe with h | ⟨frame, h⟩
    · exact absurd h hempty
    · simp only [hempty, Bool.false_eq_true, if_false, h]
      exact ⟨_, rfl⟩

/-- C23: once lines 40-62 of `initializeOnModelImpl` have passed, that is `joint_path` is
not empty and names a joint, `loads_frame` is `parent` or `child`, and
`expressed_in_frame_path` is empty or names a frame, the function raises if and only if
some given reaction component is not one of the six accepted names, the message quoting
such a component; on success the selected components are the six accepted names in their
order when none is given and the given ones otherwise, and the function appends one index
pair per selected component (row 0 for a moment and 1 for a force, column 0, 1, 2 for x, y,
z) and one weight (the weight the weight set gives the component, else 1), so that index
and weight lists of equal length stay of equal length. -/
theorem C23_reaction_components {J F St : Type} [One R] (model : JointModel R J F St)
    (self : MocoJointReactionCost R J F) (joint : J)
    (hpath : self.joint_path.isEmpty = false)
    (hjoint : model.getJoint self.joint_path = some joint)
    (hloads : self.loads_frame = "parent" ∨ self.loads_frame = "child")
    (hframe : self.expressed_in_frame_path.isEmpty = true ∨
      ∃ frame, model.getFrame self.expressed_in_frame_path = some frame) :
    ((∃ e, initializeOnModelImpl model self = .error e) ↔
      ∃ c ∈ self.reaction_components, c ∉ allowedComponents) ∧
    (∀ e, initializeOnModelImpl model self = .error e →
      ∃ c ∈ self.reaction_components, c ∉ allowedComponents ∧
        e.msg = "Reaction component '" ++ c ++ "' not recognized.") ∧
    (∀ self2, initializeOnModelImpl model self = .ok self2 →
      ∃ comps,
        comps = (if self.reaction_components = [] then allowedComponents
          else self.reaction_components) ∧
        (∀ c ∈ comps, c ∈ allowedComponents) ∧
        self2.m_componentIndices = self.m_componentIndices ++
          comps.map (fun c => (allowedComponents.indexOf c / 3, allowedComponents.indexOf c % 3)) ∧
        self2.m_componentWeights = self.m_componentWeights ++
          comps.map (fun c => (StrMap.find self.reaction_weights c).getD 1) ∧
        (self.m_componentIndices.length = self.m_componentWeights.length →
          self2.m_componentIndices.length = self2.m_componentWeights.length)) ∧
    allowedComponents.map componentIndex =
      [[(0, 0)], [(0, 1)], [(0, 2)], [(1, 0)], [(1, 1)], [(1, 2)]] := by
  obtain ⟨self1, hres⟩ := resolveFrames_ok model self joint hpath hjoint hloads hframe
  obtain ⟨hrc, hrw, hci, hcw⟩ := resolveFrames_fields model self self1 hres
  obtain ⟨hiff, herr, hok⟩ := selectComponents_spec self1
  rw [hrc] at hiff herr hok
  have hinit : initializeOnModelImpl model self =
      match selectComponents self1 with
      | .error e => .error e
      | .ok reactionComponents => .ok (recordComponents self1 reactionComponents) := by
    unfold initializeOnModelImpl
    rw [hres]
  refine ⟨?_, ?_, ?_, by decide⟩
  · rw [← hiff, hinit]
    cases selectComponents self1 with
    | error e => exact ⟨fun _ => ⟨e, rfl⟩, fun _ => ⟨e, rfl⟩⟩
    | ok comps => exact ⟨fun ⟨e, he⟩ => (by cases he), fun ⟨e, he⟩ => (by cases he)⟩
  · intro e he
    rw [hinit] at he
    cases hsel : selectComponents self1 with
    | error e' =>
      rw [hsel] at he
      simp only [Except.error.injEq] at he
      rw [← he]
      exact herr e' hsel
    | ok comps =>
      rw [hsel] at he
      cases he
  · intro self2 h2
    rw [hinit] at h2
    cases hsel : selectComponents self1 with
    | error e' =>
      rw [hsel] at h2
      cases h2
    | ok comps =>
      rw [hsel] at h2
      simp only [Except.ok.injEq] at h2
      obtain ⟨hcomps, hall⟩ := hok comps hsel
      obtain ⟨h1, h2', _, _, _⟩ := recordComponents_spec comps self1
      rw [h2, hci, componentIndex_flatten comps hall] at h1
      rw [h2, hcw, hrw] at h2'
      have hw : comps.map (componentWeight self.reaction_weights) =
          comps.map (fun c => (StrMap.find self.reaction_weights c).getD 1) :=
        List.map_congr_left (fun c _ => componentWeight_eq _ c)
      rw [hw] at h2'
      refine ⟨comps, hcomps, hall, h1, h2', fun hlen => ?_⟩
      rw [h1, h2', List.length_append, List.length_append, List.length_map, List.length_map,
        hlen]

/-- C23 on the sample joint: with the components `force-y`, `moment-x` and the weight 3 for
`force-y` the call succeeds and the lists become `[(1, 1), (0, 0)]` and `[3, 1]`. -/
theorem C23_reaction_components_witness :
    (∃ self2, initializeOnModelImpl sampleJointModel
        (sampleJointCost ["force-y", "moment-x"] [("force-y", 3)]) = .ok self2) ∧
    ∀ self2, initializeOnModelImpl sampleJointModel
        (sampleJointCost ["force-y", "moment-x"] [("force-y", 3)]) = .ok self2 →
      self2.m_componentIndices = [(1, 1), (0, 0)] ∧ self2.m_componentWeights = [3, 1] :=
  ⟨⟨_, rfl⟩, fun self2 h2 =>
    match (C23_reaction_components sampleJointModel
      (sampleJointCost ["force-y", "moment-x"] [("force-y", 3)]) () rfl rfl (Or.inr rfl)
      (Or.inl rfl)).2.2.1 self2 h2 with
    | ⟨_, hcomps, _, hidx, hw, _⟩ => by
      subst hcomps
      exact ⟨hidx, hw⟩⟩

/-- C23 as stated fails: on the sample joint the cost `unknownFrameCost` has an accepted
`joint_path` (`knee`) and an accepted `loads_frame` (`child`), and its only component
`moment-x` is one of the six names, yet `initializeOnModelImpl` raises, since the
expressed-in frame path `pelvis` names no frame (lines 59-62). -/
theorem C23_reaction_components_counterexample :
    ¬ ∀ (model : JointModel Int Unit Nat Unit) (self : MocoJointReactionCost Int Unit Nat)
      (joint : Unit), self.joint_path.isEmpty = false →
      model.getJoint self.joint_path = some joint →
      (self.loads_frame = "parent" ∨ self.loads_frame = "child") →
      ((∃ e, initializeOnModelImpl model self = .error e) ↔
        ∃ c ∈ self.reaction_components, c ∉ allowedComponents) := by
  intro hall
  have h := hall sampleJointModel unknownFrameCost () rfl rfl (Or.inr rfl)
  have herr : initializeOnModelImpl sampleJointModel unknownFrameCost =
      .error ⟨"Component not found: pelvis"⟩ := rfl
  obtain ⟨c, hc, hn⟩ := h.1 ⟨_, herr⟩
  have hc' : c = "moment-x" := by
    simpa [unknownFrameCost, sampleJointCost] using hc
  rw [hc'] at hn
  exact hn (by decide)

/-! ## `MocoJointReactionCost::calcIntegralCostImpl` -/

theorem reactionForCost_of_ne_ground {J F St : Type} [DecidableEq F]
    (model : JointModel R J F St) (isParentFrame : Bool) (joint : J) (frame : F) (state : St)
    (hframe : frame ≠ model.getGround) :
    reactionForCost model isParentFrame joint frame state =
      if isParentFrame then model.calcReactionOnParentExpressedInGround joint state
      else model.calcReactionOnChildExpressedInGround joint state := by
  unfold reactionForCost
  simp only [hframe, if_false]
  cases isParentFrame <;> rfl

theorem reactionForCost_of_ground {J F St : Type} [DecidableEq F]
    (model : JointModel R J F St) (isParentFrame : Bool) (joint : J) (state : St) :
    reactionForCost model isParentFrame joint model.getGround state =
      reactionExpressedInFrame model isParentFrame joint model.getGround state := by
  unfold reactionForCost reactionExpressedInFrame
  simp only [if_true]
  cases isParentFrame <;> rfl

/-- C24 fails on the sample joint: the cost on the child side of `knee` with the component
`moment-x` is expressed in the child frame 2, which is not the ground; the reaction in
ground has moment `(1, 0, 0)`, which re-expressed in frame 2 is `(0, -1, 0)`, so the
integrand of the re-expressed reaction is 0, whereas `calcIntegralCostImpl` uses the
reaction as expressed in ground and gives 1. -/
theorem C24_reaction_left_in_ground :
    ∃ cost, initializeOnModelImpl sampleJointModel (sampleJointCost ["moment-x"] []) = .ok cost ∧
      cost.m_joint = some () ∧ cost.m_isParentFrame = false ∧ cost.m_frame = some 2 ∧
      sampleJointModel.getGround = 0 ∧
      cost.m_componentIndices = [(0, 0)] ∧ cost.m_componentWeights = [1] ∧
      reactionExpressedInFrame sampleJointModel false () 2 () = ⟨⟨0, -1, 0⟩, ⟨2, 0, 0⟩⟩ ∧
      sumWeightedSquares (reactionExpressedInFrame sampleJointModel false () 2 ())
        cost.m_componentIndices cost.m_componentWeights 0 = 0 ∧
      reactionForCost sampleJointModel false () 2 () = ⟨⟨1, 0, 0⟩, ⟨0, 2, 0⟩⟩ ∧
      calcIntegralCostImpl sampleJointModel cost () = some 1 :=
  ⟨_, rfl, rfl, rfl, rfl, rfl, rfl, rfl, by decide, by decide, by decide, by decide⟩

/-! ## `createStateVariableNamesInSystemOrder` -/

theorem find_read_slots (names : List String) (slots : List Nat) (f : Nat → Real64 R)
    (iy : Nat) (hf : ∀ j ∈ slots, Real64.isNaN (f j) = (j == iy)) :
    (names.zip (slots.map f)).find? (fun nv => Real64.isNaN nv.2) =
      ((names.zip slots).find? (fun p => p.2 == iy)).map (fun p => (p.1, f p.2)) := by
  induction names generalizing slots with
  | nil => rfl
  | cons n names ih =>
    cases slots with
    | nil => rfl
    | cons j slots =>
      have hj := hf j (List.mem_cons_self _ _)
      have ih1 := ih slots (fun j' hj' => hf j' (List.mem_cons_of_mem _ hj'))
      simp only [List.map_cons, List.zip_cons_cons, List.find?_cons, hj]
      cases hji : (j == iy)
      · simpa using ih1
      · simp

theorem getD_set_replicate [Zero R] (ny iy j : Nat) (hj : j < ny) :
    Real64.isNaN (((List.replicate ny (some (0 : R))).set iy Real64.nan).getD j Real64.nan) =
      (j == iy) := by
  rw [List.getD_eq_getElem?_getD, List.getElem?_set]
  by_cases h : iy = j
  · subst h
    simp [Real64.isNaN, Real64.nan, hj]
  · have h2 : (j == iy) = false := by
      simpa using fun h3 => h h3.symm
    simp [h, h2, hj, Real64.isNaN, List.getElem?_replicate]

theorem sysOrderStep_spec [Zero R] (model : SystemModel R) (slots : List Nat)
    (hread : ∀ y, y.length = model.ny →
      model.getStateVariableValues y = slots.map (fun j => y.getD j Real64.nan))
    (hlt : ∀ j ∈ slots, j < model.ny) (st : SysOrderState R)
    (hy : st.y = List.replicate model.ny (some 0)) (iy : Nat) (hiy : iy < model.ny) :
    sysOrderStep model st iy =
      ⟨List.replicate model.ny (some 0),
        st.svNamesInSysOrder ++
          (((model.stateVariableNames.zip slots).find? (fun p => p.2 == iy)).map Prod.fst).toList,
        st.yIndices ++
          (((model.stateVariableNames.zip slots).find? (fun p => p.2 == iy)).map
            Prod.snd).toList⟩ := by
  have hfind := find_read_slots model.stateVariableNames slots
    (fun j => ((List.replicate model.ny (some (0 : R))).set iy Real64.nan).getD j Real64.nan) iy
    (fun j hj => getD_set_replicate model.ny iy j (hlt j hj))
  unfold sysOrderStep
  simp only [hy]
  rw [hread _ (by simp), hfind]
  cases hf : (model.stateVariableNames.zip slots).find? (fun p => p.2 == iy) with
  | none =>
    have hget : ((List.replicate model.ny (some (0 : R))).set iy Real64.nan)[iy]? =
        some Real64.nan := by
      rw [List.getElem?_set]
      simp [hiy]
    simp only [Option.map_none', Option.toList_none, List.append_nil, hget]
    simp [Real64.isNaN, Real64.nan, List.set_set, List.set_replicate_self, hy]
  | some p =>
    have hp : p.2 = iy := by simpa using List.find?_some hf
    simp only [Option.map_some', Option.toList_some, List.set_set, List.set_replicate_self, hp]

theorem sysOrder_fold [Zero R] (model : SystemModel R) (slots : List Nat)
    (hread : ∀ y, y.length = model.ny →
      model.getStateVariableValues y = slots.map (fun j => y.getD j Real64.nan))
    (hlt : ∀ j ∈ slots, j < model.ny) (n : Nat) (hn : n ≤ model.ny) :
    (List.range n).foldl (sysOrderStep model) ⟨List.replicate model.ny (some 0), [], []⟩ =
      ⟨List.replicate model.ny (some 0),
        ((List.range n).filterMap (fun iy =>
          (model.stateVariableNames.zip slots).find? (fun p => p.2 == iy))).map Prod.fst,
        ((List.range n).filterMap (fun iy =>
          (model.stateVariableNames.zip slots).find? (fun p => p.2 == iy))).map Prod.snd⟩ := by
  induction n with
  | zero => rfl
  | succ n ih =>
    rw [List.range_succ, List.foldl_append, ih (Nat.le_of_succ_le hn)]
    simp only [List.foldl_cons, List.foldl_nil]
    rw [sysOrderStep_spec model slots hread hlt _ rfl n hn]
    simp only [List.filterMap_append, List.map_append, List.filterMap_cons, List.filterMap_nil]
    cases (model.stateVariableNames.zip slots).find? (fun p => p.2 == n) <;> simp

theorem filterMap_find_snd (pairs : List (String × Nat)) (l : List Nat) :
    (l.filterMap (fun iy => pairs.find? (fun p => p.2 == iy))).map Prod.snd =
      l.filter (fun iy => decide (iy ∈ pairs.map Prod.snd)) := by
  induction l with
  | nil => rfl
  | cons iy l ih =>
    simp only [List.filterMap_cons, List.filter_cons]
    cases hf : pairs.find? (fun p => p.2 == iy) with
    | none =>
      have hnot : iy ∉ pairs.map Prod.snd := by
        intro hmem
        obtain ⟨p, hp, hpi⟩ := List.mem_map.1 hmem
        exact List.find?_eq_none.1 hf p hp (by simpa using hpi)
      simp only [hnot, decide_False, Bool.false_eq_true, if_false]
      exact ih
    | some p =>
      have hp : p.2 = iy := by simpa using List.find?_some hf
      have hmem : iy ∈ pairs.map Prod.snd :=
        List.mem_map.2 ⟨p, List.mem_of_find?_eq_some hf, hp⟩
      simp only [hmem, decide_True, if_true, List.map_cons, hp, ih]

theorem sortedPairs_perm (pairs : List (String × Nat)) (hnd : (pairs.map Prod.snd).Nodup)
    (ny : Nat) (hlt : ∀ p ∈ pairs, p.2 < ny) :
    ((List.range ny).filterMap (fun iy => pairs.find? (fun p => p.2 == iy))).Perm pairs := by
  have hnd1 : ((List.range ny).filterMap
      (fun iy => pairs.find? (fun p => p.2 == iy))).Nodup := by
    apply List.Nodup.of_map Prod.snd
    rw [filterMap_find_snd]
    exact (List.nodup_range ny).filter _
  rw [List.perm_ext_iff_of_nodup hnd1 (List.Nodup.of_map Prod.snd hnd)]
  intro p
  rw [List.mem_filterMap]
  constructor
  · rintro ⟨iy, _, hf⟩
    exact List.mem_of_find?_eq_some hf
  · intro hp
    refine ⟨p.2, List.mem_range.2 (hlt p hp), ?_⟩
    cases hf : pairs.find? (fun q => q.2 == p.2) with
    | none => exact absurd (by simp) (List.find?_eq_none.1 hf p hp)
    | some q =>
      have hq : q.2 = p.2 := by simpa using List.find?_some hf
      rw [List.inj_on_of_nodup_map hnd (List.mem_of_find?_eq_some hf) hp hq]

theorem fillYIndexMap_eq (ys : List Nat) (count : Nat) (m : List (Nat × Nat))
    (hm : ∀ kv ∈ m, kv.1 < count) :
    fillYIndexMap ys count m = m ++ List.enumFrom count ys := by
  induction ys generalizing count m with
  | nil => simp [fillYIndexMap]
  | cons iy rest ih =>
    have hany : m.any (fun kv => kv.1 == count) = false := by
      rw [List.any_eq_false]
      intro kv hkv
      have := hm kv hkv
      simp
      omega
    have hemp : emplaceIndex m count iy = m ++ [(count, iy)] := by
      unfold emplaceIndex
      simp only [hany, Bool.false_eq_true, if_false]
    simp only [fillYIndexMap, hemp]
    rw [ih (count + 1) (m ++ [(count, iy)])]
    · simp [List.enumFrom_cons]
    · intro kv hkv
      rcases List.mem_append.1 hkv with h | h
      · exact Nat.lt_succ_of_lt (hm kv h)
      · simp only [List.mem_singleton] at h
        rw [h]
        exact Nat.lt_succ_self _

/-- C26: when the state variable of each index `i` reads exactly the slot `slots[i]` of Y
and distinct state variables read distinct slots, `createStateVariableNamesInSystemOrder`
returns names that are a permutation of the state-variable names of the model, and a map
that sends each key `k` to the `k`-th of the Y indices `ys`, where `ys` lists, in strictly
increasing order, exactly the slots read by a state variable, and the `k`-th returned name
is the name of the state variable that reads the slot `ys[k]`. -/
theorem C26_names_in_system_order [Zero R] (model : SystemModel R) (slots : List Nat)
    (hlen : slots.length = model.stateVariableNames.length) (hnd : slots.Nodup)
    (hlt : ∀ j ∈ slots, j < model.ny)
    (hread : ∀ y, y.length = model.ny →
      model.getStateVariableValues y = slots.map (fun j => y.getD j Real64.nan)) :
    ∃ (names : List String) (ys : List Nat),
      createStateVariableNamesInSystemOrder model = .ok (names, ys.enum) ∧
      names.Perm model.stateVariableNames ∧
      ys.length = names.length ∧
      ys.Pairwise (fun a b => a < b) ∧
      (∀ iy, iy ∈ ys ↔ iy ∈ slots) ∧
      (∀ (k : Nat) (name : String) (iy : Nat), names[k]? = some name → ys[k]? = some iy →
        ∃ i : Nat, model.stateVariableNames[i]? = some name ∧ slots[i]? = some iy) ∧
      (∀ (k iy : Nat), (k, iy) ∈ ys.enum ↔ ys[k]? = some iy) := by
  have hfst : (model.stateVariableNames.zip slots).map Prod.fst = model.stateVariableNames :=
    List.map_fst_zip _ _ (Nat.le_of_eq hlen.symm)
  have hsnd : (model.stateVariableNames.zip slots).map Prod.snd = slots :=
    List.map_snd_zip _ _ (Nat.le_of_eq hlen)
  have hperm := sortedPairs_perm (model.stateVariableNames.zip slots) (by rw [hsnd]; exact hnd)
    model.ny (fun p hp => hlt p.2 (by rw [← hsnd]; exact List.mem_map_of_mem _ hp))
  have hys := filterMap_find_snd (model.stateVariableNames.zip slots) (List.range model.ny)
  generalize hsp : (List.range model.ny).filterMap
    (fun iy => (model.stateVariableNames.zip slots).find? (fun p => p.2 == iy)) = sp
    at hperm hys
  have hfold := sysOrder_fold model slots hread hlt model.ny (Nat.le_refl _)
  rw [hsp] at hfold
  have hlen1 : model.stateVariableNames.length = (sp.map Prod.fst).length := by
    rw [List.length_map, hperm.length_eq, List.length_zip, hlen, Nat.min_self]
  refine ⟨sp.map Prod.fst, sp.map Prod.snd, ?_, ?_, ?_, ?_, ?_, ?_, ?_⟩
  · unfold createStateVariableNamesInSystemOrder
    simp only [hfold, hlen1, if_true]
    rw [fillYIndexMap_eq _ 0 [] (fun kv hkv => (by cases hkv))]
    rfl
  · rw [← hfst]
    exact hperm.map Prod.fst
  · simp
  · rw [hys]
    exact (List.pairwise_lt_range model.ny).filter _
  · intro iy
    rw [← hsnd]
    exact (hperm.map Prod.snd).mem_iff
  · intro k name iy hname hiy
    have hk : sp[k]? = some (name, iy) := by
      rw [List.getElem?_map] at hname hiy
      cases hspk : sp[k]? with
      | none => rw [hspk] at hname; cases hname
      | some q =>
        rw [hspk] at hname hiy
        simp only [Option.map_some', Option.some.injEq] at hname hiy
        rw [← hname, ← hiy]
    have hmem : (name, iy) ∈ model.stateVariableNames.zip slots :=
      hperm.mem_iff.1 (List.getElem?_mem hk)
    obtain ⟨i, hi⟩ := List.mem_iff_getElem?.1 hmem
    exact ⟨i, List.getElem?_zip_eq_some.1 hi⟩
  · intro k iy
    exact List.mk_mem_enum_iff_getElem?

/-- C26 on the sample system: `b` reads slot 2 and `a` reads slot 0, so the names come back
as `a`, `b` and the map sends 0 to 0 and 1 to 2, slot 1 being skipped. -/
theorem C26_names_in_system_order_witness :
    createStateVariableNamesInSystemOrder sampleSystemModel =
      .ok (["a", "b"], [(0, 0), (1, 2)]) ∧
    ∃ (names : List String) (ys : List Nat),
      createStateVariableNamesInSystemOrder sampleSystemModel = .ok (names, ys.enum) ∧
      names.Perm sampleSystemModel.stateVariableNames ∧
      ys.length = names.length ∧
      ys.Pairwise (fun a b => a < b) ∧
      (∀ iy, iy ∈ ys ↔ iy ∈ [2, 0]) ∧
      (∀ (k : Nat) (name : String) (iy : Nat), names[k]? = some name → ys[k]? = some iy →
        ∃ i : Nat, sampleSystemModel.stateVariableNames[i]? = some name ∧
          [2, 0][i]? = some iy) ∧
      (∀ (k iy : Nat), (k, iy) ∈ ys.enum ↔ ys[k]? = some iy) :=
  ⟨rfl, C26_names_in_system_order sampleSystemModel [2, 0] rfl (by decide) (by decide)
    (fun _ _ => rfl)⟩

end OpenSim
